import Mathlib

/-!
# Boot orchestrator of the emulator: a shallow embedding

The definitions below embed `Source/Core/Core/Boot/Boot.cpp`.

* Strings (`std::string`) are lists of characters, one `Char` per C++ `char`.
* `u32` values are natural numbers, reduced modulo `2 ^ 32` wherever the C++
  arithmetic wraps.
* Calls that leave `Boot.cpp` (file system, disc and package providers, path
  helpers of `Common/`) are fields of an environment record; every such call
  and every alert is appended to an event trace, so that "what was opened"
  and "what was reported" are observable.
-/

set_option autoImplicit false

namespace Dolphin

/-! ## Persistent state flags -/

/-- Number of values of the `u32` type. -/
def U32 : Nat := 4294967296

/-- Addition on `u32`, which wraps modulo `2 ^ 32`. -/
def addU32 (a b : Nat) : Nat := (a + b) % U32

/-- Value of a `u32` whose object representation is the four given bytes
(lowest address first; the host is little-endian). -/
def loadU32 (b0 b1 b2 b3 : Nat) : Nat := b0 + 256 * b1 + 65536 * b2 + 16777216 * b3

/-- Object representation of a `u32`, lowest address first. -/
def storeU32 (v : Nat) : List Nat :=
  [v % 256, v / 256 % 256, v / 65536 % 256, v / 16777216 % 256]

/-- Modelled from the spec: the layout of `struct StateFlags`, declared in
`Core/Boot/Boot.h`, which is not among the sources. The record is a 32-bit
`checksum` plus a contiguous run of flag bytes starting at the member `flags`
and filling the rest of the record. `num_words` is
`(sizeof(StateFlags) - 4) / sizeof(u32)`; `checksum_first` tells whether the
checksum precedes the flag bytes (as in the header) or trails them (as the
spec words it). Nothing below depends on which of the two it is. -/
structure Layout where
  num_words : Nat
  checksum_first : Bool
deriving DecidableEq, Repr

/-- The constant `sizeof(StateFlags)`. -/
def sizeofStateFlags (L : Layout) : Nat := 4 * L.num_words + 4

/-- Modelled from the spec: a value of `struct StateFlags` (declared in
`Core/Boot/Boot.h`, not among the sources): the `checksum` member and the
bytes of all other members, in address order starting at `flags`. -/
structure StateFlags where
  checksum : Nat
  flags : List Nat
deriving DecidableEq, Repr

/-- A record that a C++ object of the type can hold: the flag bytes fill the
record, every byte is a byte and the checksum is a `u32`. -/
def StateFlags.WellFormed (L : Layout) (s : StateFlags) : Prop :=
  s.flags.length = 4 * L.num_words ∧ (∀ b ∈ s.flags, b < 256) ∧ s.checksum < U32

instance (L : Layout) (s : StateFlags) : Decidable (s.WellFormed L) := by
  unfold StateFlags.WellFormed; infer_instance

/-- The value-initialised record `StateFlags state{}`. -/
def StateFlags.zero (L : Layout) : StateFlags :=
  { checksum := 0, flags := List.replicate (4 * L.num_words) 0 }

/-- The copy `std::memcpy(flag_data.data(), &flags, length_in_bytes)` read back
as the `num_elements` elements of the `u32` array `flag_data`. -/
def memcpyWords : Nat → List Nat → List Nat
  | 0, _ => []
  | k + 1, bytes =>
    loadU32 (bytes.getD 0 0) (bytes.getD 1 0) (bytes.getD 2 0) (bytes.getD 3 0)
      :: memcpyWords k (bytes.drop 4)

/-- The call `std::accumulate(first, last, 0U)`: a left-to-right loop
`acc = acc + x` in `unsigned int`. -/
def accumulate (xs : List Nat) (init : Nat) : Nat := xs.foldl addU32 init

/-- The method `StateFlags::UpdateChecksum`. -/
def UpdateChecksum (L : Layout) (s : StateFlags) : StateFlags :=
  let length_in_bytes := sizeofStateFlags L - 4
  let num_elements := length_in_bytes / 4
  let flag_data := memcpyWords num_elements (s.flags.take length_in_bytes)
  { s with checksum := accumulate flag_data 0 }

/-- The 32-bit words of a run of bytes, in order (the spec's "record treated
as an array of 32-bit words"). -/
def wordsOf : List Nat → List Nat
  | b0 :: b1 :: b2 :: b3 :: rest => loadU32 b0 b1 b2 b3 :: wordsOf rest
  | _ => []

/-- The spec's `sum_of_words`: the sum of the 32-bit words, modulo `2 ^ 32`. -/
def sum_of_words (bytes : List Nat) : Nat := (wordsOf bytes).sum % U32

/-- The spec's checksum invariant of a record. -/
def ChecksumInvariant (s : StateFlags) : Prop := s.checksum = sum_of_words s.flags

instance (s : StateFlags) : Decidable (ChecksumInvariant s) := by
  unfold ChecksumInvariant; infer_instance

/-- Object representation of a record: what `file->Write(&state, 1)` sends
and what `file->Read(&state, 1)` overwrites. -/
def StateFlags.toBytes (L : Layout) (s : StateFlags) : List Nat :=
  if L.checksum_first then storeU32 s.checksum ++ s.flags
  else s.flags ++ storeU32 s.checksum

/-- The record whose object representation is the given bytes. -/
def StateFlags.ofBytes (L : Layout) (bytes : List Nat) : StateFlags :=
  let word (bs : List Nat) := loadU32 (bs.getD 0 0) (bs.getD 1 0) (bs.getD 2 0) (bs.getD 3 0)
  if L.checksum_first then
    { checksum := word (bytes.take 4), flags := (bytes.drop 4).take (4 * L.num_words) }
  else
    { checksum := word ((bytes.drop (4 * L.num_words)).take 4),
      flags := bytes.take (4 * L.num_words) }

/-- Modelled from the spec: an open handle of the emulated file system
(`IOS::HLE::FS::FileHandle`, not among the sources): the bytes of the file
and the current offset. -/
structure FileHandle where
  data : List Nat
  pos : Nat
deriving DecidableEq, Repr

/-- Modelled from the spec: `file->Read(&state, 1)` of the emulated file
system (not among the sources). It copies the bytes available at the current
offset, at most `sizeof(StateFlags)` of them, over the start of the record
and advances the offset; bytes of the record that the read does not reach
keep their value. -/
def FileHandle.Read (L : Layout) (h : FileHandle) (state : StateFlags) :
    StateFlags × FileHandle :=
  let got := (h.data.drop h.pos).take (sizeofStateFlags L)
  (StateFlags.ofBytes L (got ++ (state.toBytes L).drop got.length),
   { h with pos := h.pos + got.length })

/-- Modelled from the spec: `file->Seek(0, SeekMode::Set)` of the emulated
file system (not among the sources). -/
def FileHandle.Seek (h : FileHandle) (offset : Nat) : FileHandle := { h with pos := offset }

/-- Modelled from the spec: `file->Write(&state, 1)` of the emulated file
system (not among the sources): the record's bytes replace the file's bytes
from the current offset on, extending the file where needed. -/
def FileHandle.Write (L : Layout) (h : FileHandle) (state : StateFlags) : FileHandle :=
  let bytes := state.toBytes L
  { data := h.data.take h.pos ++ List.replicate (h.pos - h.data.length) 0 ++ bytes
              ++ h.data.drop (h.pos + bytes.length),
    pos := h.pos + bytes.length }

/-- Modelled from the spec: the part of the emulated file system that
`UpdateStateFlags` touches (the file system itself is not among the
sources): the state file's bytes if the file exists, and whether
`CreateAndOpenFile` succeeds on it. -/
structure StateFS where
  state_file : Option (List Nat)
  can_open : Bool
deriving DecidableEq, Repr

/-- Modelled from the spec: `fs->CreateAndOpenFile(...)` (not among the
sources): opens the file, creating it empty if absent; `none` on failure. -/
def StateFS.CreateAndOpenFile (fs : StateFS) : Option FileHandle :=
  if fs.can_open then some { data := fs.state_file.getD [], pos := 0 } else none

/-- What `UpdateStateFlags` does that a caller can observe. -/
inductive StateEvent where
  | read (state : StateFlags)
  | update_function (state : StateFlags)
  | write (offset : Nat) (bytes : List Nat)
deriving DecidableEq, Repr

/-- The function `UpdateStateFlags`. The result is the state file's part of
the file system after the call and the calls made, in order. The directories
that `CreateSystemMenuTitleDirs` creates first lie outside that part. -/
def UpdateStateFlags (L : Layout) (update_function : StateFlags → StateFlags)
    (fs : StateFS) : StateFS × List StateEvent :=
  match fs.CreateAndOpenFile with
  | none => (fs, [])
  | some file =>
    let state := StateFlags.zero L
    let (state, file, ev_read) :=
      if file.data.length = sizeofStateFlags L then
        let r := file.Read L state
        (r.1, r.2, [StateEvent.read r.1])
      else (state, file, [])
    let arg := state
    let state := update_function state
    let state := UpdateChecksum L state
    let file := file.Seek 0
    let offset := file.pos
    let file := file.Write L state
    ({ fs with state_file := some file.data },
     ev_read ++ [StateEvent.update_function arg, StateEvent.write offset (state.toBytes L)])

/-- The record `UpdateStateFlags` hands to the mutation, as the spec words it:
the stored record if the file has exactly the record's size, else zeros. -/
def storedOrZero (L : Layout) (fs : StateFS) : StateFlags :=
  let data := fs.state_file.getD []
  if data.length = sizeofStateFlags L then StateFlags.ofBytes L data else StateFlags.zero L

/-- The records handed to the mutation function, in call order. -/
def mutationArguments : List StateEvent → List StateFlags
  | [] => []
  | StateEvent.update_function s :: es => s :: mutationArguments es
  | _ :: es => mutationArguments es

/-- The writes to the state file, in order: offset and bytes. -/
def fileWrites : List StateEvent → List (Nat × List Nat)
  | [] => []
  | StateEvent.write offset bytes :: es => (offset, bytes) :: fileWrites es
  | _ :: es => fileWrites es

/-- The bytes of the state file that hold the record: the first
`sizeof(StateFlags)` bytes. -/
def recordOnFile (L : Layout) (fs : StateFS) : List Nat :=
  (fs.state_file.getD []).take (sizeofStateFlags L)

/-- The layout of the record in the emulator's header: checksum, four flag
bytes, six unknown words. -/
def headerLayout : Layout := { num_words := 7, checksum_first := true }

/-! ## Artifact classification

The embedding is of the build in which neither `HAS_STD_FILESYSTEM` (MSVC)
nor `ANDROID` is defined. -/

/-- A `std::string`: its characters in order. -/
abbrev Str := List Char

/-- Modelled from the spec: what `Boot.cpp` uses of `DiscIO::VolumeDisc`
(declared in `DiscIO/VolumeDisc.h`, not among the sources): the game
identifier, revision and disc number, and the identity of the opened blob. -/
structure VolumeDisc where
  game_id : Str
  revision : Option Nat
  disc_number : Option Nat
  blob : Nat
deriving DecidableEq, Repr

/-- Modelled from the spec: an opened install package `DiscIO::VolumeWAD`
(declared in `DiscIO/VolumeWad.h`, not among the sources). -/
structure VolumeWAD where
  blob : Nat
deriving DecidableEq, Repr

/-- Modelled from the spec: a `DiscIO::Riivolution::Patch` (declared in
`DiscIO/RiivolutionPatcher.h`, not among the sources), as an opaque value. -/
structure Patch where
  id : Nat
deriving DecidableEq, Repr

/-- Modelled from the spec: the result of `DiscIO::ParseGameModDescriptorFile`
(declared in `DiscIO/GameModDescriptor.h`, not among the sources): the base
artifact and the optional patch specification, as an opaque value. -/
structure GameModDescriptor where
  base_file : Str
  riivolution : Option Nat
deriving DecidableEq, Repr

/-- The class `BootSessionData`, without the Wii-sync members. -/
structure BootSessionData where
  m_savestate_path : Option Str
  m_delete_savestate : Bool
deriving DecidableEq, Repr

/-- The two executable readers, `ElfReader` and `DolReader`. -/
inductive ReaderKind where
  | ElfReader
  | DolReader
deriving DecidableEq, Repr

/-- A `BootExecutableReader` as constructed here: its class and the file it
was constructed from. -/
structure BootExecutableReader where
  kind : ReaderKind
  file_name : Str
deriving DecidableEq, Repr

/-- The enumeration `DiscIO::Region`. -/
inductive Region where
  | NTSC_J
  | NTSC_U
  | PAL
  | Unknown
  | NTSC_K
deriving DecidableEq, Repr

/-- The struct `BootParameters::Disc`; `volume` is a `std::unique_ptr`, which
may be null. -/
structure Disc where
  path : Str
  volume : Option VolumeDisc
  auto_disc_change_paths : List Str
deriving DecidableEq, Repr

/-- The variant `BootParameters::Parameters`. -/
inductive Parameters where
  | Disc (disc : Disc)
  | Executable (path : Str) (reader : BootExecutableReader)
  | WAD (wad : VolumeWAD)
  | NANDTitle (id : Nat)
  | IPL (path : Str) (region : Region) (disc : Option Disc)
  | DFF (dff_path : Str)
deriving DecidableEq, Repr

/-- The struct `BootParameters`. -/
structure BootParameters where
  parameters : Parameters
  riivolution_patches : List Patch
  boot_session_data : BootSessionData
deriving DecidableEq, Repr

/-- The alerts of `ReadM3UFile` and `GenerateFromFile` (`PanicAlertFmtT`),
one constructor per format string, with the format arguments. -/
inductive Alert where
  /-- Text: Files specified in the M3U file "{0}" were not found:\n{1} -/
  | m3u_files_not_found (m3u_path : Str) (listing : Str)
  /-- Text: No paths found in the M3U file "{0}" -/
  | m3u_no_paths (m3u_path : Str)
  /-- Text: The specified file "{0}" does not exist -/
  | file_does_not_exist (path : Str)
  /-- Text: Could not read "{0}". There is no disc in the drive or it is not a
  GameCube/Wii backup. -/
  | no_disc_in_drive (path : Str)
  /-- Text: "{0}" is an invalid GCM/ISO file, or is not a GC/Wii ISO. -/
  | invalid_gcm_iso (path : Str)
  /-- Text: Could not recognize file {0} -/
  | could_not_recognize (path : Str)
deriving DecidableEq, Repr

/-- What classification does that is visible outside `Boot.cpp`: alerts,
failed `ASSERT`s, the warning log, and the calls that consult the file system
or open a file. -/
inductive Event where
  | alert (a : Alert)
  | assert_failed
  | warn_log_bom (m3u_path : Str)
  | IsCDROMDevice (path : Str)
  | Exists (path : Str)
  | OpenFStream (path : Str)
  | CreateDisc (path : Str)
  | ElfReader (path : Str)
  | DolReader (path : Str)
  | CreateWAD (path : Str)
  | ParseGameModDescriptorFile (path : Str)
  | GenerateRiivolutionPatches (riivolution : Nat)
  | CreateDirectoryBlobDisc (patches : List Patch)
deriving DecidableEq, Repr

/-- The collaborators of classification that are not defined in `Boot.cpp`:
the answers of the file system and of the providers, and the two string
helpers of `Common/StringUtil`. `OpenFStream` gives the characters the opened
stream yields, `none` when the stream cannot be opened; `SplitPath` gives the
directory part, the file name and the extension. -/
structure Env where
  IsCDROMDevice : Str → Bool
  Exists : Str → Bool
  OpenFStream : Str → Option Str
  SplitPath : Str → Str × Str × Str
  ToLower : Str → Str
  CreateDisc : Str → Option VolumeDisc
  CreateWAD : Str → Option VolumeWAD
  ParseGameModDescriptorFile : Str → Option GameModDescriptor
  GenerateRiivolutionPatchesFromGameModDescriptor :
    Nat → Str → Option Nat → Option Nat → List Patch
  CreateDirectoryBlobDisc : Option VolumeDisc → List Patch → Option VolumeDisc

/-- The lines that the loop `while (std::getline(s, line))` yields on a
stream of the given characters; `cur` holds the characters of the line being
read, last first. A final line without a newline is yielded unless empty. -/
def getlinesFrom (cur : Str) : Str → List Str
  | [] => if cur.isEmpty then [] else [cur.reverse]
  | c :: cs => if c = '\n' then cur.reverse :: getlinesFrom [] cs else getlinesFrom (c :: cur) cs

/-- The lines read from a stream; a stream that failed to open yields none. -/
def getlines : Option Str → List Str
  | none => []
  | some text => getlinesFrom [] text

/-- The constant `utf8_bom`, the UTF-8 representation of U+FEFF. -/
def utf8_bom : Str := [Char.ofNat 0xEF, Char.ofNat 0xBB, Char.ofNat 0xBF]

/-- Modelled from the spec: `StringBeginsWith` of `Common/StringUtil` (not
among the sources). -/
def StringBeginsWith (str begin : Str) : Bool := begin.isPrefixOf str

/-- Modelled from the spec: `JoinStrings` of `Common/StringUtil` (not among
the sources): the strings in order, with the delimiter between neighbours. -/
def JoinStrings : List Str → Str → Str
  | [], _ => []
  | [s], _ => s
  | s :: t :: rest, delimiter => s ++ delimiter ++ JoinStrings (t :: rest) delimiter

/-- The locals of `ReadM3UFile` that its loop updates, and the trace. -/
structure M3UState where
  result : List Str
  nonexistent : List Str
  events : List Event
deriving DecidableEq, Repr

/-- The body of the loop of `ReadM3UFile` for one line. -/
def ReadM3UFile.step (env : Env) (m3u_path folder_path : Str) (st : M3UState) (line : Str) :
    M3UState :=
  let has_bom := StringBeginsWith line utf8_bom
  let st := if has_bom then { st with events := st.events ++ [Event.warn_log_bom m3u_path] } else st
  let line := if has_bom then line.drop utf8_bom.length else line
  if !line.isEmpty && line.head? != some '#' then
    let path_to_add := if line.head? != some '/' then folder_path ++ line else line
    if env.Exists path_to_add then
      { st with result := st.result ++ [path_to_add],
                events := st.events ++ [Event.Exists path_to_add] }
    else
      { st with nonexistent := st.nonexistent ++ [path_to_add],
                events := st.events ++ [Event.Exists path_to_add] }
  else st

/-- The function `ReadM3UFile`: the returned vector and the trace. -/
def ReadM3UFile (env : Env) (m3u_path folder_path : Str) : List Str × List Event :=
  let ev_assert := if folder_path.getLast? = some '/' then [] else [Event.assert_failed]
  let st : M3UState :=
    { result := [], nonexistent := [], events := ev_assert ++ [Event.OpenFStream m3u_path] }
  let st := (getlines (env.OpenFStream m3u_path)).foldl (ReadM3UFile.step env m3u_path folder_path) st
  if !st.nonexistent.isEmpty then
    ([], st.events ++
      [Event.alert (Alert.m3u_files_not_found m3u_path (JoinStrings st.nonexistent ['\n']))])
  else if st.result.isEmpty then
    (st.result, st.events ++ [Event.alert (Alert.m3u_no_paths m3u_path)])
  else (st.result, st.events)

/-- How a call of `GenerateFromFile` ends. `returned` carries the returned
pointer (`none` is the null pointer) and the trace; `undefined` is reached
where the C++ has no defined behaviour (`front()` of an empty vector,
dereferencing a null volume) and carries the trace up to that point;
`out_of_fuel` means the call had not returned when the recursion budget of the
model ran out. -/
inductive Completion where
  | out_of_fuel
  | undefined (events : List Event)
  | returned (boot : Option BootParameters) (events : List Event)
deriving DecidableEq, Repr

/-- The function `AddRiivolutionPatches`: the descriptor afterwards and the
trace. -/
def AddRiivolutionPatches (env : Env) (boot_params : BootParameters)
    (riivolution_patches : List Patch) : BootParameters × List Event :=
  if riivolution_patches.isEmpty then (boot_params, [])
  else
    match boot_params.parameters with
    | Parameters.Disc disc =>
      ({ boot_params with
          parameters := Parameters.Disc
            { disc with volume := env.CreateDirectoryBlobDisc disc.volume riivolution_patches },
          riivolution_patches := riivolution_patches },
       [Event.CreateDirectoryBlobDisc riivolution_patches])
    | _ => (boot_params, [])

/-- The constant `disc_image_extensions`. -/
def disc_image_extensions : List Str :=
  [".gcm".toList, ".iso".toList, ".tgc".toList, ".wbfs".toList, ".ciso".toList,
   ".gcz".toList, ".wia".toList, ".rvz".toList, ".dol".toList, ".elf".toList]

/-- The block of `GenerateFromFile` guarded by
`disc_image_extensions.find(extension) != end || is_drive`. -/
def GenerateFromFile.disc_image (env : Env) (is_drive : Bool) (path : Str) (paths : List Str)
    (extension : Str) (boot_session_data_ : BootSessionData) (events : List Event) :
    Completion :=
  let events := events ++ [Event.CreateDisc path]
  match env.CreateDisc path with
  | some disc =>
    Completion.returned
      (some { parameters := Parameters.Disc
                { path := path, volume := some disc, auto_disc_change_paths := paths },
              riivolution_patches := [], boot_session_data := boot_session_data_ })
      events
  | none =>
    if extension = ".elf".toList then
      Completion.returned
        (some { parameters := Parameters.Executable path
                  { kind := ReaderKind.ElfReader, file_name := path },
                riivolution_patches := [], boot_session_data := boot_session_data_ })
        (events ++ [Event.ElfReader path])
    else if extension = ".dol".toList then
      Completion.returned
        (some { parameters := Parameters.Executable path
                  { kind := ReaderKind.DolReader, file_name := path },
                riivolution_patches := [], boot_session_data := boot_session_data_ })
        (events ++ [Event.DolReader path])
    else if is_drive then
      Completion.returned none (events ++ [Event.alert (Alert.no_disc_in_drive path)])
    else
      Completion.returned none (events ++ [Event.alert (Alert.invalid_gcm_iso path)])

/-- The block of `GenerateFromFile` for `extension == ".json"`, entered with a
parsed descriptor; `recurse` is the one-path overload of `GenerateFromFile`. -/
def GenerateFromFile.json (env : Env) (recurse : Str → BootSessionData → Completion)
    (descriptor : GameModDescriptor) (boot_session_data_ : BootSessionData)
    (events : List Event) : Completion :=
  match recurse descriptor.base_file boot_session_data_ with
  | Completion.out_of_fuel => Completion.out_of_fuel
  | Completion.undefined ev => Completion.undefined (events ++ ev)
  | Completion.returned none ev =>
    Completion.returned none
      (events ++ ev ++ [Event.alert (Alert.could_not_recognize descriptor.base_file)])
  | Completion.returned (some boot_params) ev =>
    match descriptor.riivolution, boot_params.parameters with
    | some riivolution, Parameters.Disc disc =>
      match disc.volume with
      | none => Completion.undefined (events ++ ev)
      | some volume =>
        let patches := env.GenerateRiivolutionPatchesFromGameModDescriptor riivolution
          volume.game_id volume.revision volume.disc_number
        let r := AddRiivolutionPatches env boot_params patches
        Completion.returned (some r.1)
          (events ++ ev ++ [Event.GenerateRiivolutionPatches riivolution] ++ r.2)
    | _, _ => Completion.returned (some boot_params) (events ++ ev)

/-- The part of `GenerateFromFile` after the playlist has been resolved: from
`std::string path = paths.front();` to the end. -/
def GenerateFromFile.classify (env : Env) (recurse : Str → BootSessionData → Completion)
    (is_drive : Bool) (paths : List Str) (extension : Str)
    (boot_session_data_ : BootSessionData) (events : List Event) : Completion :=
  match paths with
  | [] => Completion.undefined events
  | path :: rest =>
    let paths := if rest.isEmpty then [] else path :: rest
    if extension ∈ disc_image_extensions ∨ is_drive = true then
      GenerateFromFile.disc_image env is_drive path paths extension boot_session_data_ events
    else if extension = ".dff".toList then
      Completion.returned
        (some { parameters := Parameters.DFF path, riivolution_patches := [],
                boot_session_data := boot_session_data_ })
        events
    else
      let wad := if extension = ".wad".toList then env.CreateWAD path else none
      let events := if extension = ".wad".toList then events ++ [Event.CreateWAD path] else events
      match wad with
      | some wad =>
        Completion.returned
          (some { parameters := Parameters.WAD wad, riivolution_patches := [],
                  boot_session_data := boot_session_data_ })
          events
      | none =>
        let descriptor :=
          if extension = ".json".toList then env.ParseGameModDescriptorFile path else none
        let events :=
          if extension = ".json".toList then events ++ [Event.ParseGameModDescriptorFile path]
          else events
        match descriptor with
        | some descriptor =>
          GenerateFromFile.json env recurse descriptor boot_session_data_ events
        | none =>
          Completion.returned none (events ++ [Event.alert (Alert.could_not_recognize path)])

/-- The function `BootParameters::GenerateFromFile` on a vector of paths. The
first argument bounds the depth of the recursion through mod descriptors. -/
def GenerateFromFile (env : Env) : Nat → List Str → BootSessionData → Completion
  | 0, _, _ => Completion.out_of_fuel
  | fuel + 1, paths, boot_session_data_ =>
    match paths with
    | [] => Completion.undefined [Event.assert_failed]
    | front :: _ =>
      let is_drive := env.IsCDROMDevice front
      let events := [Event.IsCDROMDevice front]
      let events := if is_drive then events else events ++ [Event.Exists front]
      if !is_drive && !env.Exists front then
        Completion.returned none (events ++ [Event.alert (Alert.file_does_not_exist front)])
      else
        let folder_path := (env.SplitPath front).1
        let extension := env.ToLower (env.SplitPath front).2.2
        let recurse := fun (boot_path : Str) (session : BootSessionData) =>
          GenerateFromFile env fuel [boot_path] session
        if extension = ".m3u".toList ∨ extension = ".m3u8".toList then
          let r := ReadM3UFile env front folder_path
          match r.1 with
          | [] => Completion.returned none (events ++ r.2)
          | new_front :: new_rest =>
            let extension := env.ToLower (env.SplitPath new_front).2.2
            GenerateFromFile.classify env recurse is_drive (new_front :: new_rest) extension
              boot_session_data_ (events ++ r.2)
        else
          GenerateFromFile.classify env recurse is_drive paths extension boot_session_data_
            events

/-! ### Vocabulary of the claims about classification -/

/-- The alerts of a trace, in order. -/
def alertsOf : List Event → List Alert
  | [] => []
  | Event.alert a :: es => a :: alertsOf es
  | _ :: es => alertsOf es

/-- The paths a trace tests for existence, in order. -/
def existsQueries : List Event → List Str
  | [] => []
  | Event.Exists p :: es => p :: existsQueries es
  | _ :: es => existsQueries es

/-- The events that open a volume, a reader, a package or a mod descriptor. -/
def Event.opensArtifact : Event → Bool
  | Event.CreateDisc _ => true
  | Event.ElfReader _ => true
  | Event.DolReader _ => true
  | Event.CreateWAD _ => true
  | Event.ParseGameModDescriptorFile _ => true
  | Event.GenerateRiivolutionPatches _ => true
  | Event.CreateDirectoryBlobDisc _ => true
  | _ => false

/-- A line of a playlist with a leading byte-order mark removed. -/
def stripBOM (line : Str) : Str :=
  if utf8_bom.isPrefixOf line then line.drop 3 else line

/-- A line that names a file: neither blank (empty) nor a comment. -/
def isEntry (line : Str) : Bool := !line.isEmpty && line.head? != some '#'

/-- The entries of a playlist given by its lines: each line without its
byte-order mark, blank lines and comment lines left out, in file order. -/
def entriesOf (lines : List Str) : List Str := (lines.map stripBOM).filter isEntry

/-- The entries of the playlist stored at a path. -/
def playlistEntries (env : Env) (m3u_path : Str) : List Str :=
  entriesOf (getlines (env.OpenFStream m3u_path))

/-- The path an entry resolves to: the entry itself when it begins with `/`,
else the playlist's directory followed by the entry. -/
def resolveEntry (folder_path line : Str) : Str :=
  if line.head? = some '/' then line else folder_path ++ line

/-- The resolved paths of a playlist's entries, in file order. -/
def resolvedEntries (env : Env) (m3u_path folder_path : Str) : List Str :=
  (playlistEntries env m3u_path).map (resolveEntry folder_path)

/-- The trace of the check that opens `GenerateFromFile`: the device query
and, for a path that is not a device, the existence query. -/
def probeEvents (env : Env) (front : Str) : List Event :=
  if env.IsCDROMDevice front then [Event.IsCDROMDevice front]
  else [Event.IsCDROMDevice front, Event.Exists front]

/-- The extension `GenerateFromFile` classifies a path by: the extension that
`SplitPath` gives, in lower case. -/
def extensionOf (env : Env) (path : Str) : Str := env.ToLower (env.SplitPath path).2.2

/-- The extension is one of the two playlist extensions. -/
def isPlaylistExtension (extension : Str) : Prop :=
  extension = ".m3u".toList ∨ extension = ".m3u8".toList

instance (extension : Str) : Decidable (isPlaylistExtension extension) := by
  unfold isPlaylistExtension; infer_instance

/-- The variants of a boot descriptor, the two executable readers apart. -/
inductive Variant where
  | Disc
  | Executable (reader : ReaderKind)
  | WAD
  | NANDTitle
  | IPL
  | DFF
deriving DecidableEq, Repr

/-- The variant of a descriptor. -/
def Parameters.variant : Parameters → Variant
  | Parameters.Disc _ => Variant.Disc
  | Parameters.Executable _ reader => Variant.Executable reader.kind
  | Parameters.WAD _ => Variant.WAD
  | Parameters.NANDTitle _ => Variant.NANDTitle
  | Parameters.IPL _ _ _ => Variant.IPL
  | Parameters.DFF _ => Variant.DFF

/-- The alerts by format string, their arguments aside. -/
inductive AlertKind where
  | m3u_files_not_found
  | m3u_no_paths
  | file_does_not_exist
  | no_disc_in_drive
  | invalid_gcm_iso
  | could_not_recognize
deriving DecidableEq, Repr

/-- The format string of an alert. -/
def Alert.kind : Alert → AlertKind
  | Alert.m3u_files_not_found _ _ => AlertKind.m3u_files_not_found
  | Alert.m3u_no_paths _ => AlertKind.m3u_no_paths
  | Alert.file_does_not_exist _ => AlertKind.file_does_not_exist
  | Alert.no_disc_in_drive _ => AlertKind.no_disc_in_drive
  | Alert.invalid_gcm_iso _ => AlertKind.invalid_gcm_iso
  | Alert.could_not_recognize _ => AlertKind.could_not_recognize

/-- What a classification selects, the paths aside: the variant of the
descriptor, or the failure as the kinds of the alerts raised, in order. -/
inductive Selection where
  | out_of_fuel
  | undefined
  | descriptor (variant : Variant)
  | failure (alerts : List AlertKind)
deriving DecidableEq, Repr

/-- The selection a call of `GenerateFromFile` ends with. -/
def Completion.selection : Completion → Selection
  | Completion.out_of_fuel => Selection.out_of_fuel
  | Completion.undefined _ => Selection.undefined
  | Completion.returned (some boot) _ => Selection.descriptor boot.parameters.variant
  | Completion.returned none events => Selection.failure ((alertsOf events).map Alert.kind)

/-- The providers answer alike for two paths: both or neither open as a
disc, both or neither open as an install package, and both parse to the same
mod descriptor or neither parses. -/
def SameAnswers (env : Env) (p q : Str) : Prop :=
  (env.CreateDisc p).isSome = (env.CreateDisc q).isSome ∧
  (env.CreateWAD p).isSome = (env.CreateWAD q).isSome ∧
  env.ParseGameModDescriptorFile p = env.ParseGameModDescriptorFile q

instance (env : Env) (p q : Str) : Decidable (SameAnswers env p q) := by
  unfold SameAnswers; infer_instance

/-- Two paths that differ in the case of the extension at most, as
`GenerateFromFile` sees them: the same directory part and, in lower case, the
same extension. -/
def SameUpToExtensionCase (env : Env) (p q : Str) : Prop :=
  (env.SplitPath p).1 = (env.SplitPath q).1 ∧ extensionOf env p = extensionOf env q

instance (env : Env) (p q : Str) : Decidable (SameUpToExtensionCase env p q) := by
  unfold SameUpToExtensionCase; infer_instance

/-! ### A sample file system -/

/-- A path split at its last `/` and at the last `.` of what follows. -/
def sampleSplitPath (p : Str) : Str × Str × Str :=
  let dir := (p.reverse.dropWhile (fun c => c ≠ '/')).reverse
  let file := p.drop dir.length
  let stem :=
    if file.contains '.' then (file.reverse.dropWhile (fun c => c ≠ '.')).reverse.dropLast
    else file
  (dir, stem, file.drop stem.length)

/-- A sample environment. `/g/list.m3u` lists two discs that exist (with a
byte-order mark, a comment and a blank line), `/g/bad.m3u` lists two files
that are missing among two that exist, `/g/none.m3u` has no entry,
`/g/upper.m3u` lists `a.ISO` first; `/g/a.iso`, `/g/a.ISO` and `/g/game.ELF`
open as discs, `/g/t.wad` as a package;
`/g/mod.json` is a mod descriptor over `/g/a.iso`, `/g/loop.json` one over
itself; `/dev/sr0` is a drive without a disc. -/
def sampleEnv : Env where
  IsCDROMDevice := fun p => p = "/dev/sr0".toList
  Exists := fun p =>
    p ≠ "/g/missing.iso".toList ∧ p ≠ "/g/gone.iso".toList ∧ p ≠ "/dev/sr0".toList
  OpenFStream := fun p =>
    if p = "/g/list.m3u".toList then some "\xEF\xBB\xBF# discs\na.iso\n\n/abs/b.iso\n".toList
    else if p = "/g/bad.m3u".toList then some "a.iso\nmissing.iso\nc.iso\ngone.iso".toList
    else if p = "/g/none.m3u".toList then some "# nothing\n\n".toList
    else if p = "/g/upper.m3u".toList then some "a.ISO\nc.iso\n".toList
    else none
  SplitPath := sampleSplitPath
  ToLower := fun s => s.map Char.toLower
  CreateDisc := fun p =>
    if p = "/g/a.iso".toList ∨ p = "/g/a.ISO".toList ∨ p = "/g/game.ELF".toList then
      some { game_id := "GAME01".toList, revision := some 0, disc_number := some 0, blob := 1 }
    else none
  CreateWAD := fun p => if p = "/g/t.wad".toList then some { blob := 2 } else none
  ParseGameModDescriptorFile := fun p =>
    if p = "/g/mod.json".toList then some { base_file := "/g/a.iso".toList, riivolution := some 7 }
    else if p = "/g/loop.json".toList then
      some { base_file := "/g/loop.json".toList, riivolution := none }
    else none
  GenerateRiivolutionPatchesFromGameModDescriptor := fun r _ _ _ => [{ id := r }]
  CreateDirectoryBlobDisc := fun v _ => v

/-- The session data of a plain boot request. -/
def plainSession : BootSessionData := { m_savestate_path := none, m_delete_savestate := false }


/-! ### Further vocabulary and samples for classification -/

/-- The events that generate or apply a patch set. -/
def Event.isPatchEvent : Event → Bool
  | Event.GenerateRiivolutionPatches _ => true
  | Event.CreateDirectoryBlobDisc _ => true
  | _ => false

/-- The sample environment with one more mod descriptor, `/g/broken.json`,
whose base artifact `/g/missing.iso` does not exist. -/
def sampleEnvBrokenMod : Env :=
  { sampleEnv with
    ParseGameModDescriptorFile := fun p =>
      if p = "/g/broken.json".toList then
        some { base_file := "/g/missing.iso".toList, riivolution := some 3 }
      else sampleEnv.ParseGameModDescriptorFile p }

/-- The sample environment with a drive named like a playlist,
`/dev/disc.m3u`, which holds a disc. -/
def sampleEnvPlaylistDrive : Env :=
  { sampleEnv with
    IsCDROMDevice := fun p => p = "/dev/disc.m3u".toList
    CreateDisc := fun p =>
      if p = "/dev/disc.m3u".toList then
        some { game_id := "GAME01".toList, revision := some 0, disc_number := some 0, blob := 1 }
      else sampleEnv.CreateDisc p }

/-- The descriptor a call of `GenerateFromFile` returns, if it returns one. -/
def Completion.descriptor : Completion → Option BootParameters
  | Completion.returned boot _ => boot
  | _ => none

/-! ## Machine bring-up

`CBoot::Load_BS2` and `CBoot::BootUp` are embedded as functions from the
answers of their collaborators to the result and the trace of what they do:
alerts, writes to registers and to emulated memory, and calls that leave
`Boot.cpp`. The `NOTICE_LOG` lines are left out of the trace. -/

/-- The special-purpose registers that `Boot.cpp` names. -/
inductive SPR where
  | HID0
  | HID4
  | IBAT3U
  | IBAT3L
  | DBAT3U
  | DBAT3L
deriving DecidableEq, Repr

/-- The parts of `PowerPC::ppcState` that `Boot.cpp` assigns: a
general-purpose register, a special-purpose register, one of the three bits
of the machine-status register, or the program counter. -/
inductive Reg where
  | gpr (index : Nat)
  | spr (s : SPR)
  | MSR_FP
  | MSR_DR
  | MSR_IR
  | PC
deriving DecidableEq, Repr

/-- The alerts of `Load_BS2` and `BootUp` (`PanicAlertFmtT`), one constructor
per format string, with the format arguments. -/
inductive BootAlert where
  /-- Text: The IPL file is not a known good dump. (CRC32: {0:x}) -/
  | ipl_not_known_good (ipl_hash : Nat)
  /-- Text: {0} IPL found in {1} directory. The disc might not be recognized -/
  | ipl_region_mismatch (found : Str) (directory : Str)
  /-- Text: Failed to load the executable to memory. -/
  | failed_to_load_executable
  /-- Text: Cannot start the game, because the GC IPL could not be found. -/
  | game_needs_gc_ipl
  /-- Text: Cannot find the GC IPL. -/
  | cannot_find_gc_ipl
deriving DecidableEq, Repr

/-- What bring-up does, in program order. `write` is an assignment to a
register of `PowerPC::ppcState`; `Descrambler` and `CopyToEmu` carry the
offset into the ROM dump and the length they are called with; `SetDisc` is
the call of `DVDInterface::SetDisc`; the other constructors are calls of the
collaborators of the same name. -/
inductive BootEvent where
  | alert (a : BootAlert)
  | write (reg : Reg) (value : Nat)
  | Write_U32 (value : Nat) (address : Nat)
  | CopyToEmu (address : Nat) (dump_offset : Nat) (length : Nat)
  | Descrambler (dump_offset : Nat) (length : Nat)
  | ReadFileToString (path : Str)
  | Exists (path : Str)
  | CreateDisc (path : Str)
  | SetDisc (disc : Option VolumeDisc) (auto_disc_change_paths : List Str)
  | symbolDB_Clear
  | UpdateDebugger_MapLoaded
  | VideoInterface_Preset (ntsc : Bool)
  | EmulatedBS2 (is_wii : Bool) (volume : VolumeDisc) (riivolution_patches : List Patch)
  | OnNewTitleLoad
  | IsValid (reader : BootExecutableReader)
  | LoadIntoMemory (reader : BootExecutableReader)
  | LoadSymbols (reader : BootExecutableReader)
  | SetupMSR
  | SetupBAT (is_wii : Bool)
  | SetupGCMemory
  | SetupWiiMemory_Retail
  | BootIOS (major_version : Nat)
  | PatchFunctions
  | Boot_WiiWAD (wad : VolumeWAD)
  | BootNANDTitle (title_id : Nat)
  | FifoPlayer_Open (path : Str)
  | ApplyGeneralMemoryPatches (riivolution_patches : List Patch)
deriving DecidableEq, Repr

/-- The contents of a file as `File::ReadFileToString` delivers them in a
`std::string`: the number of bytes and the byte at each offset below it. -/
structure FileData where
  size : Nat
  byte : Nat → Nat

/-- The configuration and the answers of the collaborators that bring-up
consults, none of which is defined in `Boot.cpp`. `ReadFileToString` gives
the bytes of a file, `none` when it cannot be read. -/
structure BootEnv where
  m_region : Region
  bWii : Bool
  SYSCONF_PAL60 : Bool
  MAIN_DEFAULT_ISO : Str
  symbolDB_IsEmpty : Bool
  IsNTSC : Region → Bool
  GetDirectoryForRegion : Region → Str
  Exists : Str → Bool
  ReadFileToString : Str → Option FileData
  ComputeCRC32 : FileData → Nat
  CreateDisc : Str → Option VolumeDisc
  EmulatedBS2 : Bool → VolumeDisc → List Patch → Bool
  IsValid : BootExecutableReader → Bool
  LoadIntoMemory : BootExecutableReader → Bool
  GetEntryPoint : BootExecutableReader → Nat
  LoadSymbols : BootExecutableReader → Bool
  Boot_WiiWAD : VolumeWAD → Bool
  BootNANDTitle : Nat → Bool
  FifoPlayer_Open : Str → Bool

/-- How a call of `Load_BS2` or `BootUp` ends: it returns a value, or it
reaches an access to the ROM dump that lies outside the string that holds the
dump, which is the last event of the trace. -/
inductive BootResult where
  | out_of_range (events : List BootEvent)
  | returned (value : Bool) (events : List BootEvent)
deriving DecidableEq, Repr

/-- The trace of a call. -/
def BootResult.events : BootResult → List BootEvent
  | BootResult.out_of_range events => events
  | BootResult.returned _ events => events

/-- The constant `NTSC_v1_0` of `Load_BS2`. -/
def NTSC_v1_0 : Nat := 0x6DAC1F2A
/-- The constant `NTSC_v1_1` of `Load_BS2`. -/
def NTSC_v1_1 : Nat := 0xD5E6FEEA
/-- The constant `NTSC_v1_2` of `Load_BS2`. -/
def NTSC_v1_2 : Nat := 0x86573808
/-- The constant `MPAL_v1_1` of `Load_BS2` (Brazil). -/
def MPAL_v1_1 : Nat := 0x667D0B64
/-- The constant `PAL_v1_0` of `Load_BS2`. -/
def PAL_v1_0 : Nat := 0x4F319F43
/-- The constant `PAL_v1_2` of `Load_BS2`. -/
def PAL_v1_2 : Nat := 0xAD1B7F16

/-- The locals `known_ipl` and `pal_ipl` of `Load_BS2` after its `switch`. -/
structure IplClass where
  known_ipl : Bool
  pal_ipl : Bool
deriving DecidableEq, Repr

/-- The `switch (ipl_hash)` of `Load_BS2`, without the alert of its default
case. -/
def Load_BS2.classify (ipl_hash : Nat) : IplClass :=
  if ipl_hash = NTSC_v1_0 ∨ ipl_hash = NTSC_v1_1 ∨ ipl_hash = NTSC_v1_2 ∨
      ipl_hash = MPAL_v1_1 then
    { known_ipl := true, pal_ipl := false }
  else if ipl_hash = PAL_v1_0 ∨ ipl_hash = PAL_v1_2 then
    { known_ipl := true, pal_ipl := true }
  else
    { known_ipl := false, pal_ipl := false }

/-- The warnings of `Load_BS2` for a dump of the given checksum: the alert of
the default case of the `switch`, then the alert of the region check. -/
def Load_BS2.warnings (env : BootEnv) (ipl_hash : Nat) : List BootEvent :=
  let c := Load_BS2.classify ipl_hash
  let boot_region := env.m_region
  (if c.known_ipl then [] else [BootEvent.alert (BootAlert.ipl_not_known_good ipl_hash)]) ++
  (if c.known_ipl && (c.pal_ipl != decide (boot_region = Region.PAL)) then
    [BootEvent.alert (BootAlert.ipl_region_mismatch
      (if c.pal_ipl then "PAL".toList else "NTSC".toList)
      (env.GetDirectoryForRegion boot_region))]
   else [])

/-- The assignments of `Load_BS2` after the two copies, the call of
`SetupBAT` among them. -/
def Load_BS2.bringUp : List BootEvent :=
  [BootEvent.write (Reg.gpr 3) 0xfff0001f,
   BootEvent.write (Reg.gpr 4) 0x00002030,
   BootEvent.write (Reg.gpr 5) 0x0000009c,
   BootEvent.write Reg.MSR_FP 1,
   BootEvent.write Reg.MSR_DR 1,
   BootEvent.write Reg.MSR_IR 1,
   BootEvent.write (Reg.spr SPR.HID0) 0x0011c464,
   BootEvent.write (Reg.spr SPR.IBAT3U) 0xfff0001f,
   BootEvent.write (Reg.spr SPR.IBAT3L) 0xfff00001,
   BootEvent.write (Reg.spr SPR.DBAT3U) 0xfff0001f,
   BootEvent.write (Reg.spr SPR.DBAT3L) 0xfff00001,
   BootEvent.SetupBAT false,
   BootEvent.write Reg.PC 0x81200150]

/-- The function `CBoot::Load_BS2`. The string `data` holds the
`data.size()` bytes read from the file and, after them, its terminator. The
descrambling works in place, on a pointer that `Load_BS2` casts to `u8*`, so
it is in range when it ends within the `data.size()` bytes; a copy only reads,
so it is in range when it ends within the bytes or on the terminator. -/
def Load_BS2 (env : BootEnv) (boot_rom_filename : Str) : BootResult :=
  match env.ReadFileToString boot_rom_filename with
  | none => BootResult.returned false [BootEvent.ReadFileToString boot_rom_filename]
  | some data =>
    let ipl_hash := env.ComputeCRC32 data
    let events := [BootEvent.ReadFileToString boot_rom_filename] ++
      Load_BS2.warnings env ipl_hash
    let events := events ++ [BootEvent.Descrambler 0x100 0x1AFE00]
    if data.size < 0x100 + 0x1AFE00 then BootResult.out_of_range events
    else
      let events := events ++ [BootEvent.CopyToEmu 0x01200000 0x100 0x700]
      let events := events ++ [BootEvent.CopyToEmu 0x01300000 0x820 0x1AFE00]
      if data.size + 1 < 0x820 + 0x1AFE00 then BootResult.out_of_range events
      else BootResult.returned true (events ++ Load_BS2.bringUp)

/-- The helper `SetDisc` of `Boot.cpp`, which hands the disc to
`DVDInterface::SetDisc`. -/
def SetDisc (disc : Option VolumeDisc) (auto_disc_change_paths : List Str) : List BootEvent :=
  [BootEvent.SetDisc disc auto_disc_change_paths]

/-- The function `SetDefaultDisc`. -/
def SetDefaultDisc (env : BootEnv) : List BootEvent :=
  let default_iso := env.MAIN_DEFAULT_ISO
  if !default_iso.isEmpty then
    [BootEvent.CreateDisc default_iso] ++ SetDisc (env.CreateDisc default_iso) []
  else []

/-- The constant `EXCEPTION_HANDLER_ADDRESSES`. -/
def EXCEPTION_HANDLER_ADDRESSES : List Nat :=
  [0x00000100, 0x00000200, 0x00000300, 0x00000400, 0x00000500, 0x00000600, 0x00000700,
   0x00000800, 0x00000900, 0x00000C00, 0x00000D00, 0x00000F00, 0x00001300, 0x00001400,
   0x00001700]

/-- The constant `RFI_INSTRUCTION`. -/
def RFI_INSTRUCTION : Nat := 0x4C000064

/-- The function `CopyDefaultExceptionHandlers`. -/
def CopyDefaultExceptionHandlers : List BootEvent :=
  EXCEPTION_HANDLER_ADDRESSES.map (fun address => BootEvent.Write_U32 RFI_INSTRUCTION address)

/-- The member `BootTitle::operator()(BootParameters::Disc&)`. -/
def BootTitle.Disc (env : BootEnv) (riivolution_patches : List Patch) (disc : Dolphin.Disc) :
    BootResult :=
  let events := SetDisc disc.volume disc.auto_disc_change_paths
  match disc.volume with
  | none => BootResult.returned false events
  | some volume =>
    let events := events ++ [BootEvent.EmulatedBS2 env.bWii volume riivolution_patches]
    if !env.EmulatedBS2 env.bWii volume riivolution_patches then
      BootResult.returned false events
    else BootResult.returned true (events ++ [BootEvent.OnNewTitleLoad])

/-- The member `BootTitle::operator()(const BootParameters::Executable&)`. -/
def BootTitle.Executable (env : BootEnv) (reader : BootExecutableReader) : BootResult :=
  let events := [BootEvent.IsValid reader]
  if !env.IsValid reader then BootResult.returned false events
  else
    let events := events ++ [BootEvent.LoadIntoMemory reader]
    if !env.LoadIntoMemory reader then
      BootResult.returned false
        (events ++ [BootEvent.alert BootAlert.failed_to_load_executable])
    else
      let events := events ++ SetDefaultDisc env
      let events := events ++ [BootEvent.SetupMSR, BootEvent.SetupBAT env.bWii]
      let events := events ++ CopyDefaultExceptionHandlers
      let events :=
        if env.bWii then
          events ++
            [BootEvent.write (Reg.spr SPR.HID0) 0x0011c464,
             BootEvent.write (Reg.spr SPR.HID4) 0x82000000,
             BootEvent.write (Reg.gpr 1) 0x8004d4bc,
             BootEvent.SetupWiiMemory_Retail,
             BootEvent.BootIOS 58]
        else events ++ [BootEvent.SetupGCMemory]
      let events := events ++ [BootEvent.OnNewTitleLoad]
      let events := events ++ [BootEvent.write Reg.PC (env.GetEntryPoint reader)]
      let events := events ++ [BootEvent.LoadSymbols reader]
      let events :=
        if env.LoadSymbols reader then
          events ++ [BootEvent.UpdateDebugger_MapLoaded, BootEvent.PatchFunctions]
        else events
      BootResult.returned true events

/-- The member `BootTitle::operator()(const DiscIO::VolumeWAD&)`. -/
def BootTitle.WAD (env : BootEnv) (wad : VolumeWAD) : BootResult :=
  let events := SetDefaultDisc env ++ [BootEvent.Boot_WiiWAD wad]
  if !env.Boot_WiiWAD wad then BootResult.returned false events
  else BootResult.returned true (events ++ [BootEvent.OnNewTitleLoad])

/-- The member `BootTitle::operator()(const BootParameters::NANDTitle&)`. -/
def BootTitle.NANDTitle (env : BootEnv) (id : Nat) : BootResult :=
  let events := SetDefaultDisc env ++ [BootEvent.BootNANDTitle id]
  if !env.BootNANDTitle id then BootResult.returned false events
  else BootResult.returned true (events ++ [BootEvent.OnNewTitleLoad])

/-- The member `BootTitle::operator()(const BootParameters::IPL&)`. -/
def BootTitle.IPL (env : BootEnv) (path : Str) (disc : Option Dolphin.Disc) : BootResult :=
  let events := [BootEvent.Exists path]
  if !env.Exists path then
    if disc.isSome then
      BootResult.returned false (events ++ [BootEvent.alert BootAlert.game_needs_gc_ipl])
    else BootResult.returned false (events ++ [BootEvent.alert BootAlert.cannot_find_gc_ipl])
  else
    match Load_BS2 env path with
    | BootResult.out_of_range ev => BootResult.out_of_range (events ++ ev)
    | BootResult.returned false ev => BootResult.returned false (events ++ ev)
    | BootResult.returned true ev =>
      let events := events ++ ev
      let events :=
        match disc with
        | some d =>
          events ++ [BootEvent.CreateDisc d.path] ++
            SetDisc (env.CreateDisc d.path) d.auto_disc_change_paths
        | none => events
      BootResult.returned true (events ++ [BootEvent.OnNewTitleLoad])

/-- The member `BootTitle::operator()(const BootParameters::DFF&)`. -/
def BootTitle.DFF (env : BootEnv) (dff_path : Str) : BootResult :=
  BootResult.returned (env.FifoPlayer_Open dff_path) [BootEvent.FifoPlayer_Open dff_path]

/-- The visit `std::visit(BootTitle(boot->riivolution_patches), boot->parameters)`. -/
def BootTitle (env : BootEnv) (riivolution_patches : List Patch) : Parameters → BootResult
  | Parameters.Disc disc => BootTitle.Disc env riivolution_patches disc
  | Parameters.Executable _ reader => BootTitle.Executable env reader
  | Parameters.WAD wad => BootTitle.WAD env wad
  | Parameters.NANDTitle id => BootTitle.NANDTitle env id
  | Parameters.IPL path _ disc => BootTitle.IPL env path disc
  | Parameters.DFF dff_path => BootTitle.DFF env dff_path

/-- The preamble of `CBoot::BootUp`: the symbol table is cleared if it is not
empty, and the video timing is preset. -/
def BootUp.preamble (env : BootEnv) : List BootEvent :=
  (if !env.symbolDB_IsEmpty then [BootEvent.symbolDB_Clear, BootEvent.UpdateDebugger_MapLoaded]
   else []) ++
  [BootEvent.VideoInterface_Preset
    (env.IsNTSC env.m_region || (env.bWii && env.SYSCONF_PAL60))]

/-- The function `CBoot::BootUp`. -/
def BootUp (env : BootEnv) (boot : BootParameters) : BootResult :=
  let events := BootUp.preamble env
  match BootTitle env boot.riivolution_patches boot.parameters with
  | BootResult.out_of_range ev => BootResult.out_of_range (events ++ ev)
  | BootResult.returned false ev => BootResult.returned false (events ++ ev)
  | BootResult.returned true ev =>
    BootResult.returned true
      (events ++ ev ++ [BootEvent.ApplyGeneralMemoryPatches boot.riivolution_patches])

/-! ### Vocabulary of the claims about bring-up -/

/-- The alerts of a bring-up trace, in order. -/
def bootAlertsOf : List BootEvent → List BootAlert
  | [] => []
  | BootEvent.alert a :: es => a :: bootAlertsOf es
  | _ :: es => bootAlertsOf es

/-- The register assignments of a trace, in order. -/
def writesOf : List BootEvent → List (Reg × Nat)
  | [] => []
  | BootEvent.write reg value :: es => (reg, value) :: writesOf es
  | _ :: es => writesOf es

/-- The writes to emulated memory of a trace, in order: a 32-bit store and
its address, or a copy from the ROM dump. -/
def memoryWritesOf : List BootEvent → List BootEvent
  | [] => []
  | BootEvent.Write_U32 value address :: es =>
    BootEvent.Write_U32 value address :: memoryWritesOf es
  | BootEvent.CopyToEmu address dump_offset length :: es =>
    BootEvent.CopyToEmu address dump_offset length :: memoryWritesOf es
  | _ :: es => memoryWritesOf es

/-- The discs handed to the drive by a trace, in order, each with its
auto-swap list. -/
def setDiscCalls : List BootEvent → List (Option VolumeDisc × List Str)
  | [] => []
  | BootEvent.SetDisc disc paths :: es => (disc, paths) :: setDiscCalls es
  | _ :: es => setDiscCalls es

/-- How often a trace signals "new title loaded". -/
def newTitleLoads : List BootEvent → Nat
  | [] => 0
  | BootEvent.OnNewTitleLoad :: es => newTitleLoads es + 1
  | _ :: es => newTitleLoads es

/-- Modelled from the spec: the slot of the emulated disc drive
(`DVDInterface`, not among the sources): the disc in the drive, if any, and
the auto-swap list. -/
structure DiscSlot where
  disc : Option VolumeDisc
  auto_disc_change_paths : List Str
deriving DecidableEq, Repr

/-- Modelled from the spec: the slot after the mounts of a trace;
`DVDInterface::SetDisc` (not among the sources) replaces the disc in the
drive and the auto-swap list, a null disc leaving the drive empty. -/
def discSlotAfter : List BootEvent → DiscSlot → DiscSlot
  | [], slot => slot
  | BootEvent.SetDisc disc paths :: es, _ =>
    discSlotAfter es { disc := disc, auto_disc_change_paths := paths }
  | _ :: es, slot => discSlotAfter es slot

/-- The effect of one event on the registers: an assignment sets its
register, and a call acts as `collaborators` says. -/
def BootEvent.applyToRegs (collaborators : BootEvent → (Reg → Nat) → Reg → Nat)
    (e : BootEvent) (regs : Reg → Nat) : Reg → Nat :=
  match e with
  | BootEvent.write reg value => fun r => if r = reg then value else regs r
  | e => collaborators e regs

/-- The registers after a trace, from the registers before it. -/
def regsAfter (collaborators : BootEvent → (Reg → Nat) → Reg → Nat)
    (events : List BootEvent) (regs : Reg → Nat) : Reg → Nat :=
  events.foldl (fun regs e => e.applyToRegs collaborators regs) regs

/-- The value last assigned to a register in a list of assignments. -/
def lastWritten : List (Reg × Nat) → Reg → Option Nat
  | [], _ => none
  | (reg, value) :: ws, r =>
    match lastWritten ws r with
    | some v => some v
    | none => if r = reg then some value else none

/-! ### Sample configurations -/

/-- A sample configuration: a GameCube session in the NTSC-U region with no
default disc image; every file exists, `/ipl/ok.bin` is a ROM dump of
0x200000 bytes with the checksum of NTSC v1.2, `/ipl/short.bin` is an empty
file, any other ROM path is unreadable; `/g/a.iso` opens as a disc; the HLE
boot of a disc, of a package and of a title fail; executables are valid, load
and have entry point 0x80003100. -/
def sampleBootEnv : BootEnv where
  m_region := Region.NTSC_U
  bWii := false
  SYSCONF_PAL60 := false
  MAIN_DEFAULT_ISO := []
  symbolDB_IsEmpty := true
  IsNTSC := fun r => r = Region.NTSC_J ∨ r = Region.NTSC_U ∨ r = Region.NTSC_K
  GetDirectoryForRegion := fun r => if r = Region.PAL then "EUR".toList else "USA".toList
  Exists := fun _ => true
  ReadFileToString := fun p =>
    if p = "/ipl/ok.bin".toList then some { size := 0x200000, byte := fun _ => 0 }
    else if p = "/ipl/short.bin".toList then some { size := 0, byte := fun _ => 0 }
    else none
  ComputeCRC32 := fun data => if data.size = 0 then 0 else 0x86573808
  CreateDisc := fun p =>
    if p = "/g/a.iso".toList then
      some { game_id := "GAME01".toList, revision := some 0, disc_number := some 0, blob := 1 }
    else none
  EmulatedBS2 := fun _ _ _ => false
  IsValid := fun _ => true
  LoadIntoMemory := fun _ => true
  GetEntryPoint := fun _ => 0x80003100
  LoadSymbols := fun _ => false
  Boot_WiiWAD := fun _ => false
  BootNANDTitle := fun _ => false
  FifoPlayer_Open := fun _ => true

/-- The sample configuration as a Wii session with `/g/a.iso` as the default
disc image. -/
def sampleWiiEnv : BootEnv :=
  { sampleBootEnv with bWii := true, MAIN_DEFAULT_ISO := "/g/a.iso".toList }

/-- A sample disc volume, the one `/g/a.iso` opens as. -/
def sampleVolume : VolumeDisc :=
  { game_id := "GAME01".toList, revision := some 0, disc_number := some 0, blob := 1 }

/-- A sample executable descriptor. -/
def sampleExecutable : BootParameters :=
  { parameters := Parameters.Executable "/g/x.elf".toList
      { kind := ReaderKind.ElfReader, file_name := "/g/x.elf".toList },
    riivolution_patches := [], boot_session_data := plainSession }

/-- Registers that all hold zero. -/
def zeroRegs : Reg → Nat := fun _ => 0

/-- Collaborators that leave every register alone. -/
def idleCollaborators : BootEvent → (Reg → Nat) → Reg → Nat := fun _ regs => regs

/-- A sample Disc descriptor over the sample volume, with a second disc in
its auto-swap list. -/
def sampleDiscBoot : BootParameters :=
  { parameters := Parameters.Disc
      { path := "/g/a.iso".toList, volume := some sampleVolume,
        auto_disc_change_paths := ["/g/a.iso".toList, "/g/b.iso".toList] },
    riivolution_patches := [], boot_session_data := plainSession }

/-- A sample install-package descriptor. -/
def sampleWadBoot : BootParameters :=
  { parameters := Parameters.WAD { blob := 2 },
    riivolution_patches := [], boot_session_data := plainSession }

/-- An empty disc drive. -/
def emptySlot : DiscSlot := { disc := none, auto_disc_change_paths := [] }

/-- The discs that the step of a variant hands to the drive before the
bring-up that can fail: the descriptor's own volume for a Disc, the
configured default disc image, if any, for an install package and an
installed title, none for the other variants. -/
def mountsBeforeBringUp (env : BootEnv) : Parameters → List (Option VolumeDisc × List Str)
  | Parameters.Disc disc => [(disc.volume, disc.auto_disc_change_paths)]
  | Parameters.WAD _ =>
    if env.MAIN_DEFAULT_ISO.isEmpty then [] else [(env.CreateDisc env.MAIN_DEFAULT_ISO, [])]
  | Parameters.NANDTitle _ =>
    if env.MAIN_DEFAULT_ISO.isEmpty then [] else [(env.CreateDisc env.MAIN_DEFAULT_ISO, [])]
  | _ => []

/-- The slot after a list of mounts: the last one stays in the drive. -/
def slotAfterMounts (mounts : List (Option VolumeDisc × List Str)) (slot : DiscSlot) :
    DiscSlot :=
  mounts.foldl (fun _ m => { disc := m.1, auto_disc_change_paths := m.2 }) slot

/-! ### Vocabulary of the last claims -/

/-- The events of a completed or abandoned call of `GenerateFromFile`. -/
def Completion.events : Completion → List Event
  | Completion.out_of_fuel => []
  | Completion.undefined events => events
  | Completion.returned _ events => events

/-- Whether a call of `GenerateFromFile` failed: it returned the null
pointer. -/
def Completion.failed : Completion → Bool
  | Completion.returned none _ => true
  | _ => false

/-- The accesses to the ROM dump in a trace, in order: offset and length. -/
def dumpAccesses : List BootEvent → List (Nat × Nat)
  | [] => []
  | BootEvent.Descrambler dump_offset length :: es => (dump_offset, length) :: dumpAccesses es
  | BootEvent.CopyToEmu _ dump_offset length :: es => (dump_offset, length) :: dumpAccesses es
  | _ :: es => dumpAccesses es

/-- The patch lists `ApplyGeneralMemoryPatches` is called with in a trace. -/
def generalPatchCalls : List BootEvent → List (List Patch)
  | [] => []
  | BootEvent.ApplyGeneralMemoryPatches patches :: es => patches :: generalPatchCalls es
  | _ :: es => generalPatchCalls es

/-- The arguments `VideoInterface::Preset` is called with in a trace. -/
def presetCalls : List BootEvent → List Bool
  | [] => []
  | BootEvent.VideoInterface_Preset ntsc :: es => ntsc :: presetCalls es
  | _ :: es => presetCalls es

/-- The events that the step of a variant can consist of: every event but
the video preset and the clearing of the symbol table, which belong to the
preamble of `BootUp`, and the final pass of general memory patches. -/
def BootEvent.inStep : BootEvent → Bool
  | BootEvent.VideoInterface_Preset _ => false
  | BootEvent.symbolDB_Clear => false
  | BootEvent.ApplyGeneralMemoryPatches _ => false
  | _ => true

/-- A descriptor with the session and no patches. -/
def descriptorOf (parameters : Parameters) : BootParameters :=
  { parameters := parameters, riivolution_patches := [], boot_session_data := plainSession }

/-- Whether a call returned true. -/
def BootResult.succeeded : BootResult → Bool
  | BootResult.returned true _ => true
  | _ => false

/-- Modelled from the spec: `Memory::Write_U32(value, address)` (Core/HW/Memmap,
not among the sources) on the emulated memory taken as the bytes at its
addresses: the four bytes of the value are stored at `address` to
`address + 3`, the most significant first. -/
def Memory.Write_U32 (value address : Nat) (memory : Nat → Nat) : Nat → Nat :=
  fun x =>
    if x = address then value / 0x1000000 % 0x100
    else if x = address + 1 then value / 0x10000 % 0x100
    else if x = address + 2 then value / 0x100 % 0x100
    else if x = address + 3 then value % 0x100
    else memory x

/-- Modelled from the spec: the 32-bit word of the emulated memory at an
address, the most significant byte first. -/
def Memory.Read_U32 (memory : Nat → Nat) (address : Nat) : Nat :=
  memory address * 0x1000000 + memory (address + 1) * 0x10000 +
    memory (address + 2) * 0x100 + memory (address + 3)

/-- The emulated memory after the 32-bit stores of a trace, in order. -/
def memoryAfterStores : List BootEvent → (Nat → Nat) → Nat → Nat
  | [], memory => memory
  | BootEvent.Write_U32 value address :: es, memory =>
    memoryAfterStores es (Memory.Write_U32 value address memory)
  | _ :: es, memory => memoryAfterStores es memory

/-- The sample Disc descriptor carrying one modification patch. -/
def samplePatchedDiscBoot : BootParameters :=
  { sampleDiscBoot with riivolution_patches := [{ id := 7 }] }

/-- The sample configuration as a GameCube session in the PAL region with the
PAL60 override active. -/
def samplePalEnv : BootEnv :=
  { sampleBootEnv with m_region := Region.PAL, SYSCONF_PAL60 := true }

/-- A sample firmware-ROM descriptor for `/ipl/ok.bin` with `/g/a.iso` as its
embedded disc. -/
def sampleIplBoot : BootParameters :=
  { parameters := Parameters.IPL "/ipl/ok.bin".toList Region.NTSC_U
      (some { path := "/g/a.iso".toList, volume := some sampleVolume,
              auto_disc_change_paths := ["/g/a.iso".toList, "/g/b.iso".toList] }),
    riivolution_patches := [], boot_session_data := plainSession }

/-- A sample replay-capture descriptor. -/
def sampleDffBoot : BootParameters :=
  { parameters := Parameters.DFF "/g/r.dff".toList,
    riivolution_patches := [], boot_session_data := plainSession }

/-- The events of `if (ipl.disc) SetDisc(CreateDisc(ipl.disc->path), ...)` in
the step of a firmware-ROM descriptor. -/
def insertEmbeddedDisc (env : BootEnv) : Option Disc → List BootEvent
  | some d =>
    [BootEvent.CreateDisc d.path,
     BootEvent.SetDisc (env.CreateDisc d.path) d.auto_disc_change_paths]
  | none => []

/-! ### Vocabulary of the claim about the paths in alerts -/

/-- The path that an alert of the classification is formatted with: the
argument `{0}` of its format string, which for the two playlist alerts is the
path of the playlist. -/
def Alert.path : Alert → Str
  | Alert.m3u_files_not_found m3u_path _ => m3u_path
  | Alert.m3u_no_paths m3u_path => m3u_path
  | Alert.file_does_not_exist path => path
  | Alert.no_disc_in_drive path => path
  | Alert.invalid_gcm_iso path => path
  | Alert.could_not_recognize path => path

/-- The path that an event of the classification consults or opens, if it is
such an event. -/
def Event.subject : Event → Option Str
  | Event.IsCDROMDevice path => some path
  | Event.Exists path => some path
  | Event.OpenFStream path => some path
  | Event.CreateDisc path => some path
  | Event.ElfReader path => some path
  | Event.DolReader path => some path
  | Event.CreateWAD path => some path
  | Event.ParseGameModDescriptorFile path => some path
  | _ => none

/-- The paths that a trace of the classification consults or opens, in
order. -/
def subjectsOf (events : List Event) : List Str := events.filterMap Event.subject

/-- The strings that an alert of the bring-up is formatted with: only the
warning about the region of the ROM has any, the family found and the
directory of the configured region. -/
def BootAlert.stringArguments : BootAlert → List Str
  | BootAlert.ipl_region_mismatch found directory => [found, directory]
  | _ => []
/-! ## Facts about the state-flags record -/

theorem memcpyWords_eq_wordsOf (k : Nat) :
    ∀ bytes : List Nat, bytes.length = 4 * k → memcpyWords k bytes = wordsOf bytes := by
  induction k with
  | zero =>
    intro bytes h
    have : bytes = [] := List.length_eq_zero.mp (by simpa using h)
    subst this
    simp [memcpyWords, wordsOf]
  | succ k ih =>
    intro bytes h
    match bytes, h with
    | b0 :: b1 :: b2 :: b3 :: rest, h =>
      have hr : rest.length = 4 * k := by simp at h; omega
      simp [memcpyWords, wordsOf, ih rest hr]
    | [], h => simp at h
    | [_], h => simp at h; omega
    | [_, _], h => simp at h; omega
    | [_, _, _], h => simp at h; omega

theorem foldl_addU32_mod (xs : List Nat) :
    ∀ init : Nat, xs.foldl addU32 init % U32 = (init + xs.sum) % U32 := by
  induction xs with
  | nil => intro init; simp
  | cons x xs ih =>
    intro init
    simp only [List.foldl_cons, List.sum_cons, ih, addU32]
    rw [Nat.add_mod, Nat.mod_mod, ← Nat.add_mod, Nat.add_assoc]

theorem foldl_addU32_lt (xs : List Nat) :
    ∀ init : Nat, init < U32 → xs.foldl addU32 init < U32 := by
  induction xs with
  | nil => intro init h; simpa using h
  | cons x xs ih =>
    intro init _
    simp only [List.foldl_cons]
    exact ih _ (Nat.mod_lt _ (by decide))

theorem accumulate_zero (xs : List Nat) : accumulate xs 0 = xs.sum % U32 := by
  have h1 := foldl_addU32_mod xs 0
  have h2 := foldl_addU32_lt xs 0 (by decide)
  unfold accumulate
  rw [Nat.mod_eq_of_lt h2] at h1
  simpa using h1

theorem UpdateChecksum_flags (L : Layout) (s : StateFlags) :
    (UpdateChecksum L s).flags = s.flags := rfl

theorem UpdateChecksum_checksum (L : Layout) (s : StateFlags)
    (hlen : s.flags.length = 4 * L.num_words) :
    (UpdateChecksum L s).checksum = sum_of_words s.flags := by
  have h4 : sizeofStateFlags L - 4 = 4 * L.num_words := by simp [sizeofStateFlags]
  have hk : (4 * L.num_words) / 4 = L.num_words := by omega
  have ht : s.flags.take (4 * L.num_words) = s.flags := by
    rw [List.take_of_length_le]; omega
  simp only [UpdateChecksum, h4, hk, ht, accumulate_zero, sum_of_words]
  rw [memcpyWords_eq_wordsOf _ _ hlen]


theorem storeU32_loadU32 (b0 b1 b2 b3 : Nat) (h0 : b0 < 256) (h1 : b1 < 256) (h2 : b2 < 256)
    (h3 : b3 < 256) : storeU32 (loadU32 b0 b1 b2 b3) = [b0, b1, b2, b3] := by
  simp only [storeU32, loadU32]
  refine congrArg₂ _ (by omega) (congrArg₂ _ (by omega) (congrArg₂ _ (by omega)
    (congrArg₂ _ (by omega) rfl)))

theorem loadU32_storeU32 (v : Nat) (h : v < U32) :
    loadU32 (v % 256) (v / 256 % 256) (v / 65536 % 256) (v / 16777216 % 256) = v := by
  simp only [loadU32, U32] at *
  omega

theorem wordsOf_length (k : Nat) :
    ∀ bytes : List Nat, bytes.length = 4 * k → (wordsOf bytes).length = k := by
  intro bytes h
  rw [← memcpyWords_eq_wordsOf k bytes h]
  clear h
  induction k generalizing bytes with
  | zero => simp [memcpyWords]
  | succ k ih => simp [memcpyWords, ih]

theorem wordsOf_bytes (k : Nat) :
    ∀ bytes : List Nat, bytes.length = 4 * k → (∀ b ∈ bytes, b < 256) →
      (wordsOf bytes).flatMap storeU32 = bytes := by
  induction k with
  | zero =>
    intro bytes h _
    have : bytes = [] := List.length_eq_zero.mp (by simpa using h)
    subst this
    simp [wordsOf]
  | succ k ih =>
    intro bytes h hb
    match bytes, h, hb with
    | b0 :: b1 :: b2 :: b3 :: rest, h, hb =>
      have hr : rest.length = 4 * k := by simp at h; omega
      have hrb : ∀ b ∈ rest, b < 256 := fun b hm => hb b (by simp [hm])
      have e := storeU32_loadU32 b0 b1 b2 b3 (hb _ (by simp)) (hb _ (by simp))
        (hb _ (by simp)) (hb _ (by simp))
      simp only [wordsOf, List.flatMap_cons, e, ih rest hr hrb]
      rfl
    | [], h, _ => simp at h
    | [_], h, _ => simp at h; omega
    | [_, _], h, _ => simp at h; omega
    | [_, _, _], h, _ => simp at h; omega

/-- C1. For every state-flags record, after `StateFlags::UpdateChecksum` the
checksum field equals the sum, modulo 2^32, of all the other 32-bit words of
the record (its `num_words` words outside the checksum field, which together
are exactly the record's other bytes), and every field other than the
checksum is unchanged. -/
theorem C1_UpdateChecksum (L : Layout) (s : StateFlags) (hs : s.WellFormed L) :
    (UpdateChecksum L s).checksum = (wordsOf s.flags).sum % 2 ^ 32 ∧
    (wordsOf s.flags).length = L.num_words ∧
    (wordsOf s.flags).flatMap storeU32 = s.flags ∧
    (UpdateChecksum L s).flags = s.flags :=
  ⟨UpdateChecksum_checksum L s hs.1, wordsOf_length _ _ hs.1,
    wordsOf_bytes _ _ hs.1 hs.2.1, rfl⟩

/-- C1, at a record of the header's layout whose words sum past 2^32. -/
theorem C1_UpdateChecksum_witness :
    (StateFlags.WellFormed headerLayout
        { checksum := 5, flags := List.replicate 28 255 }) ∧
    (UpdateChecksum headerLayout { checksum := 5, flags := List.replicate 28 255 }).checksum
      = 4294967289 ∧
    (UpdateChecksum headerLayout { checksum := 5, flags := List.replicate 28 255 }).checksum
      = (wordsOf (List.replicate 28 255)).sum % 2 ^ 32 :=
  ⟨by decide, by decide,
    (C1_UpdateChecksum headerLayout { checksum := 5, flags := List.replicate 28 255 }
      (by decide)).1⟩

theorem toBytes_length (L : Layout) (s : StateFlags) (h : s.flags.length = 4 * L.num_words) :
    (s.toBytes L).length = sizeofStateFlags L := by
  unfold StateFlags.toBytes sizeofStateFlags
  split <;> simp [storeU32, h]

theorem ofBytes_toBytes (L : Layout) (s : StateFlags) (hs : s.WellFormed L) :
    StateFlags.ofBytes L (s.toBytes L) = s := by
  obtain ⟨hlen, _, hc⟩ := hs
  have hv := loadU32_storeU32 s.checksum hc
  cases s with
  | mk c fl =>
    simp only at hlen hv
    unfold StateFlags.ofBytes StateFlags.toBytes
    by_cases hL : L.checksum_first = true
    · simp [hL, storeU32, hv, ← hlen]
    · simp only [hL, if_false, Bool.false_eq_true]
      have h1 : List.take (4 * L.num_words) (fl ++ storeU32 c) = fl := by
        rw [← hlen]; simp
      have h2 : List.drop (4 * L.num_words) (fl ++ storeU32 c) = storeU32 c := by
        rw [← hlen]; simp
      rw [h1, h2]
      simp [storeU32, hv]

theorem zero_wellFormed (L : Layout) : (StateFlags.zero L).WellFormed L := by
  refine ⟨by simp [StateFlags.zero], ?_, by simp [StateFlags.zero, U32]⟩
  intro b hb
  simp [StateFlags.zero] at hb
  omega

theorem UpdateStateFlags_opened (L : Layout) (f : StateFlags → StateFlags) (fs : StateFS)
    (hopen : fs.can_open = true) :
    UpdateStateFlags L f fs =
      (StateFS.mk (some ((UpdateChecksum L (f (storedOrZero L fs))).toBytes L ++
              (fs.state_file.getD []).drop
                ((UpdateChecksum L (f (storedOrZero L fs))).toBytes L).length)) fs.can_open,
       (if (fs.state_file.getD []).length = sizeofStateFlags L
          then [StateEvent.read (storedOrZero L fs)] else []) ++
        [StateEvent.update_function (storedOrZero L fs),
         StateEvent.write 0 ((UpdateChecksum L (f (storedOrZero L fs))).toBytes L)]) := by
  unfold UpdateStateFlags StateFS.CreateAndOpenFile storedOrZero
  simp only [hopen, if_true]
  by_cases hsz : (fs.state_file.getD []).length = sizeofStateFlags L
  · have hz : ((StateFlags.zero L).toBytes L).length = sizeofStateFlags L :=
      toBytes_length L _ (by simp [StateFlags.zero])
    have hread : (FileHandle.Read L { data := fs.state_file.getD [], pos := 0 }
        (StateFlags.zero L)).1 = StateFlags.ofBytes L (fs.state_file.getD []) := by
      simp only [FileHandle.Read, List.drop_zero]
      rw [List.take_of_length_le (by omega), hsz, ← hz, List.drop_length, List.append_nil]
    simp only [hsz, if_true, hread]
    simp [FileHandle.Write, FileHandle.Seek, FileHandle.Read]
  · simp only [hsz, if_false]
    simp [FileHandle.Write, FileHandle.Seek]

theorem getD_lt_256 (bs : List Nat) (hb : ∀ b ∈ bs, b < 256) (i : Nat) : bs.getD i 0 < 256 := by
  rw [List.getD_eq_getElem?_getD]
  cases h : bs[i]? with
  | none => simp
  | some v => exact hb v (List.getElem?_mem h)

theorem loadU32_lt (b0 b1 b2 b3 : Nat) (h0 : b0 < 256) (h1 : b1 < 256) (h2 : b2 < 256)
    (h3 : b3 < 256) : loadU32 b0 b1 b2 b3 < U32 := by
  simp only [loadU32, U32]; omega

theorem ofBytes_wellFormed (L : Layout) (bytes : List Nat)
    (hlen : bytes.length = sizeofStateFlags L) (hb : ∀ b ∈ bytes, b < 256) :
    (StateFlags.ofBytes L bytes).WellFormed L := by
  unfold sizeofStateFlags at hlen
  unfold StateFlags.ofBytes StateFlags.WellFormed
  by_cases hL : L.checksum_first = true
  · simp only [hL, if_true]
    refine ⟨by simp; omega, fun b hm => hb b ?_, ?_⟩
    · exact List.mem_of_mem_drop (List.mem_of_mem_take hm)
    · have hb4 : ∀ b ∈ bytes.take 4, b < 256 := fun b hm => hb b (List.mem_of_mem_take hm)
      exact loadU32_lt _ _ _ _ (getD_lt_256 _ hb4 0) (getD_lt_256 _ hb4 1) (getD_lt_256 _ hb4 2)
        (getD_lt_256 _ hb4 3)
  · simp only [hL, if_false, Bool.false_eq_true]
    refine ⟨by simp; omega, fun b hm => hb b (List.mem_of_mem_take hm), ?_⟩
    have hb4 : ∀ b ∈ (bytes.drop (4 * L.num_words)).take 4, b < 256 :=
      fun b hm => hb b (List.mem_of_mem_drop (List.mem_of_mem_take hm))
    exact loadU32_lt _ _ _ _ (getD_lt_256 _ hb4 0) (getD_lt_256 _ hb4 1) (getD_lt_256 _ hb4 2)
      (getD_lt_256 _ hb4 3)

theorem storedOrZero_wellFormed (L : Layout) (fs : StateFS)
    (hb : ∀ b ∈ fs.state_file.getD [], b < 256) : (storedOrZero L fs).WellFormed L := by
  unfold storedOrZero
  simp only
  split
  · exact ofBytes_wellFormed L _ (by assumption) hb
  · exact zero_wellFormed L

theorem UpdateChecksum_wellFormed (L : Layout) (s : StateFlags) (hs : s.WellFormed L) :
    (UpdateChecksum L s).WellFormed L :=
  ⟨hs.1, hs.2.1, foldl_addU32_lt _ 0 (by decide)⟩

theorem toBytes_ofBytes (L : Layout) (bytes : List Nat)
    (hlen : bytes.length = sizeofStateFlags L) (hb : ∀ b ∈ bytes, b < 256) :
    (StateFlags.ofBytes L bytes).toBytes L = bytes := by
  unfold sizeofStateFlags at hlen
  have key : ∀ w : List Nat, w.length = 4 → (∀ b ∈ w, b < 256) →
      storeU32 (loadU32 (w.getD 0 0) (w.getD 1 0) (w.getD 2 0) (w.getD 3 0)) = w := by
    intro w hw hwb
    match w, hw, hwb with
    | [b0, b1, b2, b3], _, hwb =>
      exact storeU32_loadU32 b0 b1 b2 b3 (hwb _ (by simp)) (hwb _ (by simp)) (hwb _ (by simp))
        (hwb _ (by simp))
  unfold StateFlags.ofBytes StateFlags.toBytes
  by_cases hL : L.checksum_first = true
  · simp only [hL, if_true]
    rw [key (bytes.take 4) (by simp; omega) (fun b hm => hb b (List.mem_of_mem_take hm))]
    rw [List.take_of_length_le (l := List.drop 4 bytes) (by simp; omega), List.take_append_drop]
  · simp only [hL, if_false, Bool.false_eq_true]
    rw [key ((bytes.drop (4 * L.num_words)).take 4) (by simp; omega)
      (fun b hm => hb b (List.mem_of_mem_drop (List.mem_of_mem_take hm)))]
    rw [List.take_of_length_le (l := List.drop (4 * L.num_words) bytes) (by simp; omega),
      List.take_append_drop]

/-- C2. For every mutation function and every prior content of the state
file, the record that `UpdateStateFlags` writes back at offset 0 satisfies the
checksum invariant (checksum = sum of the other 32-bit words mod 2^32),
whatever the mutation stores in the checksum field; its non-checksum fields
are exactly those produced by applying the mutation to the record that was
read. -/
theorem C2_written_record (L : Layout) (f : StateFlags → StateFlags) (fs : StateFS)
    (hopen : fs.can_open = true) (hfile : ∀ b ∈ fs.state_file.getD [], b < 256)
    (hf : ∀ s, s.WellFormed L → (f s).WellFormed L) :
    fileWrites (UpdateStateFlags L f fs).2
        = [(0, recordOnFile L (UpdateStateFlags L f fs).1)] ∧
      (recordOnFile L (UpdateStateFlags L f fs).1).length = sizeofStateFlags L ∧
      (StateFlags.ofBytes L (recordOnFile L (UpdateStateFlags L f fs).1)).checksum
        = (wordsOf (StateFlags.ofBytes L
            (recordOnFile L (UpdateStateFlags L f fs).1)).flags).sum % 2 ^ 32 ∧
      (StateFlags.ofBytes L (recordOnFile L (UpdateStateFlags L f fs).1)).flags
        = (f (storedOrZero L fs)).flags := by
  have hr := storedOrZero_wellFormed L fs hfile
  have hfr := hf _ hr
  have hs := UpdateChecksum_wellFormed L _ hfr
  have hlen := toBytes_length L _ hs.1
  have hrec : recordOnFile L (UpdateStateFlags L f fs).1
      = (UpdateChecksum L (f (storedOrZero L fs))).toBytes L := by
    rw [UpdateStateFlags_opened L f fs hopen]
    simp only [recordOnFile, Option.getD_some]
    rw [← hlen, List.take_left]
  rw [hrec, ofBytes_toBytes L _ hs]
  refine ⟨?_, hlen, UpdateChecksum_checksum L _ hfr.1, rfl⟩
  rw [UpdateStateFlags_opened L f fs hopen]
  split <;> simp [fileWrites]

/-- C2, at a stored record of the header's layout and a mutation that sets a
flag byte and stores a value of its own in the checksum field. -/
theorem C2_written_record_witness :
    fileWrites (UpdateStateFlags headerLayout
        (fun s => { checksum := 3735928559, flags := s.flags.map (fun b => (b + 255) % 256) })
        { state_file := some (List.replicate 32 1), can_open := true }).2
      = [(0, List.replicate 32 0)] ∧
    (StateFlags.ofBytes headerLayout (recordOnFile headerLayout (UpdateStateFlags headerLayout
        (fun s => { checksum := 3735928559, flags := s.flags.map (fun b => (b + 255) % 256) })
        { state_file := some (List.replicate 32 1), can_open := true }).1)).flags
      = List.replicate 28 0 :=
  have h := C2_written_record headerLayout
    (fun s => { checksum := 3735928559, flags := s.flags.map (fun b => (b + 255) % 256) })
    { state_file := some (List.replicate 32 1), can_open := true } rfl (by decide)
    (fun s hs => ⟨by simpa using hs.1,
      by intro b hb; simp only [List.mem_map] at hb; obtain ⟨a, _, rfl⟩ := hb; omega,
      by simp [U32]⟩)
  ⟨h.1.trans (by decide), h.2.2.2.trans (by decide)⟩

/-- C3. In `UpdateStateFlags`, the record handed to the mutation function is
the file's stored record exactly when the file's size equals
`sizeof(StateFlags)` (then all of it: writing the handed record out gives the
file's bytes back); for every other size (smaller, larger, or a freshly
created empty file) the mutation receives the all-zero record, never a
partially read one. -/
theorem C3_handed_record (L : Layout) (f : StateFlags → StateFlags) (fs : StateFS)
    (hopen : fs.can_open = true) (hfile : ∀ b ∈ fs.state_file.getD [], b < 256) :
    ((fs.state_file.getD []).length = sizeofStateFlags L →
      mutationArguments (UpdateStateFlags L f fs).2
          = [StateFlags.ofBytes L (fs.state_file.getD [])] ∧
        (StateFlags.ofBytes L (fs.state_file.getD [])).toBytes L = fs.state_file.getD []) ∧
    ((fs.state_file.getD []).length ≠ sizeofStateFlags L →
      mutationArguments (UpdateStateFlags L f fs).2
          = [{ checksum := 0, flags := List.replicate (4 * L.num_words) 0 }]) := by
  rw [UpdateStateFlags_opened L f fs hopen]
  refine ⟨fun h => ⟨?_, toBytes_ofBytes L _ h hfile⟩, fun h => ?_⟩
  · simp [mutationArguments, storedOrZero, h]
  · simp [mutationArguments, storedOrZero, h, StateFlags.zero]

/-- C3, at a file one byte short of the record and at a file of the record's
size. -/
theorem C3_handed_record_witness :
    mutationArguments (UpdateStateFlags headerLayout id
        { state_file := some (List.replicate 31 1), can_open := true }).2
      = [{ checksum := 0, flags := List.replicate 28 0 }] ∧
    mutationArguments (UpdateStateFlags headerLayout id
        { state_file := some (List.replicate 32 1), can_open := true }).2
      = [{ checksum := 16843009, flags := List.replicate 28 1 }] :=
  ⟨(C3_handed_record headerLayout id
      { state_file := some (List.replicate 31 1), can_open := true } rfl (by decide)).2
      (by decide),
   ((C3_handed_record headerLayout id
      { state_file := some (List.replicate 32 1), can_open := true } rfl (by decide)).1
      (by decide)).1.trans (by decide)⟩

/-! ## Facts about playlists -/

theorem entriesOf_nil : entriesOf [] = [] := rfl

theorem entriesOf_cons (line : Str) (lines : List Str) :
    entriesOf (line :: lines) =
      (if isEntry (stripBOM line) = true then [stripBOM line] else []) ++ entriesOf lines := by
  unfold entriesOf
  by_cases h : isEntry (stripBOM line) = true <;> simp [List.filter_cons, h]

theorem resolveEntry_eq (folder_path l : Str) :
    (if (l.head? != some '/') = true then folder_path ++ l else l) = resolveEntry folder_path l := by
  unfold resolveEntry
  by_cases h : l.head? = some '/' <;> simp [h]

theorem step_eq (env : Env) (m3u_path folder_path : Str) (st : M3UState) (line : Str) :
    ReadM3UFile.step env m3u_path folder_path st line =
      { result := st.result ++
          ((entriesOf [line]).map (resolveEntry folder_path)).filter env.Exists,
        nonexistent := st.nonexistent ++
          ((entriesOf [line]).map (resolveEntry folder_path)).filter (fun p => !env.Exists p),
        events := st.events ++
          (if utf8_bom.isPrefixOf line = true then [Event.warn_log_bom m3u_path] else []) ++
          ((entriesOf [line]).map (fun l => Event.Exists (resolveEntry folder_path l))) } := by
  have hs : (if utf8_bom.isPrefixOf line = true then List.drop utf8_bom.length line else line)
      = stripBOM line := rfl
  unfold ReadM3UFile.step
  simp only [StringBeginsWith, hs, resolveEntry_eq, entriesOf_cons, entriesOf_nil,
    List.append_nil]
  generalize stripBOM line = l
  have he : (!l.isEmpty && l.head? != some '#') = isEntry l := rfl
  rw [he]
  cases st with
  | mk res non evs =>
    by_cases hb : utf8_bom.isPrefixOf line = true <;>
    by_cases hl : isEntry l = true <;>
    by_cases hx : env.Exists (resolveEntry folder_path l) = true <;>
    simp [hb, hl, hx]

theorem foldl_step_eq (env : Env) (m3u_path folder_path : Str) (lines : List Str) :
    ∀ st : M3UState,
      lines.foldl (ReadM3UFile.step env m3u_path folder_path) st =
        { result := st.result ++
            ((entriesOf lines).map (resolveEntry folder_path)).filter env.Exists,
          nonexistent := st.nonexistent ++
            ((entriesOf lines).map (resolveEntry folder_path)).filter (fun p => !env.Exists p),
          events := st.events ++ lines.flatMap (fun line =>
            (if utf8_bom.isPrefixOf line = true then [Event.warn_log_bom m3u_path] else []) ++
            ((entriesOf [line]).map (fun l => Event.Exists (resolveEntry folder_path l)))) } := by
  induction lines with
  | nil => intro st; simp [entriesOf_nil]
  | cons line lines ih =>
    intro st
    rw [List.foldl_cons, ih, step_eq]
    simp only [entriesOf_cons line lines, entriesOf_cons line [], entriesOf_nil, List.append_nil,
      List.map_append, List.filter_append, List.append_assoc, List.flatMap_cons]

theorem alertsOf_append (xs ys : List Event) : alertsOf (xs ++ ys) = alertsOf xs ++ alertsOf ys := by
  induction xs with
  | nil => rfl
  | cons e xs ih => cases e <;> simp [alertsOf, ih]

theorem existsQueries_append (xs ys : List Event) :
    existsQueries (xs ++ ys) = existsQueries xs ++ existsQueries ys := by
  induction xs with
  | nil => rfl
  | cons e xs ih => cases e <;> simp [existsQueries, ih]

theorem scan_line_facts (m3u_path folder_path : Str) (line : Str) :
    alertsOf ((if utf8_bom.isPrefixOf line = true then [Event.warn_log_bom m3u_path] else []) ++
      ((entriesOf [line]).map (fun l => Event.Exists (resolveEntry folder_path l)))) = [] ∧
    existsQueries ((if utf8_bom.isPrefixOf line = true then [Event.warn_log_bom m3u_path] else []) ++
      ((entriesOf [line]).map (fun l => Event.Exists (resolveEntry folder_path l))))
      = (entriesOf [line]).map (resolveEntry folder_path) ∧
    ∀ e ∈ (if utf8_bom.isPrefixOf line = true then [Event.warn_log_bom m3u_path] else []) ++
      ((entriesOf [line]).map (fun l => Event.Exists (resolveEntry folder_path l))),
      e.opensArtifact = false := by
  simp only [entriesOf_cons, entriesOf_nil, List.append_nil]
  by_cases hb : utf8_bom.isPrefixOf line = true <;>
  by_cases hl : isEntry (stripBOM line) = true <;>
  simp [hb, hl, alertsOf, existsQueries, Event.opensArtifact]

theorem scan_facts (m3u_path folder_path : Str) (lines : List Str) :
    alertsOf (lines.flatMap (fun line =>
      (if utf8_bom.isPrefixOf line = true then [Event.warn_log_bom m3u_path] else []) ++
      ((entriesOf [line]).map (fun l => Event.Exists (resolveEntry folder_path l))))) = [] ∧
    existsQueries (lines.flatMap (fun line =>
      (if utf8_bom.isPrefixOf line = true then [Event.warn_log_bom m3u_path] else []) ++
      ((entriesOf [line]).map (fun l => Event.Exists (resolveEntry folder_path l)))))
      = (entriesOf lines).map (resolveEntry folder_path) ∧
    ∀ e ∈ (lines.flatMap (fun line =>
      (if utf8_bom.isPrefixOf line = true then [Event.warn_log_bom m3u_path] else []) ++
      ((entriesOf [line]).map (fun l => Event.Exists (resolveEntry folder_path l))))),
      e.opensArtifact = false := by
  induction lines with
  | nil => simp [alertsOf, existsQueries, entriesOf_nil]
  | cons line lines ih =>
    obtain ⟨h1, h2, h3⟩ := scan_line_facts m3u_path folder_path line
    obtain ⟨i1, i2, i3⟩ := ih
    rw [List.flatMap_cons, alertsOf_append, existsQueries_append, h1, h2, i1, i2]
    refine ⟨rfl, ?_, ?_⟩
    · rw [entriesOf_cons line lines, entriesOf_cons line [], entriesOf_nil]
      simp
    · intro e he
      rcases List.mem_append.mp he with h | h
      · exact h3 e h
      · exact i3 e h

/-- What `ReadM3UFile` returns and reports, in terms of the playlist's
resolved entries. -/
theorem ReadM3UFile_eq (env : Env) (m3u_path folder_path : Str) :
    ∃ scan : List Event,
      alertsOf scan = [] ∧
      existsQueries scan = resolvedEntries env m3u_path folder_path ∧
      (∀ e ∈ scan, e.opensArtifact = false) ∧
      ReadM3UFile env m3u_path folder_path =
        if (resolvedEntries env m3u_path folder_path).filter (fun p => !env.Exists p) ≠ [] then
          ([], scan ++ [Event.alert (Alert.m3u_files_not_found m3u_path
            (JoinStrings ((resolvedEntries env m3u_path folder_path).filter
              (fun p => !env.Exists p)) ['\n']))])
        else if (resolvedEntries env m3u_path folder_path).filter env.Exists = [] then
          ([], scan ++ [Event.alert (Alert.m3u_no_paths m3u_path)])
        else ((resolvedEntries env m3u_path folder_path).filter env.Exists, scan) := by
  obtain ⟨h1, h2, h3⟩ := scan_facts m3u_path folder_path (getlines (env.OpenFStream m3u_path))
  refine ⟨(if folder_path.getLast? = some '/' then [] else [Event.assert_failed]) ++
      [Event.OpenFStream m3u_path] ++
      (getlines (env.OpenFStream m3u_path)).flatMap (fun line =>
        (if utf8_bom.isPrefixOf line = true then [Event.warn_log_bom m3u_path] else []) ++
        ((entriesOf [line]).map (fun l => Event.Exists (resolveEntry folder_path l)))),
    ?_, ?_, ?_, ?_⟩
  · rw [alertsOf_append, alertsOf_append, h1]
    split <;> simp [alertsOf]
  · rw [existsQueries_append, existsQueries_append, h2]
    split <;> simp [existsQueries, resolvedEntries, playlistEntries]
  · intro e he
    rcases List.mem_append.mp he with h | h
    · rcases List.mem_append.mp h with h | h
      · split at h <;> simp at h
        subst h; rfl
      · simp at h; subst h; rfl
    · exact h3 e h
  · unfold ReadM3UFile
    simp only [foldl_step_eq, List.nil_append, resolvedEntries, playlistEntries]
    by_cases hm : List.filter (fun p => !env.Exists p)
        (List.map (resolveEntry folder_path) (entriesOf (getlines (env.OpenFStream m3u_path)))) = []
    · by_cases ho : List.filter env.Exists
        (List.map (resolveEntry folder_path) (entriesOf (getlines (env.OpenFStream m3u_path)))) = []
      · simp [hm, ho]
      · simp [hm, ho]
    · simp [hm]

theorem getlinesFrom_no_newline (text : Str) :
    ∀ cur : Str, '\n' ∉ cur → ∀ l ∈ getlinesFrom cur text, '\n' ∉ l := by
  induction text with
  | nil =>
    intro cur hc l hl
    unfold getlinesFrom at hl
    split at hl
    · simp at hl
    · simp only [List.mem_singleton] at hl
      subst hl
      simpa using hc
  | cons c cs ih =>
    intro cur hc l hl
    unfold getlinesFrom at hl
    split at hl
    · rcases List.mem_cons.mp hl with h | h
      · subst h; simpa using hc
      · exact ih [] (by simp) l h
    · rename_i hne
      exact ih (c :: cur) (by
        intro hm
        rcases List.mem_cons.mp hm with h | h
        · exact hne h.symm
        · exact hc h) l hl

theorem getlinesFrom_line (s : Str) (hs : '\n' ∉ s) :
    ∀ (cur rest : Str), getlinesFrom cur (s ++ '\n' :: rest)
      = (cur.reverse ++ s) :: getlinesFrom [] rest := by
  induction s with
  | nil => intro cur rest; simp [getlinesFrom]
  | cons c cs ih =>
    intro cur rest
    have hc : c ≠ '\n' := fun h => hs (by simp [h])
    have hcs : '\n' ∉ cs := fun h => hs (by simp [h])
    rw [List.cons_append, getlinesFrom, if_neg hc, ih hcs]
    simp

theorem getlinesFrom_last (s : Str) (hs : '\n' ∉ s) :
    ∀ cur : Str, cur.reverse ++ s ≠ [] → getlinesFrom cur s = [cur.reverse ++ s] := by
  induction s with
  | nil =>
    intro cur hne
    have : cur ≠ [] := by simpa using hne
    simp [getlinesFrom, this]
  | cons c cs ih =>
    intro cur _
    have hc : c ≠ '\n' := fun h => hs (by simp [h])
    have hcs : '\n' ∉ cs := fun h => hs (by simp [h])
    rw [getlinesFrom, if_neg hc, ih hcs (c :: cur) (by simp)]
    simp

/-- Reading a listing made by `JoinStrings` line by line gives the joined
strings back, when none of them is empty or holds a newline. -/
theorem getlines_JoinStrings (xs : List Str) (h : ∀ x ∈ xs, '\n' ∉ x ∧ x ≠ []) :
    getlines (some (JoinStrings xs ['\n'])) = xs := by
  unfold getlines
  induction xs with
  | nil => simp [JoinStrings, getlinesFrom]
  | cons x xs ih =>
    obtain ⟨hx, hne⟩ := h x (by simp)
    cases xs with
    | nil =>
      simp only [JoinStrings]
      rw [getlinesFrom_last x hx [] (by simpa using hne)]
      simp
    | cons y ys =>
      simp only [JoinStrings, List.append_assoc, List.singleton_append]
      rw [getlinesFrom_line x hx]
      have := ih (fun z hz => h z (by simp [List.mem_cons] at hz ⊢; tauto))
      simp only at this
      rw [this]
      simp

theorem entriesOf_facts (lines : List Str) (hl : ∀ l ∈ lines, '\n' ∉ l) :
    ∀ e ∈ entriesOf lines, '\n' ∉ e ∧ e ≠ [] ∧ e.head? ≠ some '#' := by
  intro e he
  unfold entriesOf at he
  obtain ⟨hm, hent⟩ := List.mem_filter.mp he
  obtain ⟨l, hlm, rfl⟩ := List.mem_map.mp hm
  refine ⟨?_, ?_, ?_⟩
  · intro hin
    apply hl l hlm
    unfold stripBOM at hin
    split at hin
    · exact List.mem_of_mem_drop hin
    · exact hin
  · intro h0
    simp [isEntry, h0] at hent
  · intro h0
    simp [isEntry, h0] at hent

theorem playlistEntries_facts (env : Env) (m3u_path : Str) :
    ∀ e ∈ playlistEntries env m3u_path, '\n' ∉ e ∧ e ≠ [] ∧ e.head? ≠ some '#' := by
  apply entriesOf_facts
  intro l hl
  cases h : env.OpenFStream m3u_path with
  | none => simp [h, getlines] at hl
  | some text =>
    rw [h] at hl
    exact getlinesFrom_no_newline text [] (by simp) l hl

theorem resolvedEntries_facts (env : Env) (m3u_path folder_path : Str)
    (hf : '\n' ∉ folder_path) :
    ∀ p ∈ resolvedEntries env m3u_path folder_path, '\n' ∉ p ∧ p ≠ [] := by
  intro p hp
  obtain ⟨e, he, rfl⟩ := List.mem_map.mp hp
  obtain ⟨h1, h2, _⟩ := playlistEntries_facts env m3u_path e he
  unfold resolveEntry
  split
  · exact ⟨h1, h2⟩
  · refine ⟨?_, by simp [h2]⟩
    intro hin
    rcases List.mem_append.mp hin with h | h
    · exact hf h
    · exact h1 h

/-! ## Facts about classification -/

theorem probeEvents_facts (env : Env) (front : Str) :
    alertsOf (probeEvents env front) = [] ∧
    ∀ e ∈ probeEvents env front, e.opensArtifact = false := by
  unfold probeEvents
  split <;> simp [alertsOf, Event.opensArtifact]

theorem GenerateFromFile_not_found (env : Env) (fuel : Nat) (front : Str) (rest : List Str)
    (session : BootSessionData) (hd : env.IsCDROMDevice front = false)
    (hx : env.Exists front = false) :
    GenerateFromFile env (fuel + 1) (front :: rest) session =
      Completion.returned none
        [Event.IsCDROMDevice front, Event.Exists front,
         Event.alert (Alert.file_does_not_exist front)] := by
  simp [GenerateFromFile, hd, hx]

theorem GenerateFromFile_playlist (env : Env) (fuel : Nat) (front : Str) (rest : List Str)
    (session : BootSessionData)
    (hreach : env.IsCDROMDevice front = true ∨ env.Exists front = true)
    (hext : isPlaylistExtension (extensionOf env front)) :
    GenerateFromFile env (fuel + 1) (front :: rest) session =
      match (ReadM3UFile env front (env.SplitPath front).1).1 with
      | [] => Completion.returned none
          (probeEvents env front ++ (ReadM3UFile env front (env.SplitPath front).1).2)
      | new_front :: new_rest =>
        GenerateFromFile.classify env (fun p s => GenerateFromFile env fuel [p] s)
          (env.IsCDROMDevice front) (new_front :: new_rest) (extensionOf env new_front) session
          (probeEvents env front ++ (ReadM3UFile env front (env.SplitPath front).1).2) := by
  have hgo : (!env.IsCDROMDevice front && !env.Exists front) = false := by
    rcases hreach with h | h <;> simp [h]
  have hp : (if env.IsCDROMDevice front = true then [Event.IsCDROMDevice front]
      else [Event.IsCDROMDevice front] ++ [Event.Exists front]) = probeEvents env front := by
    unfold probeEvents; split <;> rfl
  unfold isPlaylistExtension extensionOf at hext
  simp only [GenerateFromFile, hgo, hp, if_pos hext, Bool.false_eq_true, if_false]
  rfl

theorem GenerateFromFile_direct (env : Env) (fuel : Nat) (front : Str) (rest : List Str)
    (session : BootSessionData)
    (hreach : env.IsCDROMDevice front = true ∨ env.Exists front = true)
    (hext : ¬ isPlaylistExtension (extensionOf env front)) :
    GenerateFromFile env (fuel + 1) (front :: rest) session =
      GenerateFromFile.classify env (fun p s => GenerateFromFile env fuel [p] s)
        (env.IsCDROMDevice front) (front :: rest) (extensionOf env front) session
        (probeEvents env front) := by
  have hgo : (!env.IsCDROMDevice front && !env.Exists front) = false := by
    rcases hreach with h | h <;> simp [h]
  have hp : (if env.IsCDROMDevice front = true then [Event.IsCDROMDevice front]
      else [Event.IsCDROMDevice front] ++ [Event.Exists front]) = probeEvents env front := by
    unfold probeEvents; split <;> rfl
  unfold isPlaylistExtension extensionOf at hext
  simp only [GenerateFromFile, hgo, hp, if_neg hext, Bool.false_eq_true, if_false]
  rfl

/-! ## Claims about playlists -/

/-- C4. For every playlist whose non-blank, non-comment lines all resolve to
existing files (N >= 1 of them, 0 missing), `ReadM3UFile` returns exactly
those N resolved paths, in the order the lines appear in the file, with a
leading UTF-8 byte-order mark removed and every blank line and every line
beginning with `#` contributing nothing; it raises no alert. -/
theorem C4_playlist_all_exist (env : Env) (m3u_path folder_path : Str)
    (hall : ∀ p ∈ resolvedEntries env m3u_path folder_path, env.Exists p = true)
    (hN : 1 ≤ (playlistEntries env m3u_path).length) :
    (ReadM3UFile env m3u_path folder_path).1
        = (((getlines (env.OpenFStream m3u_path)).map stripBOM).filter
            (fun line => !line.isEmpty && line.head? != some '#')).map
            (resolveEntry folder_path) ∧
      (ReadM3UFile env m3u_path folder_path).1.length = (playlistEntries env m3u_path).length ∧
      alertsOf (ReadM3UFile env m3u_path folder_path).2 = [] := by
  obtain ⟨scan, hs1, _, _, heq⟩ := ReadM3UFile_eq env m3u_path folder_path
  have hok : (resolvedEntries env m3u_path folder_path).filter env.Exists
      = resolvedEntries env m3u_path folder_path :=
    List.filter_eq_self.mpr hall
  have hmiss : (resolvedEntries env m3u_path folder_path).filter (fun p => !env.Exists p) = [] := by
    rw [List.filter_eq_nil_iff]
    intro p hp
    simp [hall p hp]
  have hne : resolvedEntries env m3u_path folder_path ≠ [] := by
    intro h
    have := congrArg List.length h
    simp [resolvedEntries] at this
    rw [this] at hN
    simp at hN
  rw [heq, hmiss, hok]
  simp only [ne_eq, not_true_eq_false, if_false, hne]
  refine ⟨rfl, ?_, hs1⟩
  simp [resolvedEntries]

/-- C4, at the sample playlist `/g/list.m3u`. -/
theorem C4_playlist_all_exist_witness :
    (ReadM3UFile sampleEnv "/g/list.m3u".toList "/g/".toList).1
      = ["/g/a.iso".toList, "/abs/b.iso".toList] :=
  (C4_playlist_all_exist sampleEnv "/g/list.m3u".toList "/g/".toList
    (by decide) (by decide)).1.trans (by decide)

/-- C5. For every playlist in which at least one listed entry does not exist,
`ReadM3UFile` returns the empty list (even when other entries exist) so that
`GenerateFromFile` returns no descriptor, and the alert it raises lists
exactly the missing resolved entries, each once, in file order, and none of
the existing ones: the listing is the missing entries joined by newlines, and
reads back line by line as the list of missing entries. -/
theorem C5_playlist_missing (env : Env) (m3u_path folder_path : Str)
    (hmiss : ∃ p ∈ resolvedEntries env m3u_path folder_path, env.Exists p = false) :
    (ReadM3UFile env m3u_path folder_path).1 = [] ∧
    alertsOf (ReadM3UFile env m3u_path folder_path).2
      = [Alert.m3u_files_not_found m3u_path
          (JoinStrings ((resolvedEntries env m3u_path folder_path).filter
            (fun p => !env.Exists p)) ['\n'])] ∧
    ('\n' ∉ folder_path →
      getlines (some (JoinStrings ((resolvedEntries env m3u_path folder_path).filter
            (fun p => !env.Exists p)) ['\n']))
        = (resolvedEntries env m3u_path folder_path).filter (fun p => !env.Exists p)) ∧
    (∀ (fuel : Nat) (rest : List Str) (session : BootSessionData),
      folder_path = (env.SplitPath m3u_path).1 →
      env.IsCDROMDevice m3u_path = true ∨ env.Exists m3u_path = true →
      isPlaylistExtension (extensionOf env m3u_path) →
      ∃ events,
        GenerateFromFile env (fuel + 1) (m3u_path :: rest) session
          = Completion.returned none events ∧
        alertsOf events
          = [Alert.m3u_files_not_found m3u_path
              (JoinStrings ((resolvedEntries env m3u_path folder_path).filter
                (fun p => !env.Exists p)) ['\n'])]) := by
  obtain ⟨scan, hs1, _, _, heq⟩ := ReadM3UFile_eq env m3u_path folder_path
  have hne : (resolvedEntries env m3u_path folder_path).filter (fun p => !env.Exists p) ≠ [] := by
    obtain ⟨p, hp, hx⟩ := hmiss
    intro h
    have hm : p ∈ (resolvedEntries env m3u_path folder_path).filter (fun p => !env.Exists p) :=
      List.mem_filter.mpr ⟨hp, by simp [hx]⟩
    rw [h] at hm
    simp at hm
  rw [if_pos hne] at heq
  have hres : (ReadM3UFile env m3u_path folder_path).1 = [] := by rw [heq]
  have hal : alertsOf (ReadM3UFile env m3u_path folder_path).2
      = [Alert.m3u_files_not_found m3u_path
          (JoinStrings ((resolvedEntries env m3u_path folder_path).filter
            (fun p => !env.Exists p)) ['\n'])] := by
    rw [heq, alertsOf_append, hs1]
    rfl
  refine ⟨hres, hal, ?_, ?_⟩
  · intro hf
    apply getlines_JoinStrings
    intro x hx
    exact resolvedEntries_facts env m3u_path folder_path hf x (List.mem_filter.mp hx).1
  · intro fuel rest session hfolder hreach hext
    subst hfolder
    refine ⟨probeEvents env m3u_path ++ (ReadM3UFile env m3u_path (env.SplitPath m3u_path).1).2,
      ?_, ?_⟩
    · rw [GenerateFromFile_playlist env fuel m3u_path rest session hreach hext, hres]
    · rw [alertsOf_append, (probeEvents_facts env m3u_path).1, hal]
      rfl

/-- C5, at the sample playlist `/g/bad.m3u`, which lists two missing files
among two existing ones. -/
theorem C5_playlist_missing_witness :
    (ReadM3UFile sampleEnv "/g/bad.m3u".toList "/g/".toList).1 = [] ∧
    alertsOf (ReadM3UFile sampleEnv "/g/bad.m3u".toList "/g/".toList).2
      = [Alert.m3u_files_not_found "/g/bad.m3u".toList "/g/missing.iso\n/g/gone.iso".toList] :=
  have h := C5_playlist_missing sampleEnv "/g/bad.m3u".toList "/g/".toList (by decide)
  ⟨h.1, h.2.1.trans (by decide)⟩

/-- C6. For every playlist that contains no entry at all after blank lines
and `#` comment lines are skipped (including an empty file), classification
fails: `ReadM3UFile` raises the "No paths found" alert and returns the empty
list, and `GenerateFromFile` returns no descriptor without trying any other
format. -/
theorem C6_playlist_empty (env : Env) (m3u_path folder_path : Str)
    (hnone : playlistEntries env m3u_path = []) :
    (ReadM3UFile env m3u_path folder_path).1 = [] ∧
    alertsOf (ReadM3UFile env m3u_path folder_path).2 = [Alert.m3u_no_paths m3u_path] ∧
    (∀ (fuel : Nat) (rest : List Str) (session : BootSessionData),
      env.IsCDROMDevice m3u_path = true ∨ env.Exists m3u_path = true →
      isPlaylistExtension (extensionOf env m3u_path) →
      ∃ events,
        GenerateFromFile env (fuel + 1) (m3u_path :: rest) session
          = Completion.returned none events ∧
        alertsOf events = [Alert.m3u_no_paths m3u_path] ∧
        ∀ e ∈ events, e.opensArtifact = false) := by
  have key : ∀ folder : Str, ∃ scan : List Event, alertsOf scan = [] ∧
      (∀ e ∈ scan, e.opensArtifact = false) ∧
      ReadM3UFile env m3u_path folder = ([], scan ++ [Event.alert (Alert.m3u_no_paths m3u_path)]) := by
    intro folder
    obtain ⟨scan, hs1, _, hs3, heq⟩ := ReadM3UFile_eq env m3u_path folder
    have hr : resolvedEntries env m3u_path folder = [] := by simp [resolvedEntries, hnone]
    simp only [hr, List.filter_nil, ne_eq, not_true_eq_false, if_false, if_true] at heq
    exact ⟨scan, hs1, hs3, heq⟩
  obtain ⟨scan, hs1, _, heq⟩ := key folder_path
  refine ⟨by rw [heq], by rw [heq, alertsOf_append, hs1]; rfl, ?_⟩
  intro fuel rest session hreach hext
  obtain ⟨scan', hs1', hs3', heq'⟩ := key (env.SplitPath m3u_path).1
  refine ⟨probeEvents env m3u_path ++ (scan' ++ [Event.alert (Alert.m3u_no_paths m3u_path)]),
    ?_, ?_, ?_⟩
  · rw [GenerateFromFile_playlist env fuel m3u_path rest session hreach hext, heq']
  · rw [alertsOf_append, alertsOf_append, (probeEvents_facts env m3u_path).1, hs1']
    rfl
  · intro e he
    rcases List.mem_append.mp he with h | h
    · exact (probeEvents_facts env m3u_path).2 e h
    · rcases List.mem_append.mp h with h | h
      · exact hs3' e h
      · simp at h; subst h; rfl

/-- C6, at the sample playlist `/g/none.m3u`, which holds a comment and a
blank line only. -/
theorem C6_playlist_empty_witness :
    playlistEntries sampleEnv "/g/none.m3u".toList = [] ∧
    (ReadM3UFile sampleEnv "/g/none.m3u".toList "/g/".toList).1 = [] ∧
    alertsOf (ReadM3UFile sampleEnv "/g/none.m3u".toList "/g/".toList).2
      = [Alert.m3u_no_paths "/g/none.m3u".toList] :=
  have h := C6_playlist_empty sampleEnv "/g/none.m3u".toList "/g/".toList (by decide)
  ⟨by decide, h.1, h.2.1⟩

/-- C7, refuted as stated: in the sample playlist `/g/list.m3u` of directory
`/g/` the entry `/abs/b.iso` begins with `/`; the path tested for existence
and returned for it is `/abs/b.iso` itself, and the directory joined with the
line, `/g//abs/b.iso`, is neither tested nor returned. -/
theorem C7_absolute_line_counterexample :
    "/abs/b.iso".toList ∈ playlistEntries sampleEnv "/g/list.m3u".toList ∧
    existsQueries (ReadM3UFile sampleEnv "/g/list.m3u".toList "/g/".toList).2
      = ["/g/a.iso".toList, "/abs/b.iso".toList] ∧
    (ReadM3UFile sampleEnv "/g/list.m3u".toList "/g/".toList).1
      = ["/g/a.iso".toList, "/abs/b.iso".toList] ∧
    "/g/".toList ++ "/abs/b.iso".toList
      ∉ existsQueries (ReadM3UFile sampleEnv "/g/list.m3u".toList "/g/".toList).2 ∧
    "/g/".toList ++ "/abs/b.iso".toList
      ∉ (ReadM3UFile sampleEnv "/g/list.m3u".toList "/g/".toList).1 := by
  decide

/-- C7, amended. The paths `ReadM3UFile` tests for existence are, in file
order, one per non-blank non-comment line: the playlist's directory joined
with the text of the line when the line does not begin with `/`, and the line
itself when it does; every path it returns is one of the tested paths and
exists. -/
theorem C7_resolved_paths (env : Env) (m3u_path folder_path : Str) :
    existsQueries (ReadM3UFile env m3u_path folder_path).2
      = (playlistEntries env m3u_path).map
          (fun line => if line.head? = some '/' then line else folder_path ++ line) ∧
    ∀ p ∈ (ReadM3UFile env m3u_path folder_path).1,
      p ∈ existsQueries (ReadM3UFile env m3u_path folder_path).2 ∧ env.Exists p = true := by
  obtain ⟨scan, _, hs2, _, heq⟩ := ReadM3UFile_eq env m3u_path folder_path
  have hq : existsQueries (ReadM3UFile env m3u_path folder_path).2
      = resolvedEntries env m3u_path folder_path := by
    rw [heq]
    split
    · rw [existsQueries_append, hs2]; simp [existsQueries]
    · split
      · rw [existsQueries_append, hs2]; simp [existsQueries]
      · exact hs2
  refine ⟨hq, ?_⟩
  intro p hp
  rw [hq]
  rw [heq] at hp
  split at hp
  · simp at hp
  · split at hp
    · simp at hp
    · obtain ⟨h1, h2⟩ := List.mem_filter.mp hp
      exact ⟨h1, h2⟩

/-- C8. For every non-empty path list whose leading path is not a raw optical
device and does not exist, `GenerateFromFile` returns no descriptor, raises
exactly one alert naming that leading path, and opens no volume, reader or
playlist: all it does is query the device and the existence of the path. -/
theorem C8_leading_path_missing (env : Env) (fuel : Nat) (front : Str) (rest : List Str)
    (session : BootSessionData) (hd : env.IsCDROMDevice front = false)
    (hx : env.Exists front = false) :
    GenerateFromFile env (fuel + 1) (front :: rest) session =
      Completion.returned none
        [Event.IsCDROMDevice front, Event.Exists front,
         Event.alert (Alert.file_does_not_exist front)] :=
  GenerateFromFile_not_found env fuel front rest session hd hx

/-- C8, at the missing path `/g/missing.iso` followed by an existing one. -/
theorem C8_leading_path_missing_witness :
    GenerateFromFile sampleEnv 1 ["/g/missing.iso".toList, "/g/a.iso".toList] plainSession =
      Completion.returned none
        [Event.IsCDROMDevice "/g/missing.iso".toList, Event.Exists "/g/missing.iso".toList,
         Event.alert (Alert.file_does_not_exist "/g/missing.iso".toList)] :=
  C8_leading_path_missing sampleEnv 0 "/g/missing.iso".toList ["/g/a.iso".toList] plainSession
    (by decide) (by decide)

theorem classify_disc_family (env : Env) (recurse : Str → BootSessionData → Completion)
    (is_drive : Bool) (path : Str) (rest : List Str) (extension : Str)
    (session : BootSessionData) (events : List Event)
    (hfam : extension ∈ disc_image_extensions ∨ is_drive = true) :
    GenerateFromFile.classify env recurse is_drive (path :: rest) extension session events =
      GenerateFromFile.disc_image env is_drive path (if rest.isEmpty then [] else path :: rest)
        extension session events := by
  simp only [GenerateFromFile.classify, if_pos hfam]

/-- C9, refuted as stated: `/dev/disc.m3u` is a raw device that opens as a
disc volume, but its name has a playlist extension, which `GenerateFromFile`
tests before it looks at devices and disc images: the device is read as a
playlist, nothing can be read from it, and the classification fails with the
alert for a playlist without paths, never trying to open the disc. -/
theorem C9_playlist_named_device_counterexample :
    sampleEnvPlaylistDrive.IsCDROMDevice "/dev/disc.m3u".toList = true ∧
    (sampleEnvPlaylistDrive.CreateDisc "/dev/disc.m3u".toList).isSome = true ∧
    GenerateFromFile sampleEnvPlaylistDrive 1 ["/dev/disc.m3u".toList] plainSession =
      Completion.returned none
        [Event.IsCDROMDevice "/dev/disc.m3u".toList, Event.OpenFStream "/dev/disc.m3u".toList,
         Event.alert (Alert.m3u_no_paths "/dev/disc.m3u".toList)] := by
  decide

/-- C9, amended. For every path that exists or is a device, and whose
extension is in the disc-image family or that is a raw device whose name does
not have a playlist extension (.m3u, .m3u8): if it opens as a disc
volume the result is a Disc descriptor, also when the extension is .elf or
.dol; an Executable descriptor is produced only when the disc open failed and
the extension is .elf (ELF reader) or .dol (DOL reader); and when the disc
open fails for any other disc-image extension the classification fails with
an alert and never yields an Executable. -/
theorem C9_disc_family (env : Env) (fuel : Nat) (path : Str) (rest : List Str)
    (session : BootSessionData)
    (hreach : env.IsCDROMDevice path = true ∨ env.Exists path = true)
    (hfam : extensionOf env path ∈ disc_image_extensions ∨
      (env.IsCDROMDevice path = true ∧ ¬ isPlaylistExtension (extensionOf env path))) :
    (∀ disc, env.CreateDisc path = some disc →
      GenerateFromFile env (fuel + 1) (path :: rest) session =
        Completion.returned
          (some { parameters := Parameters.Disc
                    { path := path, volume := some disc,
                      auto_disc_change_paths := if rest.isEmpty then [] else path :: rest },
                  riivolution_patches := [], boot_session_data := session })
          (probeEvents env path ++ [Event.CreateDisc path])) ∧
    (env.CreateDisc path = none → extensionOf env path = ".elf".toList →
      GenerateFromFile env (fuel + 1) (path :: rest) session =
        Completion.returned
          (some { parameters := Parameters.Executable path
                    { kind := ReaderKind.ElfReader, file_name := path },
                  riivolution_patches := [], boot_session_data := session })
          (probeEvents env path ++ [Event.CreateDisc path, Event.ElfReader path])) ∧
    (env.CreateDisc path = none → extensionOf env path = ".dol".toList →
      GenerateFromFile env (fuel + 1) (path :: rest) session =
        Completion.returned
          (some { parameters := Parameters.Executable path
                    { kind := ReaderKind.DolReader, file_name := path },
                  riivolution_patches := [], boot_session_data := session })
          (probeEvents env path ++ [Event.CreateDisc path, Event.DolReader path])) ∧
    (env.CreateDisc path = none → extensionOf env path ≠ ".elf".toList →
      extensionOf env path ≠ ".dol".toList →
      GenerateFromFile env (fuel + 1) (path :: rest) session =
        Completion.returned none
          (probeEvents env path ++ [Event.CreateDisc path,
            Event.alert (if env.IsCDROMDevice path = true then Alert.no_disc_in_drive path
              else Alert.invalid_gcm_iso path)])) ∧
    (∀ boot events exe_path reader,
      GenerateFromFile env (fuel + 1) (path :: rest) session
        = Completion.returned (some boot) events →
      boot.parameters = Parameters.Executable exe_path reader →
      env.CreateDisc path = none ∧
        ((extensionOf env path = ".elf".toList ∧ reader.kind = ReaderKind.ElfReader) ∨
         (extensionOf env path = ".dol".toList ∧ reader.kind = ReaderKind.DolReader))) := by
  have hnp : ¬ isPlaylistExtension (extensionOf env path) := by
    rcases hfam with h | h
    · intro hp
      rcases hp with hp | hp <;> rw [hp] at h <;> revert h <;> decide
    · exact h.2
  have hfam' : extensionOf env path ∈ disc_image_extensions ∨ env.IsCDROMDevice path = true := by
    rcases hfam with h | h
    · exact Or.inl h
    · exact Or.inr h.1
  have hgo := GenerateFromFile_direct env fuel path rest session hreach hnp
  rw [classify_disc_family env _ _ path rest _ session _ hfam'] at hgo
  have hde : ".dol".toList ≠ ".elf".toList := by decide
  refine ⟨?_, ?_, ?_, ?_, ?_⟩
  · intro disc hd
    rw [hgo]
    simp [GenerateFromFile.disc_image, hd]
  · intro hd he
    rw [hgo]
    simp [GenerateFromFile.disc_image, hd, he]
  · intro hd he
    rw [hgo]
    simp [GenerateFromFile.disc_image, hd, he, hde]
  · intro hd he1 he2
    rw [hgo]
    unfold GenerateFromFile.disc_image
    simp only [hd]
    rw [if_neg he1, if_neg he2]
    by_cases hdr : env.IsCDROMDevice path = true <;> simp [hdr]
  · intro boot events exe_path reader hret hexe
    rw [hgo] at hret
    unfold GenerateFromFile.disc_image at hret
    cases hd : env.CreateDisc path with
    | some disc =>
      simp only [hd] at hret
      injection hret with hb _
      injection hb with hb
      rw [← hb] at hexe
      simp at hexe
    | none =>
      refine ⟨rfl, ?_⟩
      simp only [hd] at hret
      by_cases he1 : extensionOf env path = ".elf".toList
      · simp only [he1, if_true] at hret
        injection hret with hb _
        injection hb with hb
        rw [← hb] at hexe
        simp only [Parameters.Executable.injEq] at hexe
        exact Or.inl ⟨he1, by rw [← hexe.2]⟩
      · by_cases he2 : extensionOf env path = ".dol".toList
        · simp only [he2, if_true, hde, if_false] at hret
          injection hret with hb _
          injection hb with hb
          rw [← hb] at hexe
          simp only [Parameters.Executable.injEq] at hexe
          exact Or.inr ⟨he2, by rw [← hexe.2]⟩
        · simp only [he1, he2, if_false] at hret
          split at hret <;> simp at hret

/-- C9, at `/g/game.ELF`, which opens as a disc, and at `/g/x.DOL`, which
does not. -/
theorem C9_disc_family_witness :
    GenerateFromFile sampleEnv 1 ["/g/game.ELF".toList] plainSession =
      Completion.returned
        (some { parameters := Parameters.Disc
                  { path := "/g/game.ELF".toList,
                    volume := some { game_id := "GAME01".toList, revision := some 0,
                                     disc_number := some 0, blob := 1 },
                    auto_disc_change_paths := [] },
                riivolution_patches := [], boot_session_data := plainSession })
        [Event.IsCDROMDevice "/g/game.ELF".toList, Event.Exists "/g/game.ELF".toList,
         Event.CreateDisc "/g/game.ELF".toList] ∧
    GenerateFromFile sampleEnv 1 ["/g/x.DOL".toList] plainSession =
      Completion.returned
        (some { parameters := Parameters.Executable "/g/x.DOL".toList
                  { kind := ReaderKind.DolReader, file_name := "/g/x.DOL".toList },
                riivolution_patches := [], boot_session_data := plainSession })
        [Event.IsCDROMDevice "/g/x.DOL".toList, Event.Exists "/g/x.DOL".toList,
         Event.CreateDisc "/g/x.DOL".toList, Event.DolReader "/g/x.DOL".toList] :=
  ⟨(C9_disc_family sampleEnv 0 "/g/game.ELF".toList [] plainSession (by decide) (by decide)).1
      _ (by decide),
   (C9_disc_family sampleEnv 0 "/g/x.DOL".toList [] plainSession (by decide) (by decide)).2.2.1
      (by decide) (by decide)⟩

/-! ## Classification and the case of the extension -/

theorem alertKinds_append (xs ys : List Event) :
    (alertsOf (xs ++ ys)).map Alert.kind
      = (alertsOf xs).map Alert.kind ++ (alertsOf ys).map Alert.kind := by
  rw [alertsOf_append, List.map_append]

theorem json_selection_congr (env : Env) (recurse : Str → BootSessionData → Completion)
    (descriptor : GameModDescriptor) (session : BootSessionData) (ev ev' : List Event)
    (h : (alertsOf ev).map Alert.kind = (alertsOf ev').map Alert.kind) :
    (GenerateFromFile.json env recurse descriptor session ev).selection
      = (GenerateFromFile.json env recurse descriptor session ev').selection := by
  unfold GenerateFromFile.json
  cases hr : recurse descriptor.base_file session with
  | out_of_fuel => rfl
  | undefined evr => rfl
  | returned boot evr =>
    cases boot with
    | none =>
      simp only [Completion.selection, alertKinds_append, h]
    | some boot_params =>
      simp only
      split
      · split <;> rfl
      · rfl

theorem classify_selection_congr (env : Env) (recurse : Str → BootSessionData → Completion)
    (is_drive : Bool) (p q : Str) (rest rest' : List Str) (extension : Str)
    (session : BootSessionData) (ev ev' : List Event)
    (h : (alertsOf ev).map Alert.kind = (alertsOf ev').map Alert.kind)
    (hsame : SameAnswers env p q) :
    (GenerateFromFile.classify env recurse is_drive (p :: rest) extension session ev).selection
      = (GenerateFromFile.classify env recurse is_drive (q :: rest') extension session
          ev').selection := by
  obtain ⟨hdisc, hwad, hjson⟩ := hsame
  unfold GenerateFromFile.classify
  simp only
  by_cases hfam : extension ∈ disc_image_extensions ∨ is_drive = true
  · rw [if_pos hfam, if_pos hfam]
    unfold GenerateFromFile.disc_image
    cases hp : env.CreateDisc p with
    | some dp =>
      cases hq : env.CreateDisc q with
      | some dq => rfl
      | none => rw [hp, hq] at hdisc; simp at hdisc
    | none =>
      cases hq : env.CreateDisc q with
      | some dq => rw [hp, hq] at hdisc; simp at hdisc
      | none =>
        simp only
        by_cases he1 : extension = ".elf".toList
        · rw [if_pos he1, if_pos he1]; rfl
        · rw [if_neg he1, if_neg he1]
          by_cases he2 : extension = ".dol".toList
          · rw [if_pos he2, if_pos he2]; rfl
          · rw [if_neg he2, if_neg he2]
            cases is_drive <;>
              simp [Completion.selection, alertKinds_append, h, alertsOf, Alert.kind]
  · rw [if_neg hfam, if_neg hfam]
    by_cases hdff : extension = ".dff".toList
    · rw [if_pos hdff, if_pos hdff]; rfl
    · rw [if_neg hdff, if_neg hdff]
      by_cases hw : extension = ".wad".toList
      · simp only [if_pos hw]
        have hnj : ¬ extension = ".json".toList := by rw [hw]; decide
        simp only [if_neg hnj]
        cases hp : env.CreateWAD p with
        | some wp =>
          cases hq : env.CreateWAD q with
          | some wq => rfl
          | none => rw [hp, hq] at hwad; simp at hwad
        | none =>
          cases hq : env.CreateWAD q with
          | some wq => rw [hp, hq] at hwad; simp at hwad
          | none =>
            simp [Completion.selection, alertKinds_append, h, alertsOf, Alert.kind]
      · simp only [if_neg hw]
        by_cases hj : extension = ".json".toList
        · simp only [if_pos hj]
          rw [← hjson]
          cases hp : env.ParseGameModDescriptorFile p with
          | some d =>
            simp only
            apply json_selection_congr
            simp [alertKinds_append, h, alertsOf]
          | none =>
            simp [Completion.selection, alertKinds_append, h, alertsOf, Alert.kind]
        · simp only [if_neg hj]
          simp [Completion.selection, alertKinds_append, h, alertsOf, Alert.kind]

theorem GenerateFromFile_playlist_cases (env : Env) (fuel : Nat) (m : Str) (rest : List Str)
    (session : BootSessionData)
    (hreach : env.IsCDROMDevice m = true ∨ env.Exists m = true)
    (hext : isPlaylistExtension (extensionOf env m)) :
    ((resolvedEntries env m (env.SplitPath m).1).filter (fun p => !env.Exists p) ≠ [] →
      (GenerateFromFile env (fuel + 1) (m :: rest) session).selection
        = Selection.failure [AlertKind.m3u_files_not_found]) ∧
    ((resolvedEntries env m (env.SplitPath m).1).filter (fun p => !env.Exists p) = [] →
      (resolvedEntries env m (env.SplitPath m).1).filter env.Exists = [] →
      (GenerateFromFile env (fuel + 1) (m :: rest) session).selection
        = Selection.failure [AlertKind.m3u_no_paths]) ∧
    (∀ nf nr,
      (resolvedEntries env m (env.SplitPath m).1).filter (fun p => !env.Exists p) = [] →
      (resolvedEntries env m (env.SplitPath m).1).filter env.Exists = nf :: nr →
      ∃ evs, alertsOf evs = [] ∧
        GenerateFromFile env (fuel + 1) (m :: rest) session =
          GenerateFromFile.classify env (fun p s => GenerateFromFile env fuel [p] s)
            (env.IsCDROMDevice m) (nf :: nr) (extensionOf env nf) session evs) := by
  obtain ⟨scan, hs1, _, _, heq⟩ := ReadM3UFile_eq env m (env.SplitPath m).1
  have hgo := GenerateFromFile_playlist env fuel m rest session hreach hext
  have hp := (probeEvents_facts env m).1
  refine ⟨?_, ?_, ?_⟩
  · intro hm
    rw [if_pos hm] at heq
    rw [hgo, heq]
    simp only [Completion.selection, alertKinds_append, hp, hs1]
    rfl
  · intro hm ho
    simp only [hm, ho, ne_eq, not_true_eq_false, if_false, if_true] at heq
    rw [hgo, heq]
    simp only [Completion.selection, alertKinds_append, hp, hs1]
    rfl
  · intro nf nr hm ho
    simp only [hm, ho, ne_eq, not_true_eq_false, if_false] at heq
    have hne : ¬ (nf :: nr = []) := by simp
    rw [if_neg hne] at heq
    refine ⟨probeEvents env m ++ scan, by rw [alertsOf_append, hp, hs1]; rfl, ?_⟩
    rw [hgo, heq]

/-- C10. Classification is case-insensitive in the extension: for every
path and for the same file-system answers, `GenerateFromFile` selects the
same descriptor variant (or the same failure) for the path as for the path
with its extension written in any other mix of upper and lower case; this
also holds for the extension re-derived from the first entry of a playlist. -/
theorem C10_extension_case (env : Env) (fuel : Nat) (rest : List Str)
    (session : BootSessionData) :
    (∀ p q : Str,
      SameUpToExtensionCase env p q →
      env.IsCDROMDevice p = env.IsCDROMDevice q → env.Exists p = true → env.Exists q = true →
      env.OpenFStream p = env.OpenFStream q → SameAnswers env p q →
      (GenerateFromFile env fuel (p :: rest) session).selection
        = (GenerateFromFile env fuel (q :: rest) session).selection) ∧
    (∀ (m m' e f : Str) (es fs : List Str),
      env.IsCDROMDevice m = env.IsCDROMDevice m' → env.Exists m = true → env.Exists m' = true →
      isPlaylistExtension (extensionOf env m) → isPlaylistExtension (extensionOf env m') →
      resolvedEntries env m (env.SplitPath m).1 = e :: es →
      resolvedEntries env m' (env.SplitPath m').1 = f :: fs →
      (∀ x ∈ e :: es, env.Exists x = true) → (∀ x ∈ f :: fs, env.Exists x = true) →
      extensionOf env e = extensionOf env f → SameAnswers env e f →
      (GenerateFromFile env fuel (m :: rest) session).selection
        = (GenerateFromFile env fuel (m' :: rest) session).selection) := by
  cases fuel with
  | zero => exact ⟨fun _ _ _ _ _ _ _ _ => rfl, fun _ _ _ _ _ _ _ _ _ _ _ _ _ _ _ _ _ => rfl⟩
  | succ fuel =>
    refine ⟨?_, ?_⟩
    · intro p q hcase hdev hxp hxq hopen hsame
      obtain ⟨hfolder, hextension⟩ := hcase
      by_cases hpl : isPlaylistExtension (extensionOf env p)
      · have hql : isPlaylistExtension (extensionOf env q) := hextension ▸ hpl
        obtain ⟨a1, a2, a3⟩ :=
          GenerateFromFile_playlist_cases env fuel p rest session (Or.inr hxp) hpl
        obtain ⟨b1, b2, b3⟩ :=
          GenerateFromFile_playlist_cases env fuel q rest session (Or.inr hxq) hql
        have hR : resolvedEntries env q (env.SplitPath q).1
            = resolvedEntries env p (env.SplitPath p).1 := by
          simp only [resolvedEntries, playlistEntries, hopen, hfolder]
        rw [hR] at b1 b2 b3
        by_cases hm : (resolvedEntries env p (env.SplitPath p).1).filter
            (fun x => !env.Exists x) = []
        · cases ho : (resolvedEntries env p (env.SplitPath p).1).filter env.Exists with
          | nil => rw [a2 hm ho, b2 hm ho]
          | cons nf nr =>
            obtain ⟨ev, hev, he⟩ := a3 nf nr hm ho
            obtain ⟨ev', hev', he'⟩ := b3 nf nr hm ho
            rw [he, he', hdev]
            exact classify_selection_congr env _ _ nf nf nr nr _ session ev ev'
              (by rw [hev, hev']) ⟨rfl, rfl, rfl⟩
        · rw [a1 hm, b1 hm]
      · have hql : ¬ isPlaylistExtension (extensionOf env q) := hextension ▸ hpl
        rw [GenerateFromFile_direct env fuel p rest session (Or.inr hxp) hpl,
          GenerateFromFile_direct env fuel q rest session (Or.inr hxq) hql, hdev, hextension]
        exact classify_selection_congr env _ _ p q rest rest _ session _ _
          (by rw [(probeEvents_facts env p).1, (probeEvents_facts env q).1]) hsame
    · intro m m' e f es fs hdev hxm hxm' hpl hpl' hR hR' hall hall' hef hsame
      obtain ⟨_, _, a3⟩ :=
        GenerateFromFile_playlist_cases env fuel m rest session (Or.inr hxm) hpl
      obtain ⟨_, _, b3⟩ :=
        GenerateFromFile_playlist_cases env fuel m' rest session (Or.inr hxm') hpl'
      rw [hR] at a3
      rw [hR'] at b3
      have hm : (e :: es).filter (fun x => !env.Exists x) = [] := by
        rw [List.filter_eq_nil_iff]; intro x hx; simp [hall x hx]
      have hm' : (f :: fs).filter (fun x => !env.Exists x) = [] := by
        rw [List.filter_eq_nil_iff]; intro x hx; simp [hall' x hx]
      obtain ⟨ev, hev, he⟩ := a3 e es hm (List.filter_eq_self.mpr hall)
      obtain ⟨ev', hev', he'⟩ := b3 f fs hm' (List.filter_eq_self.mpr hall')
      rw [he, he', hdev, hef]
      exact classify_selection_congr env _ _ e f es fs _ session ev ev'
        (by rw [hev, hev']) hsame

/-- C10, at `/g/x.DOL` against `/g/x.dol`, and at the sample playlist
`/g/upper.m3u`, whose first entry is `a.ISO`, against `/g/list.m3u`, whose
first entry is `a.iso`. -/
theorem C10_extension_case_witness :
    (GenerateFromFile sampleEnv 2 ["/g/x.DOL".toList] plainSession).selection
      = (GenerateFromFile sampleEnv 2 ["/g/x.dol".toList] plainSession).selection ∧
    (GenerateFromFile sampleEnv 2 ["/g/x.dol".toList] plainSession).selection
      = Selection.descriptor (Variant.Executable ReaderKind.DolReader) ∧
    (GenerateFromFile sampleEnv 2 ["/g/upper.m3u".toList] plainSession).selection
      = (GenerateFromFile sampleEnv 2 ["/g/list.m3u".toList] plainSession).selection ∧
    (GenerateFromFile sampleEnv 2 ["/g/list.m3u".toList] plainSession).selection
      = Selection.descriptor Variant.Disc :=
  ⟨(C10_extension_case sampleEnv 2 [] plainSession).1 "/g/x.DOL".toList "/g/x.dol".toList
      (by decide) (by decide) (by decide) (by decide) (by decide) (by decide),
   by decide,
   (C10_extension_case sampleEnv 2 [] plainSession).2 "/g/upper.m3u".toList "/g/list.m3u".toList
      "/g/a.ISO".toList "/g/a.iso".toList ["/g/c.iso".toList] ["/abs/b.iso".toList]
      (by decide) (by decide) (by decide) (by decide) (by decide) (by decide) (by decide)
      (by decide) (by decide) (by decide) (by decide),
   by decide⟩


/-! ## Unrecognized artifacts and mod descriptors -/

theorem classify_other (env : Env) (recurse : Str → BootSessionData → Completion)
    (path : Str) (rest : List Str) (extension : Str) (session : BootSessionData)
    (events : List Event)
    (hfam : extension ∉ disc_image_extensions) (hdff : extension ≠ ".dff".toList) :
    GenerateFromFile.classify env recurse false (path :: rest) extension session events =
      match (if extension = ".wad".toList then env.CreateWAD path else none) with
      | some wad =>
        Completion.returned
          (some { parameters := Parameters.WAD wad, riivolution_patches := [],
                  boot_session_data := session })
          (if extension = ".wad".toList then events ++ [Event.CreateWAD path] else events)
      | none =>
        match (if extension = ".json".toList then env.ParseGameModDescriptorFile path
               else none) with
        | some descriptor =>
          GenerateFromFile.json env recurse descriptor session
            (if extension = ".json".toList then
              (if extension = ".wad".toList then events ++ [Event.CreateWAD path] else events)
                ++ [Event.ParseGameModDescriptorFile path]
             else (if extension = ".wad".toList then events ++ [Event.CreateWAD path]
                   else events))
        | none =>
          Completion.returned none
            ((if extension = ".json".toList then
              (if extension = ".wad".toList then events ++ [Event.CreateWAD path] else events)
                ++ [Event.ParseGameModDescriptorFile path]
             else (if extension = ".wad".toList then events ++ [Event.CreateWAD path]
                   else events))
              ++ [Event.alert (Alert.could_not_recognize path)]) := by
  have hno : ¬ (extension ∈ disc_image_extensions ∨ false = true) := by simp [hfam]
  unfold GenerateFromFile.classify
  simp only [if_neg hno, if_neg hdff]

/-- C11. For every existing, non-device path that is not recognized (an
extension outside the known set, a .wad file that does not parse as an
install package, or a .json file that does not parse as a mod descriptor)
`GenerateFromFile` returns no descriptor and the "Could not recognize file"
alert, the only alert raised, names that path. -/
theorem C11_unrecognized (env : Env) (fuel : Nat) (path : Str) (rest : List Str)
    (session : BootSessionData)
    (hd : env.IsCDROMDevice path = false) (hx : env.Exists path = true) :
    (extensionOf env path ∉ disc_image_extensions →
      ¬ isPlaylistExtension (extensionOf env path) →
      extensionOf env path ≠ ".dff".toList → extensionOf env path ≠ ".wad".toList →
      extensionOf env path ≠ ".json".toList →
      GenerateFromFile env (fuel + 1) (path :: rest) session =
        Completion.returned none
          [Event.IsCDROMDevice path, Event.Exists path,
           Event.alert (Alert.could_not_recognize path)]) ∧
    (extensionOf env path = ".wad".toList → env.CreateWAD path = none →
      GenerateFromFile env (fuel + 1) (path :: rest) session =
        Completion.returned none
          [Event.IsCDROMDevice path, Event.Exists path, Event.CreateWAD path,
           Event.alert (Alert.could_not_recognize path)]) ∧
    (extensionOf env path = ".json".toList → env.ParseGameModDescriptorFile path = none →
      GenerateFromFile env (fuel + 1) (path :: rest) session =
        Completion.returned none
          [Event.IsCDROMDevice path, Event.Exists path, Event.ParseGameModDescriptorFile path,
           Event.alert (Alert.could_not_recognize path)]) := by
  have hprobe : probeEvents env path = [Event.IsCDROMDevice path, Event.Exists path] := by
    simp [probeEvents, hd]
  refine ⟨?_, ?_, ?_⟩
  · intro hfam hpl hdff hwad hjson
    rw [GenerateFromFile_direct env fuel path rest session (Or.inr hx) hpl, hd,
      classify_other env _ path rest _ session _ hfam hdff]
    simp only [if_neg hwad, if_neg hjson, hprobe]
    rfl
  · intro hwad hnone
    have hpl : ¬ isPlaylistExtension (extensionOf env path) := by
      rw [hwad]; decide
    have hfam : extensionOf env path ∉ disc_image_extensions := by rw [hwad]; decide
    have hdff : extensionOf env path ≠ ".dff".toList := by rw [hwad]; decide
    have hjson : ¬ extensionOf env path = ".json".toList := by rw [hwad]; decide
    rw [GenerateFromFile_direct env fuel path rest session (Or.inr hx) hpl, hd,
      classify_other env _ path rest _ session _ hfam hdff]
    simp only [if_pos hwad, if_neg hjson, hnone, hprobe]
    rfl
  · intro hjson hnone
    have hpl : ¬ isPlaylistExtension (extensionOf env path) := by
      rw [hjson]; decide
    have hfam : extensionOf env path ∉ disc_image_extensions := by rw [hjson]; decide
    have hdff : extensionOf env path ≠ ".dff".toList := by rw [hjson]; decide
    have hwad : ¬ extensionOf env path = ".wad".toList := by rw [hjson]; decide
    rw [GenerateFromFile_direct env fuel path rest session (Or.inr hx) hpl, hd,
      classify_other env _ path rest _ session _ hfam hdff]
    simp only [if_neg hwad, if_pos hjson, hnone, hprobe]
    rfl

/-- C11, at a text file, at a .wad file that is no package and at a .json
file that is no mod descriptor. -/
theorem C11_unrecognized_witness :
    GenerateFromFile sampleEnv 1 ["/g/readme.txt".toList] plainSession =
      Completion.returned none
        [Event.IsCDROMDevice "/g/readme.txt".toList, Event.Exists "/g/readme.txt".toList,
         Event.alert (Alert.could_not_recognize "/g/readme.txt".toList)] ∧
    GenerateFromFile sampleEnv 1 ["/g/bad.WAD".toList] plainSession =
      Completion.returned none
        [Event.IsCDROMDevice "/g/bad.WAD".toList, Event.Exists "/g/bad.WAD".toList,
         Event.CreateWAD "/g/bad.WAD".toList,
         Event.alert (Alert.could_not_recognize "/g/bad.WAD".toList)] ∧
    GenerateFromFile sampleEnv 1 ["/g/x.json".toList] plainSession =
      Completion.returned none
        [Event.IsCDROMDevice "/g/x.json".toList, Event.Exists "/g/x.json".toList,
         Event.ParseGameModDescriptorFile "/g/x.json".toList,
         Event.alert (Alert.could_not_recognize "/g/x.json".toList)] :=
  ⟨(C11_unrecognized sampleEnv 0 "/g/readme.txt".toList [] plainSession (by decide)
      (by decide)).1 (by decide) (by decide) (by decide) (by decide) (by decide),
   (C11_unrecognized sampleEnv 0 "/g/bad.WAD".toList [] plainSession (by decide)
      (by decide)).2.1 (by decide) (by decide),
   (C11_unrecognized sampleEnv 0 "/g/x.json".toList [] plainSession (by decide)
      (by decide)).2.2 (by decide) (by decide)⟩

theorem isPatchEvent_of_not_opens (e : Event) (h : e.opensArtifact = false) :
    e.isPatchEvent = false := by
  cases e <;> simp_all [Event.opensArtifact, Event.isPatchEvent]

theorem ReadM3UFile_no_patch_events (env : Env) (m3u_path folder_path : Str) :
    ∀ e ∈ (ReadM3UFile env m3u_path folder_path).2, e.isPatchEvent = false := by
  obtain ⟨scan, _, _, hs, heq⟩ := ReadM3UFile_eq env m3u_path folder_path
  have hscan : ∀ e ∈ scan, e.isPatchEvent = false :=
    fun e he => isPatchEvent_of_not_opens e (hs e he)
  have hadd : ∀ (a : Alert) (e : Event), e ∈ scan ++ [Event.alert a] →
      e.isPatchEvent = false := by
    intro a e he
    rcases List.mem_append.mp he with h | h
    · exact hscan e h
    · simp at h; subst h; rfl
  intro e he
  rw [heq] at he
  split at he
  · exact hadd _ e he
  · split at he
    · exact hadd _ e he
    · exact hscan e he

theorem probeEvents_no_patch_events (env : Env) (front : Str) :
    ∀ e ∈ probeEvents env front, e.isPatchEvent = false :=
  fun e he => isPatchEvent_of_not_opens e ((probeEvents_facts env front).2 e he)

theorem no_patch_append (xs ys : List Event) (hx : ∀ e ∈ xs, e.isPatchEvent = false)
    (hy : ∀ e ∈ ys, e.isPatchEvent = false) : ∀ e ∈ xs ++ ys, e.isPatchEvent = false := by
  intro e he
  rcases List.mem_append.mp he with h | h
  · exact hx e h
  · exact hy e h

theorem no_patch_singleton (x : Event) (hx : x.isPatchEvent = false) :
    ∀ e ∈ [x], e.isPatchEvent = false := by
  intro e he
  simp at he
  subst he
  exact hx

theorem json_failed_no_patch_events (env : Env) (recurse : Str → BootSessionData → Completion)
    (descriptor : GameModDescriptor) (session : BootSessionData) (events ev : List Event)
    (hev : ∀ e ∈ events, e.isPatchEvent = false)
    (hrec : ∀ p s ev', recurse p s = Completion.returned none ev' →
      ∀ e ∈ ev', e.isPatchEvent = false)
    (h : GenerateFromFile.json env recurse descriptor session events
      = Completion.returned none ev) :
    ∀ e ∈ ev, e.isPatchEvent = false := by
  unfold GenerateFromFile.json at h
  cases hr : recurse descriptor.base_file session with
  | out_of_fuel => rw [hr] at h; simp at h
  | undefined evr => rw [hr] at h; simp at h
  | returned boot evr =>
    rw [hr] at h
    cases boot with
    | none =>
      simp only [Completion.returned.injEq, true_and] at h
      rw [← h]
      exact no_patch_append _ _ (no_patch_append _ _ hev (hrec _ _ _ hr))
        (no_patch_singleton _ rfl)
    | some boot_params =>
      simp only at h
      split at h
      · split at h <;> simp at h
      · simp at h

theorem classify_failed_no_patch_events (env : Env)
    (recurse : Str → BootSessionData → Completion) (is_drive : Bool) (paths : List Str)
    (extension : Str) (session : BootSessionData) (events ev : List Event)
    (hev : ∀ e ∈ events, e.isPatchEvent = false)
    (hrec : ∀ p s ev', recurse p s = Completion.returned none ev' →
      ∀ e ∈ ev', e.isPatchEvent = false)
    (h : GenerateFromFile.classify env recurse is_drive paths extension session events
      = Completion.returned none ev) :
    ∀ e ∈ ev, e.isPatchEvent = false := by
  cases paths with
  | nil => simp [GenerateFromFile.classify] at h
  | cons path rest =>
    unfold GenerateFromFile.classify at h
    simp only at h
    by_cases hfam : extension ∈ disc_image_extensions ∨ is_drive = true
    · rw [if_pos hfam] at h
      unfold GenerateFromFile.disc_image at h
      cases hd : env.CreateDisc path with
      | some disc => rw [hd] at h; simp at h
      | none =>
        rw [hd] at h
        simp only at h
        by_cases he1 : extension = ".elf".toList
        · rw [if_pos he1] at h; simp at h
        · rw [if_neg he1] at h
          by_cases he2 : extension = ".dol".toList
          · rw [if_pos he2] at h; simp at h
          · rw [if_neg he2] at h
            have hpre : ∀ e ∈ events ++ [Event.CreateDisc path], e.isPatchEvent = false :=
              no_patch_append _ _ hev (no_patch_singleton _ rfl)
            split at h <;>
              (simp only [Completion.returned.injEq, true_and] at h
               rw [← h]
               exact no_patch_append _ _ hpre (no_patch_singleton _ rfl))
    · rw [if_neg hfam] at h
      by_cases hdff : extension = ".dff".toList
      · rw [if_pos hdff] at h; simp at h
      · rw [if_neg hdff] at h
        have hev1 : ∀ e ∈ (if extension = ".wad".toList then events ++ [Event.CreateWAD path]
            else events), e.isPatchEvent = false := by
          split
          · exact no_patch_append _ _ hev (no_patch_singleton _ rfl)
          · exact hev
        have hev2 : ∀ e ∈ (if extension = ".json".toList then
            (if extension = ".wad".toList then events ++ [Event.CreateWAD path] else events)
              ++ [Event.ParseGameModDescriptorFile path]
            else (if extension = ".wad".toList then events ++ [Event.CreateWAD path]
              else events)), e.isPatchEvent = false := by
          split
          · exact no_patch_append _ _ hev1 (no_patch_singleton _ rfl)
          · exact hev1
        split at h
        · simp at h
        · split at h
          · exact json_failed_no_patch_events env recurse _ session _ ev hev2 hrec h
          · simp only [Completion.returned.injEq, true_and] at h
            rw [← h]
            exact no_patch_append _ _ hev2 (no_patch_singleton _ rfl)

/-- A call of `GenerateFromFile` that returns no descriptor has generated no
patch set, at any depth of the recursion through mod descriptors. -/
theorem failed_no_patch_events (env : Env) :
    ∀ (fuel : Nat) (paths : List Str) (session : BootSessionData) (ev : List Event),
      GenerateFromFile env fuel paths session = Completion.returned none ev →
      ∀ e ∈ ev, e.isPatchEvent = false := by
  intro fuel
  induction fuel with
  | zero => intro paths session ev h; simp [GenerateFromFile] at h
  | succ fuel ih =>
    intro paths session ev h
    cases paths with
    | nil => simp [GenerateFromFile] at h
    | cons front rest =>
      have hrec : ∀ p s ev', (fun p s => GenerateFromFile env fuel [p] s) p s
          = Completion.returned none ev' → ∀ e ∈ ev', e.isPatchEvent = false :=
        fun p s ev' h' => ih [p] s ev' h'
      by_cases hreach : env.IsCDROMDevice front = true ∨ env.Exists front = true
      · by_cases hpl : isPlaylistExtension (extensionOf env front)
        · rw [GenerateFromFile_playlist env fuel front rest session hreach hpl] at h
          have hpre : ∀ e ∈ probeEvents env front
              ++ (ReadM3UFile env front (env.SplitPath front).1).2, e.isPatchEvent = false :=
            no_patch_append _ _ (probeEvents_no_patch_events env front)
              (ReadM3UFile_no_patch_events env front _)
          split at h
          · simp only [Completion.returned.injEq, true_and] at h
            rw [← h]
            exact hpre
          · exact classify_failed_no_patch_events env _ _ _ _ session _ ev hpre hrec h
        · rw [GenerateFromFile_direct env fuel front rest session hreach hpl] at h
          exact classify_failed_no_patch_events env _ _ _ _ session _ ev
            (probeEvents_no_patch_events env front) hrec h
      · have hd : env.IsCDROMDevice front = false := by
          cases hh : env.IsCDROMDevice front
          · rfl
          · exact absurd (Or.inl hh) hreach
        have hx : env.Exists front = false := by
          cases hh : env.Exists front
          · rfl
          · exact absurd (Or.inr hh) hreach
        rw [GenerateFromFile_not_found env fuel front rest session hd hx] at h
        simp only [Completion.returned.injEq, true_and] at h
        rw [← h]
        intro e he
        simp at he
        rcases he with rfl | rfl | rfl <;> rfl

/-- C12. For every .json mod descriptor that parses and whose declared base
artifact fails to classify, `GenerateFromFile` on the .json path returns no
descriptor and the "Could not recognize file" alert it raises, after the
alerts of the failed classification of the base artifact, names the base
artifact's path, not the .json path; no patch set is generated in that
case. -/
theorem C12_mod_descriptor_base_fails (env : Env) (fuel : Nat) (json_path : Str)
    (rest : List Str) (session : BootSessionData) (descriptor : GameModDescriptor)
    (base_events : List Event)
    (hd : env.IsCDROMDevice json_path = false) (hx : env.Exists json_path = true)
    (hext : extensionOf env json_path = ".json".toList)
    (hparse : env.ParseGameModDescriptorFile json_path = some descriptor)
    (hbase : GenerateFromFile env fuel [descriptor.base_file] session
      = Completion.returned none base_events) :
    GenerateFromFile env (fuel + 1) (json_path :: rest) session =
      Completion.returned none
        ([Event.IsCDROMDevice json_path, Event.Exists json_path,
          Event.ParseGameModDescriptorFile json_path] ++ base_events ++
          [Event.alert (Alert.could_not_recognize descriptor.base_file)]) ∧
    alertsOf ([Event.IsCDROMDevice json_path, Event.Exists json_path,
          Event.ParseGameModDescriptorFile json_path] ++ base_events ++
          [Event.alert (Alert.could_not_recognize descriptor.base_file)])
      = alertsOf base_events ++ [Alert.could_not_recognize descriptor.base_file] ∧
    ∀ e ∈ [Event.IsCDROMDevice json_path, Event.Exists json_path,
          Event.ParseGameModDescriptorFile json_path] ++ base_events ++
          [Event.alert (Alert.could_not_recognize descriptor.base_file)],
      e.isPatchEvent = false := by
  have hprobe : probeEvents env json_path
      = [Event.IsCDROMDevice json_path, Event.Exists json_path] := by
    simp [probeEvents, hd]
  have hpl : ¬ isPlaylistExtension (extensionOf env json_path) := by rw [hext]; decide
  have hfam : extensionOf env json_path ∉ disc_image_extensions := by rw [hext]; decide
  have hdff : extensionOf env json_path ≠ ".dff".toList := by rw [hext]; decide
  have hwad : ¬ extensionOf env json_path = ".wad".toList := by rw [hext]; decide
  have hgo : GenerateFromFile env (fuel + 1) (json_path :: rest) session =
      Completion.returned none
        ([Event.IsCDROMDevice json_path, Event.Exists json_path,
          Event.ParseGameModDescriptorFile json_path] ++ base_events ++
          [Event.alert (Alert.could_not_recognize descriptor.base_file)]) := by
    rw [GenerateFromFile_direct env fuel json_path rest session (Or.inr hx) hpl, hd,
      classify_other env _ json_path rest _ session _ hfam hdff]
    simp only [if_neg hwad, if_pos hext, hparse, hprobe]
    unfold GenerateFromFile.json
    simp only [hbase]
    rfl
  refine ⟨hgo, ?_, ?_⟩
  · rw [alertsOf_append, alertsOf_append]
    rfl
  · exact failed_no_patch_events env (fuel + 1) (json_path :: rest) session _ hgo

/-- C12, at the sample descriptor `/g/broken.json`, whose base artifact
`/g/missing.iso` does not exist. -/
theorem C12_mod_descriptor_base_fails_witness :
    GenerateFromFile sampleEnvBrokenMod 2 ["/g/broken.json".toList] plainSession =
      Completion.returned none
        [Event.IsCDROMDevice "/g/broken.json".toList, Event.Exists "/g/broken.json".toList,
         Event.ParseGameModDescriptorFile "/g/broken.json".toList,
         Event.IsCDROMDevice "/g/missing.iso".toList, Event.Exists "/g/missing.iso".toList,
         Event.alert (Alert.file_does_not_exist "/g/missing.iso".toList),
         Event.alert (Alert.could_not_recognize "/g/missing.iso".toList)] :=
  (C12_mod_descriptor_base_fails sampleEnvBrokenMod 1 "/g/broken.json".toList [] plainSession
    { base_file := "/g/missing.iso".toList, riivolution := some 3 }
    [Event.IsCDROMDevice "/g/missing.iso".toList, Event.Exists "/g/missing.iso".toList,
     Event.alert (Alert.file_does_not_exist "/g/missing.iso".toList)]
    (by decide) (by decide) (by decide) (by decide) (by decide)).1

/-! ## The auto-swap sibling set -/

/-- C14. The checksum table of `Load_BS2` classifies each of the six known
CRC32 values as known and as exactly one family: PAL-family exactly for
0x4F319F43 and 0xAD1B7F16, NTSC-family for the other four, so the MPAL v1.1
value 0x667D0B64 is NTSC-family; the six constants are pairwise distinct and
every other value is classified as unknown. -/
theorem C14_checksum_table :
    Load_BS2.classify 0x6DAC1F2A = { known_ipl := true, pal_ipl := false } ∧
    Load_BS2.classify 0xD5E6FEEA = { known_ipl := true, pal_ipl := false } ∧
    Load_BS2.classify 0x86573808 = { known_ipl := true, pal_ipl := false } ∧
    Load_BS2.classify 0x667D0B64 = { known_ipl := true, pal_ipl := false } ∧
    Load_BS2.classify 0x4F319F43 = { known_ipl := true, pal_ipl := true } ∧
    Load_BS2.classify 0xAD1B7F16 = { known_ipl := true, pal_ipl := true } ∧
    [NTSC_v1_0, NTSC_v1_1, NTSC_v1_2, MPAL_v1_1, PAL_v1_0, PAL_v1_2]
      = [0x6DAC1F2A, 0xD5E6FEEA, 0x86573808, 0x667D0B64, 0x4F319F43, 0xAD1B7F16] ∧
    [NTSC_v1_0, NTSC_v1_1, NTSC_v1_2, MPAL_v1_1, PAL_v1_0, PAL_v1_2].Nodup ∧
    (∀ ipl_hash : Nat,
      ipl_hash ∉ [0x6DAC1F2A, 0xD5E6FEEA, 0x86573808, 0x667D0B64, 0x4F319F43, 0xAD1B7F16] →
      (Load_BS2.classify ipl_hash).known_ipl = false) ∧
    (∀ ipl_hash : Nat, (Load_BS2.classify ipl_hash).pal_ipl = true ↔
      (ipl_hash = 0x4F319F43 ∨ ipl_hash = 0xAD1B7F16)) := by
  refine ⟨by decide, by decide, by decide, by decide, by decide, by decide, by decide,
    by decide, ?_, ?_⟩
  · intro h hn
    simp only [List.mem_cons, List.mem_singleton, List.not_mem_nil, or_false, not_or] at hn
    obtain ⟨h1, h2, h3, h4, h5, h6⟩ := hn
    simp [Load_BS2.classify, NTSC_v1_0, NTSC_v1_1, NTSC_v1_2, MPAL_v1_1, PAL_v1_0, PAL_v1_2,
      h1, h2, h3, h4, h5, h6]
  · intro h
    unfold Load_BS2.classify
    simp only [NTSC_v1_0, NTSC_v1_1, NTSC_v1_2, MPAL_v1_1, PAL_v1_0, PAL_v1_2]
    constructor
    · intro hp
      split at hp
      · simp at hp
      · split at hp
        · assumption
        · simp at hp
    · intro hp
      rcases hp with rfl | rfl <;> decide

theorem bootAlertsOf_append (xs ys : List BootEvent) :
    bootAlertsOf (xs ++ ys) = bootAlertsOf xs ++ bootAlertsOf ys := by
  induction xs with
  | nil => rfl
  | cons e xs ih => cases e <;> simp [bootAlertsOf, ih]

theorem writesOf_append (xs ys : List BootEvent) :
    writesOf (xs ++ ys) = writesOf xs ++ writesOf ys := by
  induction xs with
  | nil => rfl
  | cons e xs ih => cases e <;> simp [writesOf, ih]

theorem memoryWritesOf_append (xs ys : List BootEvent) :
    memoryWritesOf (xs ++ ys) = memoryWritesOf xs ++ memoryWritesOf ys := by
  induction xs with
  | nil => rfl
  | cons e xs ih => cases e <;> simp [memoryWritesOf, ih]

theorem setDiscCalls_append (xs ys : List BootEvent) :
    setDiscCalls (xs ++ ys) = setDiscCalls xs ++ setDiscCalls ys := by
  induction xs with
  | nil => rfl
  | cons e xs ih => cases e <;> simp [setDiscCalls, ih]

theorem newTitleLoads_append (xs ys : List BootEvent) :
    newTitleLoads (xs ++ ys) = newTitleLoads xs + newTitleLoads ys := by
  induction xs with
  | nil => simp [newTitleLoads]
  | cons e xs ih => cases e <;> simp [newTitleLoads, ih]; omega

theorem alerts_map (as : List BootAlert) :
    bootAlertsOf (as.map BootEvent.alert) = as ∧ writesOf (as.map BootEvent.alert) = [] ∧
    memoryWritesOf (as.map BootEvent.alert) = [] ∧ setDiscCalls (as.map BootEvent.alert) = [] := by
  induction as with
  | nil => exact ⟨rfl, rfl, rfl, rfl⟩
  | cons a as ih =>
    obtain ⟨h1, h2, h3, h4⟩ := ih
    simp [bootAlertsOf, writesOf, memoryWritesOf, setDiscCalls, h1, h2, h3, h4]

/-- The registers after a trace, when no collaborator changes the register
looked at: the value last assigned to it, or its value before the trace. -/
theorem regsAfter_eq (collaborators : BootEvent → (Reg → Nat) → Reg → Nat) (r : Reg)
    (hframe : ∀ e regs, collaborators e regs r = regs r) :
    ∀ (events : List BootEvent) (regs : Reg → Nat),
      regsAfter collaborators events regs r
        = (lastWritten (writesOf events) r).getD (regs r) := by
  intro events
  induction events with
  | nil => intro regs; rfl
  | cons e es ih =>
    intro regs
    have hstep : regsAfter collaborators (e :: es) regs
        = regsAfter collaborators es (e.applyToRegs collaborators regs) := rfl
    rw [hstep, ih]
    cases e with
    | write reg value =>
      simp only [writesOf, lastWritten, BootEvent.applyToRegs]
      cases lastWritten (writesOf es) r with
      | some v => rfl
      | none => by_cases h : r = reg <;> simp [h]
    | _ => simp only [writesOf, BootEvent.applyToRegs, hframe]

theorem warnings_are_alerts (env : BootEnv) (ipl_hash : Nat) :
    Load_BS2.warnings env ipl_hash
      = (bootAlertsOf (Load_BS2.warnings env ipl_hash)).map BootEvent.alert := by
  unfold Load_BS2.warnings
  simp only
  split <;> split <;> simp [bootAlertsOf]

theorem Load_BS2_unreadable (env : BootEnv) (path : Str)
    (h : env.ReadFileToString path = none) :
    Load_BS2 env path = BootResult.returned false [BootEvent.ReadFileToString path] := by
  simp [Load_BS2, h]

theorem Load_BS2_full (env : BootEnv) (path : Str) (data : FileData)
    (hread : env.ReadFileToString path = some data) (hlen : 0x1B061F ≤ data.size) :
    Load_BS2 env path = BootResult.returned true
      ([BootEvent.ReadFileToString path] ++ Load_BS2.warnings env (env.ComputeCRC32 data) ++
        [BootEvent.Descrambler 0x100 0x1AFE00, BootEvent.CopyToEmu 0x01200000 0x100 0x700,
         BootEvent.CopyToEmu 0x01300000 0x820 0x1AFE00] ++ Load_BS2.bringUp) := by
  have h1 : ¬ data.size < 0x100 + 0x1AFE00 := by omega
  have h2 : ¬ data.size + 1 < 0x820 + 0x1AFE00 := by omega
  simp only [Load_BS2, hread, if_neg h1, if_neg h2]
  simp

theorem Load_BS2_alerts (env : BootEnv) (path : Str) (data : FileData)
    (hread : env.ReadFileToString path = some data) :
    bootAlertsOf (Load_BS2 env path).events
      = bootAlertsOf (Load_BS2.warnings env (env.ComputeCRC32 data)) := by
  simp only [Load_BS2, hread]
  split
  · simp [BootResult.events, bootAlertsOf_append, bootAlertsOf]
  · split
    · simp [BootResult.events, bootAlertsOf_append, bootAlertsOf]
    · simp [BootResult.events, bootAlertsOf_append, bootAlertsOf, Load_BS2.bringUp]

/-- C15, refuted as stated: the sample file `/ipl/short.bin` is readable and
empty; `Load_BS2` does not return on it but reaches the descrambling of the
0x1AFE00 bytes from offset 0x100, which lie outside the dump. -/
theorem C15_short_dump_counterexample :
    (sampleBootEnv.ReadFileToString "/ipl/short.bin".toList).map FileData.size = some 0 ∧
    Load_BS2 sampleBootEnv "/ipl/short.bin".toList =
      BootResult.out_of_range
        [BootEvent.ReadFileToString "/ipl/short.bin".toList,
         BootEvent.alert (BootAlert.ipl_not_known_good 0),
         BootEvent.Descrambler 0x100 0x1AFE00] := by
  decide

/-- C15, amended. For every readable ROM dump of at least 0x1B0620 bytes,
whatever its CRC32 (known or unknown) and whatever the configured region,
`Load_BS2` returns true and does the same fixed things after its warnings:
it descrambles 0x1AFE00 bytes at dump offset 0x100, copies 0x700 bytes from
dump offset 0x100 to emulated address 0x01200000 and 0x1AFE00 bytes from dump
offset 0x820 to 0x01300000, assigns r3 = 0xfff0001f, r4 = 0x00002030,
r5 = 0x0000009c, MSR.FP = MSR.DR = MSR.IR = 1, HID0 = 0x0011c464,
IBAT3U = DBAT3U = 0xfff0001f, IBAT3L = DBAT3L = 0xfff00001, calls
`SetupBAT(false)` and assigns PC = 0x81200150; the registers hold these
values afterwards provided no collaborator changes these registers; the CRC32 and the
region influence only which warnings are raised. -/
theorem C15_full_dump (env : BootEnv) (path : Str) (data : FileData)
    (hread : env.ReadFileToString path = some data) (hlen : 0x1B0620 ≤ data.size) :
    (∃ warnings : List BootAlert,
      Load_BS2 env path = BootResult.returned true
        ([BootEvent.ReadFileToString path] ++ warnings.map BootEvent.alert ++
          [BootEvent.Descrambler 0x100 0x1AFE00,
           BootEvent.CopyToEmu 0x01200000 0x100 0x700,
           BootEvent.CopyToEmu 0x01300000 0x820 0x1AFE00,
           BootEvent.write (Reg.gpr 3) 0xfff0001f,
           BootEvent.write (Reg.gpr 4) 0x00002030,
           BootEvent.write (Reg.gpr 5) 0x0000009c,
           BootEvent.write Reg.MSR_FP 1,
           BootEvent.write Reg.MSR_DR 1,
           BootEvent.write Reg.MSR_IR 1,
           BootEvent.write (Reg.spr SPR.HID0) 0x0011c464,
           BootEvent.write (Reg.spr SPR.IBAT3U) 0xfff0001f,
           BootEvent.write (Reg.spr SPR.IBAT3L) 0xfff00001,
           BootEvent.write (Reg.spr SPR.DBAT3U) 0xfff0001f,
           BootEvent.write (Reg.spr SPR.DBAT3L) 0xfff00001,
           BootEvent.SetupBAT false,
           BootEvent.write Reg.PC 0x81200150])) ∧
    memoryWritesOf (Load_BS2 env path).events
      = [BootEvent.CopyToEmu 0x01200000 0x100 0x700,
         BootEvent.CopyToEmu 0x01300000 0x820 0x1AFE00] ∧
    (∀ (collaborators : BootEvent → (Reg → Nat) → Reg → Nat) (regs : Reg → Nat),
      (∀ e regs' r,
        r ∈ [Reg.gpr 3, Reg.gpr 4, Reg.gpr 5, Reg.MSR_FP, Reg.MSR_DR, Reg.MSR_IR,
             Reg.spr SPR.HID0, Reg.spr SPR.IBAT3U, Reg.spr SPR.IBAT3L, Reg.spr SPR.DBAT3U,
             Reg.spr SPR.DBAT3L, Reg.PC] →
        collaborators e regs' r = regs' r) →
      regsAfter collaborators (Load_BS2 env path).events regs (Reg.gpr 3) = 0xfff0001f ∧
      regsAfter collaborators (Load_BS2 env path).events regs (Reg.gpr 4) = 0x00002030 ∧
      regsAfter collaborators (Load_BS2 env path).events regs (Reg.gpr 5) = 0x0000009c ∧
      regsAfter collaborators (Load_BS2 env path).events regs Reg.MSR_FP = 1 ∧
      regsAfter collaborators (Load_BS2 env path).events regs Reg.MSR_DR = 1 ∧
      regsAfter collaborators (Load_BS2 env path).events regs Reg.MSR_IR = 1 ∧
      regsAfter collaborators (Load_BS2 env path).events regs (Reg.spr SPR.HID0) = 0x0011c464 ∧
      regsAfter collaborators (Load_BS2 env path).events regs (Reg.spr SPR.IBAT3U)
        = 0xfff0001f ∧
      regsAfter collaborators (Load_BS2 env path).events regs (Reg.spr SPR.IBAT3L)
        = 0xfff00001 ∧
      regsAfter collaborators (Load_BS2 env path).events regs (Reg.spr SPR.DBAT3U)
        = 0xfff0001f ∧
      regsAfter collaborators (Load_BS2 env path).events regs (Reg.spr SPR.DBAT3L)
        = 0xfff00001 ∧
      regsAfter collaborators (Load_BS2 env path).events regs Reg.PC = 0x81200150) := by
  have hfull := Load_BS2_full env path data hread (by omega)
  have hw := warnings_are_alerts env (env.ComputeCRC32 data)
  have hm := alerts_map (bootAlertsOf (Load_BS2.warnings env (env.ComputeCRC32 data)))
  rw [← hw] at hm
  obtain ⟨_, hm2, hm3, _⟩ := hm
  have hwrites : writesOf (Load_BS2 env path).events = writesOf Load_BS2.bringUp := by
    rw [hfull]
    simp only [BootResult.events, writesOf_append, hm2]
    rfl
  refine ⟨⟨bootAlertsOf (Load_BS2.warnings env (env.ComputeCRC32 data)), ?_⟩, ?_, ?_⟩
  · rw [hfull, ← hw]
    simp [Load_BS2.bringUp]
  · rw [hfull]
    simp only [BootResult.events, memoryWritesOf_append, hm3]
    rfl
  · intro collaborators regs hframe
    have key : ∀ r,
        r ∈ [Reg.gpr 3, Reg.gpr 4, Reg.gpr 5, Reg.MSR_FP, Reg.MSR_DR, Reg.MSR_IR,
             Reg.spr SPR.HID0, Reg.spr SPR.IBAT3U, Reg.spr SPR.IBAT3L, Reg.spr SPR.DBAT3U,
             Reg.spr SPR.DBAT3L, Reg.PC] →
        regsAfter collaborators (Load_BS2 env path).events regs r
          = (lastWritten (writesOf Load_BS2.bringUp) r).getD (regs r) := by
      intro r hr
      rw [regsAfter_eq collaborators r (fun e regs' => hframe e regs' r hr), hwrites]
    refine ⟨?_, ?_, ?_, ?_, ?_, ?_, ?_, ?_, ?_, ?_, ?_, ?_⟩ <;>
      (rw [key _ (by decide)]; rfl)

/-- C15 as amended, at the sample dump `/ipl/ok.bin` of 0x200000 bytes. -/
theorem C15_full_dump_witness :
    memoryWritesOf (Load_BS2 sampleBootEnv "/ipl/ok.bin".toList).events
      = [BootEvent.CopyToEmu 0x01200000 0x100 0x700,
         BootEvent.CopyToEmu 0x01300000 0x820 0x1AFE00] ∧
    regsAfter idleCollaborators (Load_BS2 sampleBootEnv "/ipl/ok.bin".toList).events zeroRegs
      Reg.PC = 0x81200150 :=
  have h := C15_full_dump sampleBootEnv "/ipl/ok.bin".toList
    { size := 0x200000, byte := fun _ => 0 } (by rfl) (by decide)
  ⟨h.2.1, (h.2.2 idleCollaborators zeroRegs (fun _ _ _ _ => rfl)).2.2.2.2.2.2.2.2.2.2.2⟩

/-- C16. `Load_BS2` returns false if and only if the ROM file cannot be read;
in that case it raises no alert and changes no register, no emulated memory
and no special-purpose register: the attempt to read the file is all it
does. -/
theorem C16_unreadable (env : BootEnv) (path : Str) :
    ((∃ events, Load_BS2 env path = BootResult.returned false events)
      ↔ env.ReadFileToString path = none) ∧
    (env.ReadFileToString path = none →
      Load_BS2 env path = BootResult.returned false [BootEvent.ReadFileToString path] ∧
      bootAlertsOf (Load_BS2 env path).events = [] ∧
      writesOf (Load_BS2 env path).events = [] ∧
      memoryWritesOf (Load_BS2 env path).events = []) := by
  refine ⟨⟨?_, fun h => ⟨_, Load_BS2_unreadable env path h⟩⟩, ?_⟩
  · rintro ⟨events, h⟩
    cases hr : env.ReadFileToString path with
    | none => rfl
    | some data =>
      simp only [Load_BS2, hr] at h
      split at h
      · simp at h
      · split at h <;> simp at h
  · intro h
    rw [Load_BS2_unreadable env path h]
    exact ⟨rfl, rfl, rfl, rfl⟩

/-- C16, at the unreadable sample path `/ipl/none.bin`. -/
theorem C16_unreadable_witness :
    Load_BS2 sampleBootEnv "/ipl/none.bin".toList
      = BootResult.returned false [BootEvent.ReadFileToString "/ipl/none.bin".toList] :=
  ((C16_unreadable sampleBootEnv "/ipl/none.bin".toList).2 (by rfl)).1

/-- C17. `Load_BS2` raises the region-mismatch warning exactly when the
dump's CRC32 is one of the six known values and its family disagrees with the
configured region (a PAL-family dump with a non-PAL region, or an NTSC-family
dump with the PAL region); a dump with an unknown CRC32 raises the "not a
known good dump" warning and never the region-mismatch warning; a known dump
whose family matches raises no warning at all. -/
theorem C17_warnings (env : BootEnv) (path : Str) (data : FileData)
    (hread : env.ReadFileToString path = some data) :
    (env.ComputeCRC32 data ∈ [PAL_v1_0, PAL_v1_2] → env.m_region ≠ Region.PAL →
      bootAlertsOf (Load_BS2 env path).events
        = [BootAlert.ipl_region_mismatch "PAL".toList
            (env.GetDirectoryForRegion env.m_region)]) ∧
    (env.ComputeCRC32 data ∈ [NTSC_v1_0, NTSC_v1_1, NTSC_v1_2, MPAL_v1_1] →
      env.m_region = Region.PAL →
      bootAlertsOf (Load_BS2 env path).events
        = [BootAlert.ipl_region_mismatch "NTSC".toList
            (env.GetDirectoryForRegion env.m_region)]) ∧
    (env.ComputeCRC32 data
        ∉ [NTSC_v1_0, NTSC_v1_1, NTSC_v1_2, MPAL_v1_1, PAL_v1_0, PAL_v1_2] →
      bootAlertsOf (Load_BS2 env path).events
        = [BootAlert.ipl_not_known_good (env.ComputeCRC32 data)]) ∧
    (env.ComputeCRC32 data ∈ [PAL_v1_0, PAL_v1_2] → env.m_region = Region.PAL →
      bootAlertsOf (Load_BS2 env path).events = []) ∧
    (env.ComputeCRC32 data ∈ [NTSC_v1_0, NTSC_v1_1, NTSC_v1_2, MPAL_v1_1] →
      env.m_region ≠ Region.PAL →
      bootAlertsOf (Load_BS2 env path).events = []) := by
  rw [Load_BS2_alerts env path data hread]
  have hpal : ∀ h, h ∈ [PAL_v1_0, PAL_v1_2] →
      Load_BS2.classify h = { known_ipl := true, pal_ipl := true } := by
    intro h hm
    simp only [List.mem_cons, List.mem_singleton, List.not_mem_nil, or_false] at hm
    rcases hm with rfl | rfl <;> decide
  have hntsc : ∀ h, h ∈ [NTSC_v1_0, NTSC_v1_1, NTSC_v1_2, MPAL_v1_1] →
      Load_BS2.classify h = { known_ipl := true, pal_ipl := false } := by
    intro h hm
    simp only [List.mem_cons, List.mem_singleton, List.not_mem_nil, or_false] at hm
    rcases hm with rfl | rfl | rfl | rfl <;> decide
  have hunk : ∀ h, h ∉ [NTSC_v1_0, NTSC_v1_1, NTSC_v1_2, MPAL_v1_1, PAL_v1_0, PAL_v1_2] →
      Load_BS2.classify h = { known_ipl := false, pal_ipl := false } := by
    intro h hn
    simp only [List.mem_cons, List.mem_singleton, List.not_mem_nil, or_false, not_or] at hn
    obtain ⟨h1, h2, h3, h4, h5, h6⟩ := hn
    simp [Load_BS2.classify, h1, h2, h3, h4, h5, h6]
  refine ⟨?_, ?_, ?_, ?_, ?_⟩
  · intro hm hr
    simp [Load_BS2.warnings, hpal _ hm, hr, bootAlertsOf]
  · intro hm hr
    simp [Load_BS2.warnings, hntsc _ hm, hr, bootAlertsOf]
  · intro hn
    simp [Load_BS2.warnings, hunk _ hn, bootAlertsOf]
  · intro hm hr
    simp [Load_BS2.warnings, hpal _ hm, hr, bootAlertsOf]
  · intro hm hr
    simp [Load_BS2.warnings, hntsc _ hm, hr, bootAlertsOf]

/-- C17, at the empty sample dump, whose checksum 0 is unknown. -/
theorem C17_warnings_witness :
    bootAlertsOf (Load_BS2 sampleBootEnv "/ipl/short.bin".toList).events
      = [BootAlert.ipl_not_known_good 0] :=
  (C17_warnings sampleBootEnv "/ipl/short.bin".toList { size := 0, byte := fun _ => 0 }
    (by rfl)).2.2.1 (by decide)

/-! ## Bring-up of an executable -/

theorem preamble_facts (env : BootEnv) :
    writesOf (BootUp.preamble env) = [] ∧ memoryWritesOf (BootUp.preamble env) = [] ∧
    setDiscCalls (BootUp.preamble env) = [] ∧ bootAlertsOf (BootUp.preamble env) = [] ∧
    newTitleLoads (BootUp.preamble env) = 0 := by
  unfold BootUp.preamble
  split <;> exact ⟨rfl, rfl, rfl, rfl, rfl⟩

theorem SetDefaultDisc_facts (env : BootEnv) :
    writesOf (SetDefaultDisc env) = [] ∧ memoryWritesOf (SetDefaultDisc env) = [] ∧
    bootAlertsOf (SetDefaultDisc env) = [] ∧ newTitleLoads (SetDefaultDisc env) = 0 ∧
    setDiscCalls (SetDefaultDisc env)
      = if env.MAIN_DEFAULT_ISO.isEmpty then []
        else [(env.CreateDisc env.MAIN_DEFAULT_ISO, [])] := by
  unfold SetDefaultDisc SetDisc
  by_cases h : env.MAIN_DEFAULT_ISO.isEmpty = true
  · simp only [h, Bool.not_true, Bool.false_eq_true, if_false, if_true]
    exact ⟨rfl, rfl, rfl, rfl, rfl⟩
  · have h' : env.MAIN_DEFAULT_ISO.isEmpty = false := (Bool.not_eq_true _).mp h
    simp only [h', Bool.not_false, Bool.false_eq_true, if_false, if_true]
    exact ⟨rfl, rfl, rfl, rfl, rfl⟩

theorem CopyDefaultExceptionHandlers_facts :
    writesOf CopyDefaultExceptionHandlers = [] ∧
    setDiscCalls CopyDefaultExceptionHandlers = [] ∧
    bootAlertsOf CopyDefaultExceptionHandlers = [] ∧
    newTitleLoads CopyDefaultExceptionHandlers = 0 := by
  decide

theorem BootUp_executable (env : BootEnv) (boot : BootParameters) (path : Str)
    (reader : BootExecutableReader)
    (hexe : boot.parameters = Parameters.Executable path reader) :
    BootUp env boot =
      match BootTitle.Executable env reader with
      | BootResult.out_of_range ev => BootResult.out_of_range (BootUp.preamble env ++ ev)
      | BootResult.returned false ev => BootResult.returned false (BootUp.preamble env ++ ev)
      | BootResult.returned true ev =>
        BootResult.returned true
          (BootUp.preamble env ++ ev ++
            [BootEvent.ApplyGeneralMemoryPatches boot.riivolution_patches]) := by
  simp only [BootUp, hexe, BootTitle]

theorem BootTitle_Executable_ok (env : BootEnv) (reader : BootExecutableReader)
    (hvalid : env.IsValid reader = true) (hload : env.LoadIntoMemory reader = true) :
    BootTitle.Executable env reader =
      BootResult.returned true
        ([BootEvent.IsValid reader, BootEvent.LoadIntoMemory reader] ++ SetDefaultDisc env ++
          [BootEvent.SetupMSR, BootEvent.SetupBAT env.bWii] ++ CopyDefaultExceptionHandlers ++
          (if env.bWii = true then
            [BootEvent.write (Reg.spr SPR.HID0) 0x0011c464,
             BootEvent.write (Reg.spr SPR.HID4) 0x82000000,
             BootEvent.write (Reg.gpr 1) 0x8004d4bc,
             BootEvent.SetupWiiMemory_Retail,
             BootEvent.BootIOS 58]
           else [BootEvent.SetupGCMemory]) ++
          [BootEvent.OnNewTitleLoad, BootEvent.write Reg.PC (env.GetEntryPoint reader),
           BootEvent.LoadSymbols reader] ++
          (if env.LoadSymbols reader = true then
            [BootEvent.UpdateDebugger_MapLoaded, BootEvent.PatchFunctions]
           else [])) := by
  unfold BootTitle.Executable
  simp only [hvalid, hload, Bool.not_true, Bool.false_eq_true, if_false]
  cases env.bWii <;> cases env.LoadSymbols reader <;> simp

/-- C18. For every Executable descriptor whose reader is valid and loads into
memory, `BootUp` on the Wii family returns true, having assigned
HID0 = 0x0011c464, HID4 = 0x82000000 and r1 = 0x8004d4bc, requested IOS 58
from the kernel, and assigned PC the reader's entry point after signalling
the new title; on the GameCube family it returns true, having assigned PC the
reader's entry point and no other register. The registers hold these values
afterwards (r1, HID0 and HID4 their old values on the GameCube family)
provided no collaborator changes r1, HID0, HID4 or PC. -/
theorem C18_executable_boot (env : BootEnv) (boot : BootParameters) (path : Str)
    (reader : BootExecutableReader)
    (hexe : boot.parameters = Parameters.Executable path reader)
    (hvalid : env.IsValid reader = true) (hload : env.LoadIntoMemory reader = true) :
    (env.bWii = true →
      BootUp env boot = BootResult.returned true
        (BootUp.preamble env ++
          [BootEvent.IsValid reader, BootEvent.LoadIntoMemory reader] ++ SetDefaultDisc env ++
          [BootEvent.SetupMSR, BootEvent.SetupBAT true] ++ CopyDefaultExceptionHandlers ++
          [BootEvent.write (Reg.spr SPR.HID0) 0x0011c464,
           BootEvent.write (Reg.spr SPR.HID4) 0x82000000,
           BootEvent.write (Reg.gpr 1) 0x8004d4bc,
           BootEvent.SetupWiiMemory_Retail,
           BootEvent.BootIOS 58,
           BootEvent.OnNewTitleLoad,
           BootEvent.write Reg.PC (env.GetEntryPoint reader),
           BootEvent.LoadSymbols reader] ++
          (if env.LoadSymbols reader = true then
            [BootEvent.UpdateDebugger_MapLoaded, BootEvent.PatchFunctions]
           else []) ++
          [BootEvent.ApplyGeneralMemoryPatches boot.riivolution_patches]) ∧
      writesOf (BootUp env boot).events
        = [(Reg.spr SPR.HID0, 0x0011c464), (Reg.spr SPR.HID4, 0x82000000),
           (Reg.gpr 1, 0x8004d4bc), (Reg.PC, env.GetEntryPoint reader)]) ∧
    (env.bWii = false →
      BootUp env boot = BootResult.returned true
        (BootUp.preamble env ++
          [BootEvent.IsValid reader, BootEvent.LoadIntoMemory reader] ++ SetDefaultDisc env ++
          [BootEvent.SetupMSR, BootEvent.SetupBAT false] ++ CopyDefaultExceptionHandlers ++
          [BootEvent.SetupGCMemory,
           BootEvent.OnNewTitleLoad,
           BootEvent.write Reg.PC (env.GetEntryPoint reader),
           BootEvent.LoadSymbols reader] ++
          (if env.LoadSymbols reader = true then
            [BootEvent.UpdateDebugger_MapLoaded, BootEvent.PatchFunctions]
           else []) ++
          [BootEvent.ApplyGeneralMemoryPatches boot.riivolution_patches]) ∧
      writesOf (BootUp env boot).events = [(Reg.PC, env.GetEntryPoint reader)]) ∧
    (∀ (collaborators : BootEvent → (Reg → Nat) → Reg → Nat) (regs : Reg → Nat),
      (∀ e regs' r, r ∈ [Reg.gpr 1, Reg.spr SPR.HID0, Reg.spr SPR.HID4, Reg.PC] →
        collaborators e regs' r = regs' r) →
      regsAfter collaborators (BootUp env boot).events regs Reg.PC = env.GetEntryPoint reader ∧
      regsAfter collaborators (BootUp env boot).events regs (Reg.gpr 1)
        = (if env.bWii = true then 0x8004d4bc else regs (Reg.gpr 1)) ∧
      regsAfter collaborators (BootUp env boot).events regs (Reg.spr SPR.HID0)
        = (if env.bWii = true then 0x0011c464 else regs (Reg.spr SPR.HID0)) ∧
      regsAfter collaborators (BootUp env boot).events regs (Reg.spr SPR.HID4)
        = (if env.bWii = true then 0x82000000 else regs (Reg.spr SPR.HID4))) := by
  have hgo := BootUp_executable env boot path reader hexe
  rw [BootTitle_Executable_ok env reader hvalid hload] at hgo
  simp only at hgo
  obtain ⟨p1, _, _, _, _⟩ := preamble_facts env
  obtain ⟨d1, _, _, _, _⟩ := SetDefaultDisc_facts env
  obtain ⟨c1, _, _, _⟩ := CopyDefaultExceptionHandlers_facts
  have hwii : env.bWii = true →
      writesOf (BootUp env boot).events
        = [(Reg.spr SPR.HID0, 0x0011c464), (Reg.spr SPR.HID4, 0x82000000),
           (Reg.gpr 1, 0x8004d4bc), (Reg.PC, env.GetEntryPoint reader)] := by
    intro hw
    rw [hgo]
    simp only [BootResult.events, writesOf_append, p1, d1, c1, hw, if_true]
    split <;> rfl
  have hgc : env.bWii = false →
      writesOf (BootUp env boot).events = [(Reg.PC, env.GetEntryPoint reader)] := by
    intro hw
    rw [hgo]
    simp only [BootResult.events, writesOf_append, p1, d1, c1, hw, Bool.false_eq_true, if_false]
    split <;> rfl
  refine ⟨fun hw => ⟨?_, hwii hw⟩, fun hw => ⟨?_, hgc hw⟩, ?_⟩
  · rw [hgo]
    simp only [hw, if_true, List.append_assoc]
    rfl
  · rw [hgo]
    simp only [hw, Bool.false_eq_true, if_false, List.append_assoc]
    rfl
  · intro collaborators regs hframe
    have key : ∀ r, r ∈ [Reg.gpr 1, Reg.spr SPR.HID0, Reg.spr SPR.HID4, Reg.PC] →
        regsAfter collaborators (BootUp env boot).events regs r
          = (lastWritten (writesOf (BootUp env boot).events) r).getD (regs r) :=
      fun r hr => regsAfter_eq collaborators r (fun e regs' => hframe e regs' r hr) _ regs
    cases hw : env.bWii with
    | true =>
      rw [key _ (by decide), key _ (by decide), key _ (by decide), key _ (by decide), hwii hw]
      simp [lastWritten]
    | false =>
      rw [key _ (by decide), key _ (by decide), key _ (by decide), key _ (by decide), hgc hw]
      simp [lastWritten]

/-- C18, at the sample executable on the Wii and on the GameCube. -/
theorem C18_executable_boot_witness :
    writesOf (BootUp sampleWiiEnv sampleExecutable).events
      = [(Reg.spr SPR.HID0, 0x0011c464), (Reg.spr SPR.HID4, 0x82000000),
         (Reg.gpr 1, 0x8004d4bc), (Reg.PC, 0x80003100)] ∧
    writesOf (BootUp sampleBootEnv sampleExecutable).events = [(Reg.PC, 0x80003100)] ∧
    regsAfter idleCollaborators (BootUp sampleWiiEnv sampleExecutable).events zeroRegs
      (Reg.gpr 1) = 0x8004d4bc :=
  ⟨((C18_executable_boot sampleWiiEnv sampleExecutable _ _ rfl (by decide) (by decide)).1
      (by decide)).2,
   ((C18_executable_boot sampleBootEnv sampleExecutable _ _ rfl (by decide) (by decide)).2.1
      (by decide)).2,
   ((C18_executable_boot sampleWiiEnv sampleExecutable _ _ rfl (by decide) (by decide)).2.2
      idleCollaborators zeroRegs (fun _ _ _ _ => rfl)).2.1⟩

/-- C19. For every Executable descriptor, `BootUp` fails if and only if the
reader reports itself invalid or loading into memory fails; the "Failed to
load the executable to memory" alert is raised exactly in the second case;
and in both failure cases the step has not mounted the default disc, has not
written any register or exception vector, has not changed PC and has not
signalled "new title loaded": after the preamble it has only asked the reader
whether it is valid and, if so, to load, and raised the alert. -/
theorem C19_executable_failure (env : BootEnv) (boot : BootParameters) (path : Str)
    (reader : BootExecutableReader)
    (hexe : boot.parameters = Parameters.Executable path reader) :
    ((∃ events, BootUp env boot = BootResult.returned false events) ↔
      (env.IsValid reader = false ∨ env.LoadIntoMemory reader = false)) ∧
    (env.IsValid reader = false →
      BootUp env boot
        = BootResult.returned false (BootUp.preamble env ++ [BootEvent.IsValid reader])) ∧
    (env.IsValid reader = true → env.LoadIntoMemory reader = false →
      BootUp env boot
        = BootResult.returned false
            (BootUp.preamble env ++
              [BootEvent.IsValid reader, BootEvent.LoadIntoMemory reader,
               BootEvent.alert BootAlert.failed_to_load_executable])) ∧
    (BootAlert.failed_to_load_executable ∈ bootAlertsOf (BootUp env boot).events ↔
      (env.IsValid reader = true ∧ env.LoadIntoMemory reader = false)) ∧
    (∀ events, BootUp env boot = BootResult.returned false events →
      setDiscCalls events = [] ∧ writesOf events = [] ∧ memoryWritesOf events = [] ∧
      newTitleLoads events = 0) := by
  have hgo := BootUp_executable env boot path reader hexe
  obtain ⟨p1, p2, p3, p4, p5⟩ := preamble_facts env
  have hinv : env.IsValid reader = false →
      BootUp env boot
        = BootResult.returned false (BootUp.preamble env ++ [BootEvent.IsValid reader]) := by
    intro hv
    rw [hgo]
    simp [BootTitle.Executable, hv]
  have hnoload : env.IsValid reader = true → env.LoadIntoMemory reader = false →
      BootUp env boot
        = BootResult.returned false
            (BootUp.preamble env ++
              [BootEvent.IsValid reader, BootEvent.LoadIntoMemory reader,
               BootEvent.alert BootAlert.failed_to_load_executable]) := by
    intro hv hl
    rw [hgo]
    simp [BootTitle.Executable, hv, hl]
  have hok : env.IsValid reader = true → env.LoadIntoMemory reader = true →
      ∃ ev, BootUp env boot = BootResult.returned true ev ∧ bootAlertsOf ev = [] := by
    intro hv hl
    rw [hgo, BootTitle_Executable_ok env reader hv hl]
    refine ⟨_, rfl, ?_⟩
    obtain ⟨_, _, d3, _, _⟩ := SetDefaultDisc_facts env
    obtain ⟨_, _, c3, _⟩ := CopyDefaultExceptionHandlers_facts
    simp only [bootAlertsOf_append, p4, d3, c3]
    split <;> split <;> rfl
  refine ⟨⟨?_, ?_⟩, hinv, hnoload, ⟨?_, ?_⟩, ?_⟩
  · rintro ⟨events, h⟩
    cases hv : env.IsValid reader with
    | false => exact Or.inl rfl
    | true =>
      cases hl : env.LoadIntoMemory reader with
      | false => exact Or.inr rfl
      | true =>
        obtain ⟨ev, he, _⟩ := hok hv hl
        rw [he] at h
        simp at h
  · intro h
    cases hv : env.IsValid reader with
    | false => exact ⟨_, hinv hv⟩
    | true =>
      rcases h with h | h
      · rw [hv] at h; simp at h
      · exact ⟨_, hnoload hv h⟩
  · intro hmem
    cases hv : env.IsValid reader with
    | false =>
      rw [hinv hv] at hmem
      simp [BootResult.events, bootAlertsOf_append, p4, bootAlertsOf] at hmem
    | true =>
      cases hl : env.LoadIntoMemory reader with
      | false => exact ⟨rfl, rfl⟩
      | true =>
        obtain ⟨ev, he, ha⟩ := hok hv hl
        rw [he] at hmem
        simp [BootResult.events, ha] at hmem
  · rintro ⟨hv, hl⟩
    rw [hnoload hv hl]
    simp [BootResult.events, bootAlertsOf_append, p4, bootAlertsOf]
  · intro events h
    cases hv : env.IsValid reader with
    | false =>
      rw [hinv hv] at h
      injection h with _ h
      rw [← h]
      simp only [setDiscCalls_append, writesOf_append, memoryWritesOf_append,
        newTitleLoads_append, p1, p2, p3, p5]
      exact ⟨rfl, rfl, rfl, rfl⟩
    | true =>
      cases hl : env.LoadIntoMemory reader with
      | false =>
        rw [hnoload hv hl] at h
        injection h with _ h
        rw [← h]
        simp only [setDiscCalls_append, writesOf_append, memoryWritesOf_append,
          newTitleLoads_append, p1, p2, p3, p5]
        exact ⟨rfl, rfl, rfl, rfl⟩
      | true =>
        obtain ⟨ev, he, _⟩ := hok hv hl
        rw [he] at h
        simp at h

/-- C19, at the sample executable with a reader that is valid but fails to
load. -/
theorem C19_executable_failure_witness :
    BootUp { sampleWiiEnv with LoadIntoMemory := fun _ => false } sampleExecutable
      = BootResult.returned false
          [BootEvent.VideoInterface_Preset true,
           BootEvent.IsValid { kind := ReaderKind.ElfReader, file_name := "/g/x.elf".toList },
           BootEvent.LoadIntoMemory
             { kind := ReaderKind.ElfReader, file_name := "/g/x.elf".toList },
           BootEvent.alert BootAlert.failed_to_load_executable] :=
  ((C19_executable_failure { sampleWiiEnv with LoadIntoMemory := fun _ => false }
      sampleExecutable _ _ rfl).2.2.1 (by decide) (by decide)).trans (by decide)

/-! ## Failed boot requests and the disc drive -/

theorem discSlotAfter_eq (events : List BootEvent) :
    ∀ slot, discSlotAfter events slot = slotAfterMounts (setDiscCalls events) slot := by
  induction events with
  | nil => intro slot; rfl
  | cons e es ih =>
    intro slot
    cases e <;> simp [discSlotAfter, setDiscCalls, slotAfterMounts, ih]

theorem Load_BS2_returned_false (env : BootEnv) (path : Str) (events : List BootEvent)
    (h : Load_BS2 env path = BootResult.returned false events) :
    events = [BootEvent.ReadFileToString path] := by
  cases hr : env.ReadFileToString path with
  | none =>
    rw [Load_BS2_unreadable env path hr] at h
    injection h with _ h
    exact h.symm
  | some data =>
    simp only [Load_BS2, hr] at h
    split at h
    · simp at h
    · split at h <;> simp at h

theorem BootTitle_failed_mounts (env : BootEnv) (patches : List Patch) (parameters : Parameters)
    (events : List BootEvent)
    (h : BootTitle env patches parameters = BootResult.returned false events) :
    setDiscCalls events = mountsBeforeBringUp env parameters := by
  obtain ⟨_, _, _, _, d5⟩ := SetDefaultDisc_facts env
  cases parameters with
  | Disc disc =>
    simp only [BootTitle, BootTitle.Disc, SetDisc] at h
    cases hv : disc.volume with
    | none =>
      rw [hv] at h
      injection h with _ h
      rw [← h]
      simp [setDiscCalls, mountsBeforeBringUp, hv]
    | some volume =>
      rw [hv] at h
      simp only at h
      split at h
      · injection h with _ h
        rw [← h]
        simp [setDiscCalls, mountsBeforeBringUp, hv]
      · simp at h
  | Executable path reader =>
    simp only [BootTitle, BootTitle.Executable] at h
    split at h
    · injection h with _ h
      rw [← h]
      rfl
    · split at h
      · injection h with _ h
        rw [← h]
        rfl
      · simp at h
  | WAD wad =>
    simp only [BootTitle, BootTitle.WAD] at h
    split at h
    · injection h with _ h
      rw [← h, setDiscCalls_append, d5]
      simp [setDiscCalls, mountsBeforeBringUp]
    · simp at h
  | NANDTitle id =>
    simp only [BootTitle, BootTitle.NANDTitle] at h
    split at h
    · injection h with _ h
      rw [← h, setDiscCalls_append, d5]
      simp [setDiscCalls, mountsBeforeBringUp]
    · simp at h
  | IPL path region disc =>
    simp only [BootTitle, BootTitle.IPL] at h
    split at h
    · split at h <;>
        (injection h with _ h
         rw [← h]
         rfl)
    · cases hl : Load_BS2 env path with
      | out_of_range ev => rw [hl] at h; simp at h
      | returned value ev =>
        rw [hl] at h
        cases value with
        | false =>
          simp only at h
          injection h with _ h
          rw [← h, Load_BS2_returned_false env path ev hl]
          rfl
        | true => simp at h
  | DFF dff_path =>
    simp only [BootTitle, BootTitle.DFF] at h
    injection h with _ h
    rw [← h]
    rfl

theorem BootUp_failed (env : BootEnv) (boot : BootParameters) (events : List BootEvent)
    (h : BootUp env boot = BootResult.returned false events) :
    ∃ ev, BootTitle env boot.riivolution_patches boot.parameters
        = BootResult.returned false ev ∧
      events = BootUp.preamble env ++ ev := by
  unfold BootUp at h
  cases ht : BootTitle env boot.riivolution_patches boot.parameters with
  | out_of_range ev => rw [ht] at h; simp at h
  | returned value ev =>
    rw [ht] at h
    cases value with
    | false =>
      simp only at h
      injection h with _ h
      exact ⟨ev, rfl, h.symm⟩
    | true => simp at h

/-- C20, refuted as stated: with the HLE boot of a disc failing, `BootUp` on
the sample Disc descriptor returns false after handing the descriptor's
volume to the drive, so that a drive that was empty holds a disc; and with
`/g/a.iso` configured as the default disc image and the boot of the package
failing, `BootUp` on the sample install package returns false after mounting
the default disc. -/
theorem C20_failed_boot_counterexample :
    BootUp sampleBootEnv sampleDiscBoot
      = BootResult.returned false
          [BootEvent.VideoInterface_Preset true,
           BootEvent.SetDisc (some sampleVolume) ["/g/a.iso".toList, "/g/b.iso".toList],
           BootEvent.EmulatedBS2 false sampleVolume []] ∧
    discSlotAfter (BootUp sampleBootEnv sampleDiscBoot).events emptySlot
      = { disc := some sampleVolume,
          auto_disc_change_paths := ["/g/a.iso".toList, "/g/b.iso".toList] } ∧
    discSlotAfter (BootUp sampleBootEnv sampleDiscBoot).events emptySlot ≠ emptySlot ∧
    BootUp sampleWiiEnv sampleWadBoot
      = BootResult.returned false
          [BootEvent.VideoInterface_Preset true,
           BootEvent.CreateDisc "/g/a.iso".toList,
           BootEvent.SetDisc (some sampleVolume) [],
           BootEvent.Boot_WiiWAD { blob := 2 }] ∧
    discSlotAfter (BootUp sampleWiiEnv sampleWadBoot).events emptySlot ≠ emptySlot := by
  decide

/-- C20, amended. Whenever `BootUp` returns false, the disc drive holds what
it held before the call for an Executable, a firmware-ROM and a
replay-capture descriptor, and for an install package or installed title when
no default disc image is configured. For a Disc descriptor the descriptor's
volume (null included) has been handed to the drive before the HLE BS2
bring-up and is what the drive holds; for an install package or installed
title with a default disc image configured, that image has been mounted
before the bring-up and is what the drive holds. -/
theorem C20_failed_boot_disc_slot (env : BootEnv) (boot : BootParameters)
    (events : List BootEvent) (hfail : BootUp env boot = BootResult.returned false events) :
    (∀ path reader, boot.parameters = Parameters.Executable path reader →
      setDiscCalls events = [] ∧ ∀ slot, discSlotAfter events slot = slot) ∧
    (∀ path region disc, boot.parameters = Parameters.IPL path region disc →
      setDiscCalls events = [] ∧ ∀ slot, discSlotAfter events slot = slot) ∧
    (∀ dff_path, boot.parameters = Parameters.DFF dff_path →
      setDiscCalls events = [] ∧ ∀ slot, discSlotAfter events slot = slot) ∧
    (∀ disc, boot.parameters = Parameters.Disc disc →
      setDiscCalls events = [(disc.volume, disc.auto_disc_change_paths)] ∧
      ∀ slot, discSlotAfter events slot
        = { disc := disc.volume, auto_disc_change_paths := disc.auto_disc_change_paths }) ∧
    (∀ wad, boot.parameters = Parameters.WAD wad →
      ∀ slot, discSlotAfter events slot
        = if env.MAIN_DEFAULT_ISO.isEmpty then slot
          else { disc := env.CreateDisc env.MAIN_DEFAULT_ISO, auto_disc_change_paths := [] }) ∧
    (∀ id, boot.parameters = Parameters.NANDTitle id →
      ∀ slot, discSlotAfter events slot
        = if env.MAIN_DEFAULT_ISO.isEmpty then slot
          else { disc := env.CreateDisc env.MAIN_DEFAULT_ISO, auto_disc_change_paths := [] }) := by
  obtain ⟨ev, ht, rfl⟩ := BootUp_failed env boot events hfail
  have hm := BootTitle_failed_mounts env _ _ ev ht
  have hcalls : setDiscCalls (BootUp.preamble env ++ ev)
      = mountsBeforeBringUp env boot.parameters := by
    rw [setDiscCalls_append, (preamble_facts env).2.2.1, hm]
    rfl
  have hslot : ∀ slot, discSlotAfter (BootUp.preamble env ++ ev) slot
      = slotAfterMounts (mountsBeforeBringUp env boot.parameters) slot := by
    intro slot
    rw [discSlotAfter_eq, hcalls]
  refine ⟨?_, ?_, ?_, ?_, ?_, ?_⟩
  · intro path reader hp
    rw [hp] at hcalls hslot
    exact ⟨hcalls, hslot⟩
  · intro path region disc hp
    rw [hp] at hcalls hslot
    exact ⟨hcalls, hslot⟩
  · intro dff_path hp
    rw [hp] at hcalls hslot
    exact ⟨hcalls, hslot⟩
  · intro disc hp
    rw [hp] at hcalls hslot
    exact ⟨hcalls, hslot⟩
  · intro wad hp slot
    rw [hslot, hp]
    simp only [mountsBeforeBringUp]
    split <;> rfl
  · intro id hp slot
    rw [hslot, hp]
    simp only [mountsBeforeBringUp]
    split <;> rfl

/-- C20 as amended, at the sample executable with a reader that reports
itself invalid: the drive is left alone. -/
theorem C20_failed_boot_disc_slot_witness :
    BootUp { sampleWiiEnv with IsValid := fun _ => false } sampleExecutable
      = BootResult.returned false
          [BootEvent.VideoInterface_Preset true,
           BootEvent.IsValid { kind := ReaderKind.ElfReader, file_name := "/g/x.elf".toList }] ∧
    discSlotAfter
      [BootEvent.VideoInterface_Preset true,
       BootEvent.IsValid { kind := ReaderKind.ElfReader, file_name := "/g/x.elf".toList }]
      emptySlot = emptySlot :=
  ⟨by decide,
   ((C20_failed_boot_disc_slot { sampleWiiEnv with IsValid := fun _ => false } sampleExecutable
      [BootEvent.VideoInterface_Preset true,
       BootEvent.IsValid { kind := ReaderKind.ElfReader, file_name := "/g/x.elf".toList }]
      (by decide)).1 _ _ rfl).2 emptySlot⟩

/-! ## The paths in alerts -/

theorem mem_subjectsOf_append (x : Str) (xs ys : List Event) :
    x ∈ subjectsOf (xs ++ ys) ↔ x ∈ subjectsOf xs ∨ x ∈ subjectsOf ys := by
  simp [subjectsOf, List.filterMap_append]

theorem mem_alertsOf_append (a : Alert) (xs ys : List Event) :
    a ∈ alertsOf (xs ++ ys) ↔ a ∈ alertsOf xs ∨ a ∈ alertsOf ys := by
  rw [alertsOf_append, List.mem_append]

theorem existsQueries_subjects (p : Str) (events : List Event)
    (h : p ∈ existsQueries events) : p ∈ subjectsOf events := by
  induction events with
  | nil => simp [existsQueries] at h
  | cons e es ih =>
    cases e <;>
      simp only [existsQueries, subjectsOf, List.filterMap_cons, Event.subject, List.mem_cons]
        at h ⊢ <;>
      first
        | exact ih h
        | (rcases h with h | h
           · exact Or.inl h
           · exact Or.inr (ih h))
        | exact Or.inr (ih h)

theorem probeEvents_subject (env : Env) (front : Str) :
    front ∈ subjectsOf (probeEvents env front) := by
  unfold probeEvents
  split <;> simp [subjectsOf, Event.subject]

theorem ReadM3UFile_alert_paths (env : Env) (m3u_path folder_path : Str) :
    ∀ a ∈ alertsOf (ReadM3UFile env m3u_path folder_path).2, a.path = m3u_path := by
  obtain ⟨scan, hs, _, _, heq⟩ := ReadM3UFile_eq env m3u_path folder_path
  rw [heq]
  intro a ha
  split at ha
  · simp only [alertsOf_append, hs, alertsOf, List.nil_append, List.mem_singleton] at ha
    rw [ha]
    rfl
  · split at ha
    · simp only [alertsOf_append, hs, alertsOf, List.nil_append, List.mem_singleton] at ha
      rw [ha]
      rfl
    · simp only [hs, List.not_mem_nil] at ha

theorem ReadM3UFile_result_consulted (env : Env) (m3u_path folder_path : Str) :
    ∀ p ∈ (ReadM3UFile env m3u_path folder_path).1,
      p ∈ subjectsOf (ReadM3UFile env m3u_path folder_path).2 := by
  obtain ⟨scan, _, hq, _, heq⟩ := ReadM3UFile_eq env m3u_path folder_path
  rw [heq]
  intro p hp
  split at hp
  · simp at hp
  · split at hp
    · simp at hp
    · rename_i h1 h2
      simp only [if_neg h1, if_neg h2]
      apply existsQueries_subjects
      rw [hq]
      exact List.mem_of_mem_filter hp

theorem disc_image_extends (env : Env) (is_drive : Bool) (path : Str) (paths : List Str)
    (extension : Str) (session : BootSessionData) (events : List Event) :
    ∃ tail,
      (GenerateFromFile.disc_image env is_drive path paths extension session events).events
        = events ++ tail ∧
      ∀ a ∈ alertsOf tail, a.path ∈ subjectsOf tail := by
  unfold GenerateFromFile.disc_image
  simp only
  cases env.CreateDisc path with
  | some disc => exact ⟨[Event.CreateDisc path], rfl, by simp [alertsOf]⟩
  | none =>
    simp only
    split
    · exact ⟨[Event.CreateDisc path, Event.ElfReader path],
        by simp [Completion.events], by simp [alertsOf]⟩
    · split
      · exact ⟨[Event.CreateDisc path, Event.DolReader path],
          by simp [Completion.events], by simp [alertsOf]⟩
      · split
        · exact ⟨[Event.CreateDisc path, Event.alert (Alert.no_disc_in_drive path)],
            by simp [Completion.events],
            by simp [alertsOf, subjectsOf, Event.subject, Alert.path]⟩
        · exact ⟨[Event.CreateDisc path, Event.alert (Alert.invalid_gcm_iso path)],
            by simp [Completion.events],
            by simp [alertsOf, subjectsOf, Event.subject, Alert.path]⟩

theorem AddRiivolutionPatches_no_alerts (env : Env) (boot_params : BootParameters)
    (patches : List Patch) :
    alertsOf (AddRiivolutionPatches env boot_params patches).2 = [] := by
  unfold AddRiivolutionPatches
  split
  · rfl
  · split <;> rfl

theorem json_extends (env : Env) (recurse : Str → BootSessionData → Completion)
    (descriptor : GameModDescriptor) (session : BootSessionData) (events : List Event)
    (hrec : ∀ p s, recurse p s = Completion.out_of_fuel ∨
      ((∀ a ∈ alertsOf (recurse p s).events, a.path ∈ subjectsOf (recurse p s).events) ∧
        p ∈ subjectsOf (recurse p s).events)) :
    GenerateFromFile.json env recurse descriptor session events = Completion.out_of_fuel ∨
    ∃ tail,
      (GenerateFromFile.json env recurse descriptor session events).events = events ++ tail ∧
      ∀ a ∈ alertsOf tail, a.path ∈ subjectsOf tail := by
  unfold GenerateFromFile.json
  rcases hrec descriptor.base_file session with h | ⟨hn, hb⟩
  · left
    rw [h]
  · cases hr : recurse descriptor.base_file session with
    | out_of_fuel => left; rfl
    | undefined ev =>
      rw [hr] at hn
      exact Or.inr ⟨ev, rfl, hn⟩
    | returned boot ev =>
      rw [hr] at hn hb
      simp only [Completion.events] at hn hb
      right
      cases boot with
      | none =>
        refine ⟨ev ++ [Event.alert (Alert.could_not_recognize descriptor.base_file)],
          by simp [Completion.events], ?_⟩
        intro a ha
        rw [mem_subjectsOf_append]
        rcases (mem_alertsOf_append a _ _).mp ha with h | h
        · exact Or.inl (hn a h)
        · simp only [alertsOf, List.mem_singleton] at h
          rw [h]
          exact Or.inl hb
      | some boot_params =>
        simp only
        split
        · rename_i riivolution disc _ _
          cases disc.volume with
          | none => exact ⟨ev, rfl, hn⟩
          | some volume =>
            refine ⟨ev ++ [Event.GenerateRiivolutionPatches riivolution] ++
              (AddRiivolutionPatches env boot_params
                (env.GenerateRiivolutionPatchesFromGameModDescriptor riivolution
                  volume.game_id volume.revision volume.disc_number)).2,
              by simp [Completion.events], ?_⟩
            intro a ha
            rw [alertsOf_append, alertsOf_append, AddRiivolutionPatches_no_alerts] at ha
            simp only [alertsOf, List.append_nil] at ha
            rw [mem_subjectsOf_append, mem_subjectsOf_append]
            exact Or.inl (Or.inl (hn a ha))
        · exact ⟨ev, rfl, hn⟩

theorem classify_extends (env : Env) (recurse : Str → BootSessionData → Completion)
    (is_drive : Bool) (path : Str) (rest : List Str) (extension : Str)
    (session : BootSessionData) (events : List Event)
    (hpath : path ∈ subjectsOf events)
    (hrec : ∀ p s, recurse p s = Completion.out_of_fuel ∨
      ((∀ a ∈ alertsOf (recurse p s).events, a.path ∈ subjectsOf (recurse p s).events) ∧
        p ∈ subjectsOf (recurse p s).events)) :
    GenerateFromFile.classify env recurse is_drive (path :: rest) extension session events
      = Completion.out_of_fuel ∨
    ∃ tail,
      (GenerateFromFile.classify env recurse is_drive (path :: rest) extension session
        events).events = events ++ tail ∧
      ∀ a ∈ alertsOf tail, a.path ∈ subjectsOf (events ++ tail) := by
  unfold GenerateFromFile.classify
  simp only
  split
  · obtain ⟨tail, h1, h2⟩ := disc_image_extends env is_drive path
      (if rest.isEmpty = true then [] else path :: rest) extension session events
    exact Or.inr ⟨tail, h1, fun a ha => (mem_subjectsOf_append _ _ _).mpr (Or.inr (h2 a ha))⟩
  · split
    · exact Or.inr ⟨[], by simp [Completion.events], by simp [alertsOf]⟩
    · by_cases hwad : extension = ".wad".toList
      · have hjson : extension ≠ ".json".toList := by
          rw [hwad]
          decide
        simp only [if_pos hwad, if_neg hjson]
        cases env.CreateWAD path with
        | some wad =>
          exact Or.inr ⟨[Event.CreateWAD path], rfl, by simp [alertsOf]⟩
        | none =>
          refine Or.inr ⟨[Event.CreateWAD path, Event.alert (Alert.could_not_recognize path)],
            by simp [Completion.events], ?_⟩
          intro a ha
          simp only [alertsOf, List.mem_singleton] at ha
          rw [ha]
          simp [subjectsOf, Event.subject, Alert.path]
      · simp only [if_neg hwad]
        by_cases hjson : extension = ".json".toList
        · simp only [if_pos hjson]
          cases env.ParseGameModDescriptorFile path with
          | none =>
            refine Or.inr ⟨[Event.ParseGameModDescriptorFile path,
                Event.alert (Alert.could_not_recognize path)],
              by simp [Completion.events], ?_⟩
            intro a ha
            simp only [alertsOf, List.mem_singleton] at ha
            rw [ha]
            simp [subjectsOf, Event.subject, Alert.path]
          | some descriptor =>
            simp only
            rcases json_extends env recurse descriptor session
              (events ++ [Event.ParseGameModDescriptorFile path]) hrec with h | ⟨tail, h1, h2⟩
            · exact Or.inl h
            · refine Or.inr ⟨[Event.ParseGameModDescriptorFile path] ++ tail,
                by rw [h1, List.append_assoc], ?_⟩
              intro a ha
              rw [alertsOf_append] at ha
              simp only [alertsOf, List.nil_append] at ha
              rw [mem_subjectsOf_append, mem_subjectsOf_append]
              exact Or.inr (Or.inr (h2 a ha))
        · simp only [if_neg hjson]
          refine Or.inr ⟨[Event.alert (Alert.could_not_recognize path)],
            by simp [Completion.events], ?_⟩
          intro a ha
          simp only [alertsOf, List.mem_singleton] at ha
          rw [ha, mem_subjectsOf_append]
          exact Or.inl hpath

theorem GenerateFromFile_names (env : Env) :
    ∀ (fuel : Nat) (paths : List Str) (session : BootSessionData),
      GenerateFromFile env fuel paths session = Completion.out_of_fuel ∨
      ((∀ a ∈ alertsOf (GenerateFromFile env fuel paths session).events,
          a.path ∈ subjectsOf (GenerateFromFile env fuel paths session).events) ∧
        ∀ front rest, paths = front :: rest →
          front ∈ subjectsOf (GenerateFromFile env fuel paths session).events) := by
  intro fuel
  induction fuel with
  | zero => intro paths session; exact Or.inl rfl
  | succ fuel ih =>
    intro paths session
    cases paths with
    | nil =>
      right
      refine ⟨?_, fun front rest h => by simp at h⟩
      simp [GenerateFromFile, Completion.events, alertsOf]
    | cons front rest =>
      have hrec : ∀ p s,
          (fun p s => GenerateFromFile env fuel [p] s) p s = Completion.out_of_fuel ∨
          ((∀ a ∈ alertsOf ((fun p s => GenerateFromFile env fuel [p] s) p s).events,
              a.path ∈ subjectsOf ((fun p s => GenerateFromFile env fuel [p] s) p s).events) ∧
            p ∈ subjectsOf ((fun p s => GenerateFromFile env fuel [p] s) p s).events) := by
        intro p s
        rcases ih [p] s with h | ⟨h1, h2⟩
        · exact Or.inl h
        · exact Or.inr ⟨h1, h2 p [] rfl⟩
      have hprobe := probeEvents_subject env front
      have hpa := (probeEvents_facts env front).1
      have finish : ∀ (c : Completion) (events : List Event),
          (∀ a ∈ alertsOf events, a.path ∈ subjectsOf events) →
          front ∈ subjectsOf events →
          (c = Completion.out_of_fuel ∨
            ∃ tail, c.events = events ++ tail ∧
              ∀ a ∈ alertsOf tail, a.path ∈ subjectsOf (events ++ tail)) →
          c = Completion.out_of_fuel ∨
            ((∀ a ∈ alertsOf c.events, a.path ∈ subjectsOf c.events) ∧
              ∀ f r, front :: rest = f :: r → f ∈ subjectsOf c.events) := by
        intro c events hnamed hfront hc
        rcases hc with h | ⟨tail, h1, h2⟩
        · exact Or.inl h
        · right
          rw [h1]
          refine ⟨fun a ha => ?_, fun f r hfr => ?_⟩
          · rcases (mem_alertsOf_append a _ _).mp ha with h | h
            · exact (mem_subjectsOf_append _ _ _).mpr (Or.inl (hnamed a h))
            · exact h2 a h
          · injection hfr with hf _
            rw [← hf]
            exact (mem_subjectsOf_append _ _ _).mpr (Or.inl hfront)
      by_cases hreach : env.IsCDROMDevice front = true ∨ env.Exists front = true
      · by_cases hext : isPlaylistExtension (extensionOf env front)
        · rw [GenerateFromFile_playlist env fuel front rest session hreach hext]
          have hnamed : ∀ a ∈ alertsOf (probeEvents env front ++
              (ReadM3UFile env front (env.SplitPath front).1).2),
              a.path ∈ subjectsOf (probeEvents env front ++
                (ReadM3UFile env front (env.SplitPath front).1).2) := by
            intro a ha
            rw [alertsOf_append, hpa, List.nil_append] at ha
            rw [ReadM3UFile_alert_paths env front _ a ha]
            exact (mem_subjectsOf_append _ _ _).mpr (Or.inl hprobe)
          have hfront : front ∈ subjectsOf (probeEvents env front ++
              (ReadM3UFile env front (env.SplitPath front).1).2) :=
            (mem_subjectsOf_append _ _ _).mpr (Or.inl hprobe)
          have hres := ReadM3UFile_result_consulted env front (env.SplitPath front).1
          cases hl : (ReadM3UFile env front (env.SplitPath front).1).1 with
          | nil =>
            right
            simp only [Completion.events]
            exact ⟨hnamed, fun f r hfr => by
              injection hfr with hf _
              rw [← hf]
              exact hfront⟩
          | cons nf nr =>
            simp only
            apply finish _ _ hnamed hfront
            apply classify_extends env _ _ nf nr _ session _ _ hrec
            apply (mem_subjectsOf_append _ _ _).mpr
            right
            apply hres
            rw [hl]
            exact List.mem_cons_self _ _
        · rw [GenerateFromFile_direct env fuel front rest session hreach hext]
          apply finish _ (probeEvents env front) _ hprobe
          · exact classify_extends env _ _ front rest _ session _ hprobe hrec
          · intro a ha
            rw [hpa] at ha
            simp at ha
      · have hd : env.IsCDROMDevice front = false := by
          cases h : env.IsCDROMDevice front
          · rfl
          · exact absurd (Or.inl h) hreach
        have hx : env.Exists front = false := by
          cases h : env.Exists front
          · rfl
          · exact absurd (Or.inr h) hreach
        rw [GenerateFromFile_not_found env fuel front rest session hd hx]
        right
        refine ⟨?_, fun f r hfr => ?_⟩
        · simp [Completion.events, alertsOf, subjectsOf, Event.subject, Alert.path]
        · injection hfr with hf _
          rw [← hf]
          simp [Completion.events, subjectsOf, Event.subject]

theorem classify_failed (env : Env) (recurse : Str → BootSessionData → Completion)
    (is_drive : Bool) (path : Str) (rest : List Str) (extension : Str)
    (session : BootSessionData) (events ev : List Event)
    (hev : alertsOf events = [])
    (h : GenerateFromFile.classify env recurse is_drive (path :: rest) extension session events
      = Completion.returned none ev) :
    ((extension ∈ disc_image_extensions ∨ is_drive = true) ∧ env.CreateDisc path = none ∧
      extension ≠ ".elf".toList ∧ extension ≠ ".dol".toList ∧
      alertsOf ev = [if is_drive = true then Alert.no_disc_in_drive path
                     else Alert.invalid_gcm_iso path]) ∨
    (¬ (extension ∈ disc_image_extensions ∨ is_drive = true) ∧
      extension ≠ ".dff".toList ∧
      (extension = ".wad".toList → env.CreateWAD path = none) ∧
      (extension = ".json".toList → env.ParseGameModDescriptorFile path = none) ∧
      alertsOf ev = [Alert.could_not_recognize path]) ∨
    (¬ (extension ∈ disc_image_extensions ∨ is_drive = true) ∧
      extension = ".json".toList ∧
      ∃ descriptor inner,
        env.ParseGameModDescriptorFile path = some descriptor ∧
        recurse descriptor.base_file session = Completion.returned none inner ∧
        alertsOf ev = alertsOf inner ++ [Alert.could_not_recognize descriptor.base_file]) := by
  unfold GenerateFromFile.classify at h
  simp only at h
  by_cases hfam : extension ∈ disc_image_extensions ∨ is_drive = true
  · rw [if_pos hfam] at h
    left
    unfold GenerateFromFile.disc_image at h
    simp only at h
    cases hc : env.CreateDisc path with
    | some disc => rw [hc] at h; simp at h
    | none =>
      rw [hc] at h
      simp only at h
      by_cases he1 : extension = ".elf".toList
      · rw [if_pos he1] at h; simp at h
      · rw [if_neg he1] at h
        by_cases he2 : extension = ".dol".toList
        · rw [if_pos he2] at h; simp at h
        · rw [if_neg he2] at h
          refine ⟨hfam, rfl, he1, he2, ?_⟩
          by_cases hd : is_drive = true
          · rw [if_pos hd] at h
            injection h with _ h
            rw [← h, if_pos hd]
            simp [alertsOf_append, hev, alertsOf]
          · rw [if_neg hd] at h
            injection h with _ h
            rw [← h, if_neg hd]
            simp [alertsOf_append, hev, alertsOf]
  · rw [if_neg hfam] at h
    right
    by_cases hdff : extension = ".dff".toList
    · rw [if_pos hdff] at h; simp at h
    · rw [if_neg hdff] at h
      by_cases hwad : extension = ".wad".toList
      · have hjson : extension ≠ ".json".toList := by
          rw [hwad]
          decide
        simp only [if_pos hwad, if_neg hjson] at h
        cases hc : env.CreateWAD path with
        | some wad => rw [hc] at h; simp at h
        | none =>
          rw [hc] at h
          simp only at h
          injection h with _ h
          refine Or.inl ⟨hfam, hdff, fun _ => rfl, fun hj => absurd hj hjson, ?_⟩
          rw [← h]
          simp [alertsOf_append, hev, alertsOf]
      · simp only [if_neg hwad] at h
        by_cases hjson : extension = ".json".toList
        · simp only [if_pos hjson] at h
          cases hp : env.ParseGameModDescriptorFile path with
          | none =>
            rw [hp] at h
            simp only at h
            injection h with _ h
            refine Or.inl ⟨hfam, hdff, fun hw => absurd hw hwad, fun _ => rfl, ?_⟩
            rw [← h]
            simp [alertsOf_append, hev, alertsOf]
          | some descriptor =>
            rw [hp] at h
            simp only at h
            unfold GenerateFromFile.json at h
            cases hr : recurse descriptor.base_file session with
            | out_of_fuel => rw [hr] at h; simp at h
            | undefined ev0 => rw [hr] at h; simp at h
            | returned boot inner =>
              rw [hr] at h
              cases boot with
              | none =>
                simp only at h
                injection h with _ h
                refine Or.inr ⟨hfam, hjson, descriptor, inner, rfl, hr, ?_⟩
                rw [← h]
                simp [alertsOf_append, hev, alertsOf]
              | some boot_params =>
                simp only at h
                split at h
                · split at h <;> simp at h
                · simp at h
        · simp only [if_neg hjson] at h
          injection h with _ h
          refine Or.inl ⟨hfam, hdff, fun hw => absurd hw hwad, fun hj => absurd hj hjson, ?_⟩
          rw [← h]
          simp [alertsOf_append, hev, alertsOf]

theorem classify_quiet (env : Env) (recurse : Str → BootSessionData → Completion)
    (is_drive : Bool) (paths : List Str) (extension : Str)
    (session : BootSessionData) (events : List Event)
    (hev : alertsOf events = [])
    (hrec : ∀ p s, (recurse p s).failed = false → alertsOf (recurse p s).events = [])
    (h : (GenerateFromFile.classify env recurse is_drive paths extension session
      events).failed = false) :
    alertsOf (GenerateFromFile.classify env recurse is_drive paths extension session
      events).events = [] := by
  unfold GenerateFromFile.classify at h ⊢
  cases paths with
  | nil => exact hev
  | cons path rest =>
    simp only at h ⊢
    split
    · rename_i hfam
      rw [if_pos hfam] at h
      unfold GenerateFromFile.disc_image at h ⊢
      simp only at h ⊢
      cases hc : env.CreateDisc path with
      | some disc => simp [Completion.events, alertsOf_append, hev, alertsOf]
      | none =>
        rw [hc] at h
        simp only at h ⊢
        split
        · simp [Completion.events, alertsOf_append, hev, alertsOf]
        · rename_i he1
          rw [if_neg he1] at h
          split
          · simp [Completion.events, alertsOf_append, hev, alertsOf]
          · rename_i he2
            rw [if_neg he2] at h
            split at h <;> simp [Completion.failed] at h
    · rename_i hfam
      rw [if_neg hfam] at h
      split
      · exact hev
      · rename_i hdff
        rw [if_neg hdff] at h
        by_cases hwad : extension = ".wad".toList
        · have hjson : extension ≠ ".json".toList := by
            rw [hwad]
            decide
          simp only [if_pos hwad, if_neg hjson] at h ⊢
          cases hc : env.CreateWAD path with
          | some wad => simp [Completion.events, alertsOf_append, hev, alertsOf]
          | none =>
            rw [hc] at h
            simp [Completion.failed] at h
        · simp only [if_neg hwad] at h ⊢
          by_cases hjson : extension = ".json".toList
          · simp only [if_pos hjson] at h ⊢
            cases hp : env.ParseGameModDescriptorFile path with
            | none =>
              rw [hp] at h
              simp [Completion.failed] at h
            | some descriptor =>
              rw [hp] at h
              simp only at h ⊢
              unfold GenerateFromFile.json at h ⊢
              have hq := hrec descriptor.base_file session
              cases hr : recurse descriptor.base_file session with
              | out_of_fuel => rfl
              | undefined ev0 =>
                rw [hr] at hq
                have hq' := hq rfl
                simp only [Completion.events] at hq'
                simp [Completion.events, alertsOf_append, hev, alertsOf, hq']
              | returned boot inner =>
                rw [hr] at hq h
                cases boot with
                | none => simp [Completion.failed] at h
                | some boot_params =>
                  have hq' := hq rfl
                  simp only [Completion.events] at hq'
                  simp only
                  split
                  · split
                    · simp [Completion.events, alertsOf_append, hev, alertsOf, hq']
                    · simp [Completion.events, alertsOf_append, hev, alertsOf, hq',
                        AddRiivolutionPatches_no_alerts]
                  · simp [Completion.events, alertsOf_append, hev, alertsOf, hq']
          · simp only [if_neg hjson] at h
            simp [Completion.failed] at h

theorem ReadM3UFile_cases (env : Env) (m3u_path folder_path : Str) :
    ((ReadM3UFile env m3u_path folder_path).1 = [] ∧
      (resolvedEntries env m3u_path folder_path).filter (fun p => !env.Exists p) ≠ [] ∧
      alertsOf (ReadM3UFile env m3u_path folder_path).2 =
        [Alert.m3u_files_not_found m3u_path
          (JoinStrings ((resolvedEntries env m3u_path folder_path).filter
            (fun p => !env.Exists p)) ['\n'])]) ∨
    ((ReadM3UFile env m3u_path folder_path).1 = [] ∧
      (resolvedEntries env m3u_path folder_path).filter (fun p => !env.Exists p) = [] ∧
      (resolvedEntries env m3u_path folder_path).filter env.Exists = [] ∧
      alertsOf (ReadM3UFile env m3u_path folder_path).2 = [Alert.m3u_no_paths m3u_path]) ∨
    ((ReadM3UFile env m3u_path folder_path).1
        = (resolvedEntries env m3u_path folder_path).filter env.Exists ∧
      (resolvedEntries env m3u_path folder_path).filter (fun p => !env.Exists p) = [] ∧
      (resolvedEntries env m3u_path folder_path).filter env.Exists ≠ [] ∧
      alertsOf (ReadM3UFile env m3u_path folder_path).2 = []) := by
  obtain ⟨scan, hs, _, _, heq⟩ := ReadM3UFile_eq env m3u_path folder_path
  rw [heq]
  by_cases hm : (resolvedEntries env m3u_path folder_path).filter (fun p => !env.Exists p) ≠ []
  · left
    rw [if_pos hm]
    exact ⟨rfl, hm, by simp [alertsOf_append, hs, alertsOf]⟩
  · right
    have hm' : (resolvedEntries env m3u_path folder_path).filter (fun p => !env.Exists p) = [] :=
      not_not.mp hm
    rw [if_neg hm]
    by_cases he : (resolvedEntries env m3u_path folder_path).filter env.Exists = []
    · left
      rw [if_pos he]
      exact ⟨rfl, hm', he, by simp [alertsOf_append, hs, alertsOf]⟩
    · right
      rw [if_neg he]
      exact ⟨rfl, hm', he, hs⟩

theorem GenerateFromFile_quiet (env : Env) :
    ∀ (fuel : Nat) (paths : List Str) (session : BootSessionData),
      (GenerateFromFile env fuel paths session).failed = false →
      alertsOf (GenerateFromFile env fuel paths session).events = [] := by
  intro fuel
  induction fuel with
  | zero => intro paths session _; rfl
  | succ fuel ih =>
    intro paths session h
    have hrec : ∀ p s, ((fun p s => GenerateFromFile env fuel [p] s) p s).failed = false →
        alertsOf ((fun p s => GenerateFromFile env fuel [p] s) p s).events = [] :=
      fun p s => ih [p] s
    cases paths with
    | nil => rfl
    | cons front rest =>
      have hpa := (probeEvents_facts env front).1
      by_cases hreach : env.IsCDROMDevice front = true ∨ env.Exists front = true
      · by_cases hext : isPlaylistExtension (extensionOf env front)
        · rw [GenerateFromFile_playlist env fuel front rest session hreach hext] at h ⊢
          rcases ReadM3UFile_cases env front (env.SplitPath front).1 with
            ⟨h1, _, _⟩ | ⟨h1, _, _, _⟩ | ⟨h1, _, h3, h4⟩
          · rw [h1] at h
            simp [Completion.failed] at h
          · rw [h1] at h
            simp [Completion.failed] at h
          · cases hl : (ReadM3UFile env front (env.SplitPath front).1).1 with
            | nil => rw [hl] at h; simp [Completion.failed] at h
            | cons nf nr =>
              rw [hl] at h
              simp only at h ⊢
              exact classify_quiet env _ _ _ _ session _
                (by rw [alertsOf_append, hpa, h4]; rfl) hrec h
        · rw [GenerateFromFile_direct env fuel front rest session hreach hext] at h ⊢
          exact classify_quiet env _ _ _ _ session _ hpa hrec h
      · have hd : env.IsCDROMDevice front = false := by
          cases h : env.IsCDROMDevice front
          · rfl
          · exact absurd (Or.inl h) hreach
        have hx : env.Exists front = false := by
          cases h : env.Exists front
          · rfl
          · exact absurd (Or.inr h) hreach
        rw [GenerateFromFile_not_found env fuel front rest session hd hx] at h
        simp [Completion.failed] at h

theorem GenerateFromFile_failed (env : Env) (fuel : Nat) (front : Str) (rest : List Str)
    (session : BootSessionData) (ev : List Event)
    (h : GenerateFromFile env (fuel + 1) (front :: rest) session = Completion.returned none ev) :
    (env.IsCDROMDevice front = false ∧ env.Exists front = false ∧
      alertsOf ev = [Alert.file_does_not_exist front]) ∨
    ((env.IsCDROMDevice front = true ∨ env.Exists front = true) ∧
      isPlaylistExtension (extensionOf env front) ∧
      (resolvedEntries env front (env.SplitPath front).1).filter (fun p => !env.Exists p) ≠ [] ∧
      alertsOf ev = [Alert.m3u_files_not_found front
        (JoinStrings ((resolvedEntries env front (env.SplitPath front).1).filter
          (fun p => !env.Exists p)) ['\n'])]) ∨
    ((env.IsCDROMDevice front = true ∨ env.Exists front = true) ∧
      isPlaylistExtension (extensionOf env front) ∧
      (resolvedEntries env front (env.SplitPath front).1).filter (fun p => !env.Exists p) = [] ∧
      (resolvedEntries env front (env.SplitPath front).1).filter env.Exists = [] ∧
      alertsOf ev = [Alert.m3u_no_paths front]) ∨
    (∃ p,
      (env.IsCDROMDevice front = true ∨ env.Exists front = true) ∧
      ((¬ isPlaylistExtension (extensionOf env front) ∧ p = front) ∨
       (isPlaylistExtension (extensionOf env front) ∧
        (resolvedEntries env front (env.SplitPath front).1).filter
          (fun p => !env.Exists p) = [] ∧
        ((resolvedEntries env front (env.SplitPath front).1).filter env.Exists).head?
          = some p)) ∧
      (((extensionOf env p ∈ disc_image_extensions ∨ env.IsCDROMDevice front = true) ∧
          env.CreateDisc p = none ∧
          extensionOf env p ≠ ".elf".toList ∧ extensionOf env p ≠ ".dol".toList ∧
          alertsOf ev = [if env.IsCDROMDevice front = true then Alert.no_disc_in_drive p
                         else Alert.invalid_gcm_iso p]) ∨
        (¬ (extensionOf env p ∈ disc_image_extensions ∨ env.IsCDROMDevice front = true) ∧
          extensionOf env p ≠ ".dff".toList ∧
          (extensionOf env p = ".wad".toList → env.CreateWAD p = none) ∧
          (extensionOf env p = ".json".toList → env.ParseGameModDescriptorFile p = none) ∧
          alertsOf ev = [Alert.could_not_recognize p]) ∨
        (¬ (extensionOf env p ∈ disc_image_extensions ∨ env.IsCDROMDevice front = true) ∧
          extensionOf env p = ".json".toList ∧
          ∃ descriptor inner,
            env.ParseGameModDescriptorFile p = some descriptor ∧
            GenerateFromFile env fuel [descriptor.base_file] session
              = Completion.returned none inner ∧
            alertsOf ev
              = alertsOf inner ++ [Alert.could_not_recognize descriptor.base_file]))) := by
  have hpa := (probeEvents_facts env front).1
  by_cases hreach : env.IsCDROMDevice front = true ∨ env.Exists front = true
  · right
    by_cases hext : isPlaylistExtension (extensionOf env front)
    · rw [GenerateFromFile_playlist env fuel front rest session hreach hext] at h
      rcases ReadM3UFile_cases env front (env.SplitPath front).1 with
        ⟨h1, h2, h3⟩ | ⟨h1, h2, h3, h4⟩ | ⟨h1, h2, h3, h4⟩
      · left
        rw [h1] at h
        simp only at h
        injection h with _ h
        refine ⟨hreach, hext, h2, ?_⟩
        rw [← h, alertsOf_append, hpa, h3]
        rfl
      · right; left
        rw [h1] at h
        simp only at h
        injection h with _ h
        refine ⟨hreach, hext, h2, h3, ?_⟩
        rw [← h, alertsOf_append, hpa, h4]
        rfl
      · right; right
        cases hl : (ReadM3UFile env front (env.SplitPath front).1).1 with
        | nil =>
          rw [hl] at h1
          exact absurd h1.symm h3
        | cons nf nr =>
          rw [hl] at h h1
          simp only at h
          refine ⟨nf, hreach, Or.inr ⟨hext, h2, by rw [← h1]; rfl⟩, ?_⟩
          exact classify_failed env _ _ nf nr _ session _ ev
            (by rw [alertsOf_append, hpa, h4]; rfl) h
    · right; right
      rw [GenerateFromFile_direct env fuel front rest session hreach hext] at h
      exact ⟨front, hreach, Or.inl ⟨hext, rfl⟩,
        classify_failed env _ _ front rest _ session _ ev hpa h⟩
  · left
    have hd : env.IsCDROMDevice front = false := by
      cases h : env.IsCDROMDevice front
      · rfl
      · exact absurd (Or.inl h) hreach
    have hx : env.Exists front = false := by
      cases h : env.Exists front
      · rfl
      · exact absurd (Or.inr h) hreach
    rw [GenerateFromFile_not_found env fuel front rest session hd hx] at h
    injection h with _ h
    refine ⟨hd, hx, ?_⟩
    rw [← h]
    rfl

theorem BootTitle_failed_alerts (env : BootEnv) (patches : List Patch)
    (parameters : Parameters) (events : List BootEvent)
    (h : BootTitle env patches parameters = BootResult.returned false events) :
    ∀ a ∈ bootAlertsOf events,
      a ∈ [BootAlert.failed_to_load_executable, BootAlert.game_needs_gc_ipl,
           BootAlert.cannot_find_gc_ipl] := by
  obtain ⟨_, _, d3, _, _⟩ := SetDefaultDisc_facts env
  cases parameters with
  | Disc disc =>
    simp only [BootTitle, BootTitle.Disc, SetDisc] at h
    cases hv : disc.volume with
    | none =>
      rw [hv] at h
      injection h with _ h
      rw [← h]
      simp [bootAlertsOf]
    | some volume =>
      rw [hv] at h
      simp only at h
      split at h
      · injection h with _ h
        rw [← h]
        simp [bootAlertsOf]
      · simp at h
  | Executable path reader =>
    simp only [BootTitle, BootTitle.Executable] at h
    split at h
    · injection h with _ h
      rw [← h]
      simp [bootAlertsOf]
    · split at h
      · injection h with _ h
        rw [← h]
        simp [bootAlertsOf]
      · simp at h
  | WAD wad =>
    simp only [BootTitle, BootTitle.WAD] at h
    split at h
    · injection h with _ h
      rw [← h, bootAlertsOf_append, d3]
      simp [bootAlertsOf]
    · simp at h
  | NANDTitle id =>
    simp only [BootTitle, BootTitle.NANDTitle] at h
    split at h
    · injection h with _ h
      rw [← h, bootAlertsOf_append, d3]
      simp [bootAlertsOf]
    · simp at h
  | IPL path region disc =>
    simp only [BootTitle, BootTitle.IPL] at h
    split at h
    · split at h <;>
        (injection h with _ h
         rw [← h]
         simp [bootAlertsOf])
    · cases hl : Load_BS2 env path with
      | out_of_range ev => rw [hl] at h; simp at h
      | returned value ev =>
        rw [hl] at h
        cases value with
        | false =>
          simp only at h
          injection h with _ h
          rw [← h, Load_BS2_returned_false env path ev hl]
          simp [bootAlertsOf]
        | true => simp at h
  | DFF dff_path =>
    simp only [BootTitle, BootTitle.DFF] at h
    injection h with _ h
    rw [← h]
    simp [bootAlertsOf]

/-- C21, refuted as stated: with the load of the executable `/g/x.elf`
failing, `BootUp` returns false after the one alert "Failed to load the
executable to memory.", and with the ROM `/ipl/ok.bin` missing after the one
alert "Cannot start the game, because the GC IPL could not be found.";
neither alert is formatted with any string, so neither includes the path. -/
theorem C21_alerts_without_path_counterexample :
    (∃ events,
      BootUp { sampleWiiEnv with LoadIntoMemory := fun _ => false } sampleExecutable
        = BootResult.returned false events ∧
      bootAlertsOf events = [BootAlert.failed_to_load_executable]) ∧
    "/g/x.elf".toList ∉ BootAlert.failed_to_load_executable.stringArguments ∧
    (∃ events,
      BootUp { sampleBootEnv with Exists := fun _ => false } sampleIplBoot
        = BootResult.returned false events ∧
      bootAlertsOf events = [BootAlert.game_needs_gc_ipl]) ∧
    "/ipl/ok.bin".toList ∉ BootAlert.game_needs_gc_ipl.stringArguments :=
  ⟨⟨_, rfl, by decide⟩, by decide, ⟨_, rfl, by decide⟩, by decide⟩

/-- C21, amended. The classification (`GenerateFromFile` with `ReadM3UFile`)
raises alerts only when it returns the null pointer, and then each alert
names the path that is at fault. A leading path that is missing gives one
alert naming it. A playlist with missing entries gives one alert naming the
playlist and listing the missing entries; a playlist without entries gives one
alert naming the playlist. Otherwise the path classified by its extension is
the leading path or, for a playlist, the first of its entries: when it does
not open as a disc the one alert names it; when its extension is not
recognized, or it is a package or a mod descriptor that cannot be read, the
one alert names it; and when it is a mod descriptor whose base file cannot be
classified, the alerts are those of the classification of the base file
followed by one that names the base file. Every path named was consulted or
opened by the call. The alerts raised by a bring-up that fails are only
"Failed to load the executable to memory.", "Cannot start the game, because
the GC IPL could not be found." and "Cannot find the GC IPL.", and none of
them is formatted with a path or any other string. -/
theorem C21_alert_paths (env : Env) (benv : BootEnv) :
    (∀ (fuel : Nat) (paths : List Str) (session : BootSessionData),
      (GenerateFromFile env fuel paths session).failed = false →
      alertsOf (GenerateFromFile env fuel paths session).events = []) ∧
    (∀ (fuel : Nat) (front : Str) (rest : List Str) (session : BootSessionData)
      (ev : List Event),
      GenerateFromFile env (fuel + 1) (front :: rest) session = Completion.returned none ev →
      (env.IsCDROMDevice front = false ∧ env.Exists front = false ∧
        alertsOf ev = [Alert.file_does_not_exist front]) ∨
      ((env.IsCDROMDevice front = true ∨ env.Exists front = true) ∧
        isPlaylistExtension (extensionOf env front) ∧
        (resolvedEntries env front (env.SplitPath front).1).filter
          (fun p => !env.Exists p) ≠ [] ∧
        alertsOf ev = [Alert.m3u_files_not_found front
          (JoinStrings ((resolvedEntries env front (env.SplitPath front).1).filter
            (fun p => !env.Exists p)) ['\n'])]) ∨
      ((env.IsCDROMDevice front = true ∨ env.Exists front = true) ∧
        isPlaylistExtension (extensionOf env front) ∧
        (resolvedEntries env front (env.SplitPath front).1).filter
          (fun p => !env.Exists p) = [] ∧
        (resolvedEntries env front (env.SplitPath front).1).filter env.Exists = [] ∧
        alertsOf ev = [Alert.m3u_no_paths front]) ∨
      (∃ p,
        (env.IsCDROMDevice front = true ∨ env.Exists front = true) ∧
        ((¬ isPlaylistExtension (extensionOf env front) ∧ p = front) ∨
         (isPlaylistExtension (extensionOf env front) ∧
          (resolvedEntries env front (env.SplitPath front).1).filter
            (fun p => !env.Exists p) = [] ∧
          ((resolvedEntries env front (env.SplitPath front).1).filter env.Exists).head?
            = some p)) ∧
        (((extensionOf env p ∈ disc_image_extensions ∨ env.IsCDROMDevice front = true) ∧
            env.CreateDisc p = none ∧
            extensionOf env p ≠ ".elf".toList ∧ extensionOf env p ≠ ".dol".toList ∧
            alertsOf ev = [if env.IsCDROMDevice front = true then Alert.no_disc_in_drive p
                           else Alert.invalid_gcm_iso p]) ∨
          (¬ (extensionOf env p ∈ disc_image_extensions ∨ env.IsCDROMDevice front = true) ∧
            extensionOf env p ≠ ".dff".toList ∧
            (extensionOf env p = ".wad".toList → env.CreateWAD p = none) ∧
            (extensionOf env p = ".json".toList → env.ParseGameModDescriptorFile p = none) ∧
            alertsOf ev = [Alert.could_not_recognize p]) ∨
          (¬ (extensionOf env p ∈ disc_image_extensions ∨ env.IsCDROMDevice front = true) ∧
            extensionOf env p = ".json".toList ∧
            ∃ descriptor inner,
              env.ParseGameModDescriptorFile p = some descriptor ∧
              GenerateFromFile env fuel [descriptor.base_file] session
                = Completion.returned none inner ∧
              alertsOf ev
                = alertsOf inner ++ [Alert.could_not_recognize descriptor.base_file])))) ∧
    (∀ (fuel : Nat) (paths : List Str) (session : BootSessionData),
      ∀ a ∈ alertsOf (GenerateFromFile env fuel paths session).events,
        a.path ∈ subjectsOf (GenerateFromFile env fuel paths session).events) ∧
    (∀ (boot : BootParameters) (events : List BootEvent),
      BootUp benv boot = BootResult.returned false events →
      ∀ a ∈ bootAlertsOf events,
        a ∈ [BootAlert.failed_to_load_executable, BootAlert.game_needs_gc_ipl,
             BootAlert.cannot_find_gc_ipl] ∧
        a.stringArguments = []) := by
  refine ⟨GenerateFromFile_quiet env, GenerateFromFile_failed env,
    fun fuel paths session a ha => ?_, fun boot events h a ha => ?_⟩
  · rcases GenerateFromFile_names env fuel paths session with hf | ⟨hn, _⟩
    · rw [hf] at ha
      simp [Completion.events, alertsOf] at ha
    · exact hn a ha
  · obtain ⟨ev, ht, he⟩ := BootUp_failed benv boot events h
    rw [he, bootAlertsOf_append, (preamble_facts benv).2.2.2.1, List.nil_append] at ha
    have hm := BootTitle_failed_alerts benv boot.riivolution_patches boot.parameters ev ht a ha
    refine ⟨hm, ?_⟩
    simp only [List.mem_cons, List.mem_singleton, List.not_mem_nil, or_false] at hm
    rcases hm with rfl | rfl | rfl <;> rfl

/-! ## Facts about the step of each variant -/

theorem generalPatchCalls_append (xs ys : List BootEvent) :
    generalPatchCalls (xs ++ ys) = generalPatchCalls xs ++ generalPatchCalls ys := by
  induction xs with
  | nil => rfl
  | cons e xs ih => cases e <;> simp [generalPatchCalls, ih]

theorem presetCalls_append (xs ys : List BootEvent) :
    presetCalls (xs ++ ys) = presetCalls xs ++ presetCalls ys := by
  induction xs with
  | nil => rfl
  | cons e xs ih => cases e <;> simp [presetCalls, ih]

theorem inStep_no_calls (events : List BootEvent)
    (h : events.all BootEvent.inStep = true) :
    generalPatchCalls events = [] ∧ presetCalls events = [] := by
  induction events with
  | nil => exact ⟨rfl, rfl⟩
  | cons e es ih =>
    simp only [List.all_cons, Bool.and_eq_true] at h
    obtain ⟨h1, h2⟩ := ih h.2
    cases e <;> first
      | exact ⟨h1, h2⟩
      | exact absurd h.1 (by simp [BootEvent.inStep])

theorem SetDefaultDisc_inStep (env : BootEnv) :
    (SetDefaultDisc env).all BootEvent.inStep = true := by
  unfold SetDefaultDisc SetDisc
  simp only
  split <;> rfl

theorem warnings_inStep (env : BootEnv) (ipl_hash : Nat) :
    (Load_BS2.warnings env ipl_hash).all BootEvent.inStep = true := by
  unfold Load_BS2.warnings
  simp only
  split <;> split <;> rfl

theorem warnings_newTitleLoads (env : BootEnv) (ipl_hash : Nat) :
    newTitleLoads (Load_BS2.warnings env ipl_hash) = 0 := by
  unfold Load_BS2.warnings
  simp only
  split <;> split <;> rfl

theorem Load_BS2_step (env : BootEnv) (path : Str) :
    (Load_BS2 env path).events.all BootEvent.inStep = true ∧
    newTitleLoads (Load_BS2 env path).events = 0 := by
  have hw := warnings_inStep env
  have hn := warnings_newTitleLoads env
  unfold Load_BS2
  cases env.ReadFileToString path with
  | none => exact ⟨rfl, rfl⟩
  | some data =>
    simp only
    split
    · simp only [BootResult.events, List.all_append, newTitleLoads_append, hw, hn]
      exact ⟨rfl, rfl⟩
    · split
      · simp only [BootResult.events, List.all_append, newTitleLoads_append, hw, hn]
        exact ⟨rfl, rfl⟩
      · simp only [BootResult.events, List.all_append, newTitleLoads_append, hw, hn]
        exact ⟨rfl, rfl⟩

theorem BootTitle_step (env : BootEnv) (patches : List Patch) (parameters : Parameters) :
    (BootTitle env patches parameters).events.all BootEvent.inStep = true ∧
    newTitleLoads (BootTitle env patches parameters).events =
      (if (BootTitle env patches parameters).succeeded = true ∧
          parameters.variant ≠ Variant.DFF then 1 else 0) := by
  have hs := SetDefaultDisc_inStep env
  obtain ⟨_, _, _, hsn, _⟩ := SetDefaultDisc_facts env
  have hc : CopyDefaultExceptionHandlers.all BootEvent.inStep = true := by decide
  have hcn : newTitleLoads CopyDefaultExceptionHandlers = 0 := by decide
  cases parameters with
  | Disc disc =>
    simp only [BootTitle, BootTitle.Disc, SetDisc]
    cases disc.volume with
    | none => simp [BootResult.events, BootResult.succeeded, BootEvent.inStep, newTitleLoads]
    | some volume =>
      simp only
      split <;>
        simp [BootResult.events, BootResult.succeeded, BootEvent.inStep, newTitleLoads, Parameters.variant]
  | Executable path reader =>
    simp only [BootTitle, BootTitle.Executable]
    split
    · simp [BootResult.events, BootResult.succeeded, BootEvent.inStep, newTitleLoads]
    · split
      · simp [BootResult.events, BootResult.succeeded, BootEvent.inStep, newTitleLoads]
      · split <;> split <;>
          simp [BootResult.events, BootResult.succeeded, BootEvent.inStep, newTitleLoads, newTitleLoads_append,
            hs, hsn, hc, hcn, Parameters.variant]
  | WAD wad =>
    simp only [BootTitle, BootTitle.WAD]
    split <;>
      simp [BootResult.events, BootResult.succeeded, BootEvent.inStep, newTitleLoads, newTitleLoads_append,
        hs, hsn, Parameters.variant]
  | NANDTitle id =>
    simp only [BootTitle, BootTitle.NANDTitle]
    split <;>
      simp [BootResult.events, BootResult.succeeded, BootEvent.inStep, newTitleLoads, newTitleLoads_append,
        hs, hsn, Parameters.variant]
  | IPL path region disc =>
    obtain ⟨hl, hln⟩ := Load_BS2_step env path
    simp only [BootTitle, BootTitle.IPL, SetDisc]
    split
    · split <;> simp [BootResult.events, BootResult.succeeded, BootEvent.inStep, newTitleLoads]
    · cases hr : Load_BS2 env path with
      | out_of_range ev =>
        rw [hr] at hl hln
        simp only [BootResult.events] at hl hln
        simp [BootResult.events, BootResult.succeeded, BootEvent.inStep, newTitleLoads, hl, hln]
      | returned value ev =>
        rw [hr] at hl hln
        simp only [BootResult.events] at hl hln
        cases value with
        | false => simp [BootResult.events, BootResult.succeeded, BootEvent.inStep, newTitleLoads, hl, hln]
        | true =>
          cases disc with
          | none =>
            simp [BootResult.events, BootResult.succeeded, BootEvent.inStep, newTitleLoads, newTitleLoads_append,
              hl, hln, Parameters.variant]
          | some d =>
            simp [BootResult.events, BootResult.succeeded, BootEvent.inStep, newTitleLoads, newTitleLoads_append,
              hl, hln, Parameters.variant]
  | DFF dff_path =>
    simp [BootTitle, BootTitle.DFF, BootResult.events, BootResult.succeeded, BootEvent.inStep, newTitleLoads,
      Parameters.variant]

/-! ## Which descriptors carry patches -/

theorem AddRiivolutionPatches_stays_disc (env : Env) (boot_params : BootParameters)
    (patches : List Patch) (disc : Disc) (h : boot_params.parameters = Parameters.Disc disc) :
    ∃ d, (AddRiivolutionPatches env boot_params patches).1.parameters = Parameters.Disc d := by
  unfold AddRiivolutionPatches
  split
  · exact ⟨disc, h⟩
  · rw [h]
    exact ⟨_, rfl⟩

theorem disc_image_no_patches (env : Env) (is_drive : Bool) (path : Str) (paths : List Str)
    (extension : Str) (session : BootSessionData) (events : List Event)
    (boot : BootParameters) (ev : List Event)
    (h : GenerateFromFile.disc_image env is_drive path paths extension session events
      = Completion.returned (some boot) ev) :
    boot.riivolution_patches = [] := by
  unfold GenerateFromFile.disc_image at h
  simp only at h
  cases hc : env.CreateDisc path with
  | some disc =>
    rw [hc] at h
    injection h with h _
    injection h with h
    rw [← h]
  | none =>
    rw [hc] at h
    simp only at h
    split at h
    · injection h with h _
      injection h with h
      rw [← h]
    · split at h
      · injection h with h _
        injection h with h
        rw [← h]
      · split at h <;> simp at h

theorem json_patches_on_disc (env : Env) (recurse : Str → BootSessionData → Completion)
    (descriptor : GameModDescriptor) (session : BootSessionData) (events : List Event)
    (hrec : ∀ p s boot ev, recurse p s = Completion.returned (some boot) ev →
      boot.riivolution_patches = [] ∨ ∃ d, boot.parameters = Parameters.Disc d)
    (boot : BootParameters) (ev : List Event)
    (h : GenerateFromFile.json env recurse descriptor session events
      = Completion.returned (some boot) ev) :
    boot.riivolution_patches = [] ∨ ∃ d, boot.parameters = Parameters.Disc d := by
  unfold GenerateFromFile.json at h
  cases hr : recurse descriptor.base_file session with
  | out_of_fuel => rw [hr] at h; simp at h
  | undefined ev0 => rw [hr] at h; simp at h
  | returned inner ev0 =>
    rw [hr] at h
    cases inner with
    | none => simp at h
    | some boot_params =>
      have hinv := hrec _ _ _ _ hr
      simp only at h
      split at h
      · rename_i riivolution disc _ hd
        cases hv : disc.volume with
        | none => rw [hv] at h; simp at h
        | some volume =>
          rw [hv] at h
          simp only at h
          injection h with h _
          injection h with h
          rw [← h]
          exact Or.inr (AddRiivolutionPatches_stays_disc env boot_params _ disc hd)
      · injection h with h _
        injection h with h
        rw [← h]
        exact hinv

theorem classify_patches_on_disc (env : Env) (recurse : Str → BootSessionData → Completion)
    (is_drive : Bool) (paths : List Str) (extension : Str)
    (session : BootSessionData) (events : List Event)
    (hrec : ∀ p s boot ev, recurse p s = Completion.returned (some boot) ev →
      boot.riivolution_patches = [] ∨ ∃ d, boot.parameters = Parameters.Disc d)
    (boot : BootParameters) (ev : List Event)
    (h : GenerateFromFile.classify env recurse is_drive paths extension session events
      = Completion.returned (some boot) ev) :
    boot.riivolution_patches = [] ∨ ∃ d, boot.parameters = Parameters.Disc d := by
  unfold GenerateFromFile.classify at h
  cases paths with
  | nil => simp at h
  | cons path rest =>
    simp only at h
    split at h
    · exact Or.inl (disc_image_no_patches env _ _ _ _ _ _ _ _ h)
    · split at h
      · injection h with h _
        injection h with h
        rw [← h]
        exact Or.inl rfl
      · split at h
        · injection h with h _
          injection h with h
          rw [← h]
          exact Or.inl rfl
        · split at h
          · exact json_patches_on_disc env recurse _ _ _ hrec _ _ h
          · simp at h

theorem GenerateFromFile_patches_on_disc (env : Env) :
    ∀ (fuel : Nat) (paths : List Str) (session : BootSessionData) (boot : BootParameters)
      (ev : List Event),
      GenerateFromFile env fuel paths session = Completion.returned (some boot) ev →
      boot.riivolution_patches = [] ∨ ∃ d, boot.parameters = Parameters.Disc d := by
  intro fuel
  induction fuel with
  | zero => intro paths session boot ev h; simp [GenerateFromFile] at h
  | succ fuel ih =>
    intro paths session boot ev h
    have hrec : ∀ p s boot ev,
        (fun p s => GenerateFromFile env fuel [p] s) p s = Completion.returned (some boot) ev →
        boot.riivolution_patches = [] ∨ ∃ d, boot.parameters = Parameters.Disc d :=
      fun p s boot ev h => ih [p] s boot ev h
    cases paths with
    | nil => simp [GenerateFromFile] at h
    | cons front rest =>
      by_cases hreach : env.IsCDROMDevice front = true ∨ env.Exists front = true
      · by_cases hext : isPlaylistExtension (extensionOf env front)
        · rw [GenerateFromFile_playlist env fuel front rest session hreach hext] at h
          cases hl : (ReadM3UFile env front (env.SplitPath front).1).1 with
          | nil => rw [hl] at h; simp at h
          | cons nf nr =>
            rw [hl] at h
            exact classify_patches_on_disc env _ _ _ _ _ _ hrec _ _ h
        · rw [GenerateFromFile_direct env fuel front rest session hreach hext] at h
          exact classify_patches_on_disc env _ _ _ _ _ _ hrec _ _ h
      · have hd : env.IsCDROMDevice front = false := by
          cases h : env.IsCDROMDevice front
          · rfl
          · exact absurd (Or.inl h) hreach
        have hx : env.Exists front = false := by
          cases h : env.Exists front
          · rfl
          · exact absurd (Or.inr h) hreach
        rw [GenerateFromFile_not_found env fuel front rest session hd hx] at h
        simp at h

/-! ## The whole of `BootUp` -/

theorem BootUp_shape (env : BootEnv) (boot : BootParameters) :
    (BootUp env boot).succeeded
      = (BootTitle env boot.riivolution_patches boot.parameters).succeeded ∧
    (BootUp env boot).events =
      BootUp.preamble env ++
        (BootTitle env boot.riivolution_patches boot.parameters).events ++
        (if (BootTitle env boot.riivolution_patches boot.parameters).succeeded = true then
          [BootEvent.ApplyGeneralMemoryPatches boot.riivolution_patches] else []) := by
  unfold BootUp
  cases BootTitle env boot.riivolution_patches boot.parameters with
  | out_of_range ev => simp [BootResult.succeeded, BootResult.events]
  | returned value ev =>
    cases value <;> simp [BootResult.succeeded, BootResult.events]

/-- C22. For a Disc, Executable, install-package, installed-title or
firmware-ROM descriptor, the trace of `BootUp` signals "new title loaded"
exactly once when `BootUp` returns true and not at all otherwise, and `BootUp`
returns true exactly when the step of the variant does. For a replay-capture
descriptor `BootUp` returns exactly the result of `FifoPlayer::Open` on the
capture's path, after the preamble and the call of `Open` and, when `Open`
succeeded, the final call of `ApplyGeneralMemoryPatches` with the descriptor's
patch list, which is empty for every replay-capture descriptor that
`GenerateFromFile` returns; its trace never signals a new title and holds no
register assignment, no write to emulated memory and no mount. -/
theorem C22_new_title_signal (env : BootEnv) (boot : BootParameters) :
    (boot.parameters.variant ≠ Variant.DFF →
      ((BootUp env boot).succeeded
          = (BootTitle env boot.riivolution_patches boot.parameters).succeeded) ∧
      (∀ ev, BootUp env boot = BootResult.returned true ev → newTitleLoads ev = 1) ∧
      (∀ ev, BootUp env boot = BootResult.returned false ev → newTitleLoads ev = 0) ∧
      (∀ ev, BootUp env boot = BootResult.out_of_range ev → newTitleLoads ev = 0)) ∧
    (∀ dff_path, boot.parameters = Parameters.DFF dff_path →
      BootUp env boot = BootResult.returned (env.FifoPlayer_Open dff_path)
        (BootUp.preamble env ++ [BootEvent.FifoPlayer_Open dff_path] ++
          (if env.FifoPlayer_Open dff_path = true then
            [BootEvent.ApplyGeneralMemoryPatches boot.riivolution_patches] else [])) ∧
      newTitleLoads (BootUp env boot).events = 0 ∧
      writesOf (BootUp env boot).events = [] ∧
      memoryWritesOf (BootUp env boot).events = [] ∧
      setDiscCalls (BootUp env boot).events = [] ∧
      ∀ (files : Env) (fuel : Nat) (paths : List Str) (session : BootSessionData)
        (ev : List Event),
        GenerateFromFile files fuel paths session = Completion.returned (some boot) ev →
        boot.riivolution_patches = []) := by
  obtain ⟨p1, p2, p3, _, p5⟩ := preamble_facts env
  refine ⟨fun hv => ?_, fun dff_path hd => ?_⟩
  · obtain ⟨hs, he⟩ := BootUp_shape env boot
    have hn := (BootTitle_step env boot.riivolution_patches boot.parameters).2
    have key : newTitleLoads (BootUp env boot).events
        = if (BootUp env boot).succeeded = true then 1 else 0 := by
      rw [he, hs, newTitleLoads_append, newTitleLoads_append, p5, hn]
      by_cases hsuc : (BootTitle env boot.riivolution_patches boot.parameters).succeeded = true
      · simp [hsuc, hv, newTitleLoads]
      · simp [hsuc, newTitleLoads]
    refine ⟨hs, fun ev h => ?_, fun ev h => ?_, fun ev h => ?_⟩
    · rw [h] at key
      exact key
    · rw [h] at key
      exact key
    · rw [h] at key
      exact key
  · have hb : BootUp env boot = BootResult.returned (env.FifoPlayer_Open dff_path)
        (BootUp.preamble env ++ [BootEvent.FifoPlayer_Open dff_path] ++
          (if env.FifoPlayer_Open dff_path = true then
            [BootEvent.ApplyGeneralMemoryPatches boot.riivolution_patches] else [])) := by
      unfold BootUp
      rw [hd]
      simp only [BootTitle, BootTitle.DFF]
      cases env.FifoPlayer_Open dff_path <;> simp
    have hgen : ∀ (files : Env) (fuel : Nat) (paths : List Str) (session : BootSessionData)
        (ev : List Event),
        GenerateFromFile files fuel paths session = Completion.returned (some boot) ev →
        boot.riivolution_patches = [] := by
      intro files fuel paths session ev h
      rcases GenerateFromFile_patches_on_disc files fuel paths session boot ev h with h | ⟨d, h⟩
      · exact h
      · rw [hd] at h
        exact Parameters.noConfusion h
    rw [hb]
    refine ⟨rfl, ?_, ?_, ?_, ?_, hgen⟩
    · simp only [BootResult.events, newTitleLoads_append, p5]
      split <;> rfl
    · simp only [BootResult.events, writesOf_append, p1]
      split <;> rfl
    · simp only [BootResult.events, memoryWritesOf_append, p2]
      split <;> rfl
    · simp only [BootResult.events, setDiscCalls_append, p3]
      split <;> rfl

/-- C22, at the sample replay capture and at the sample executable on the
sample Wii session. -/
theorem C22_new_title_signal_witness :
    BootUp sampleBootEnv sampleDffBoot = BootResult.returned true
      [BootEvent.VideoInterface_Preset true, BootEvent.FifoPlayer_Open "/g/r.dff".toList,
       BootEvent.ApplyGeneralMemoryPatches []] ∧
    newTitleLoads (BootUp sampleWiiEnv sampleExecutable).events = 1 :=
  ⟨((C22_new_title_signal sampleBootEnv sampleDffBoot).2 _ rfl).1.trans (by decide),
   ((C22_new_title_signal sampleWiiEnv sampleExecutable).1 (by decide)).2.1
      (BootUp sampleWiiEnv sampleExecutable).events (by decide)⟩

/-! ## The final pass of general memory patches -/

/-- C23, refuted as stated: the sample Disc descriptor carries one patch, the
HLE boot of its disc fails, and `BootUp` returns false without having called
`ApplyGeneralMemoryPatches`. -/
theorem C23_failed_step_counterexample :
    samplePatchedDiscBoot.riivolution_patches = [{ id := 7 }] ∧
    BootUp sampleBootEnv samplePatchedDiscBoot
      = BootResult.returned false
          [BootEvent.VideoInterface_Preset true,
           BootEvent.SetDisc (some sampleVolume) ["/g/a.iso".toList, "/g/b.iso".toList],
           BootEvent.EmulatedBS2 false sampleVolume [{ id := 7 }]] ∧
    generalPatchCalls (BootUp sampleBootEnv samplePatchedDiscBoot).events = [] := by
  decide

/-- C23, amended. `BootUp` calls `ApplyGeneralMemoryPatches` exactly when the
step of the variant returned true, whichever variant it is: then once, as the
last action, after the preamble and the step, with the descriptor's patch
list, whether that list is empty or not. When the step returns false (or does
not return), `BootUp` does not call it, whatever patches the descriptor
carries. -/
theorem C23_general_patches (env : BootEnv) (boot : BootParameters) :
    (∀ ev, BootUp env boot = BootResult.returned true ev →
      (∃ step, BootTitle env boot.riivolution_patches boot.parameters
          = BootResult.returned true step ∧
        ev = BootUp.preamble env ++ step ++
          [BootEvent.ApplyGeneralMemoryPatches boot.riivolution_patches]) ∧
      generalPatchCalls ev = [boot.riivolution_patches]) ∧
    (∀ ev, BootUp env boot = BootResult.returned false ev →
      (∃ step, BootTitle env boot.riivolution_patches boot.parameters
          = BootResult.returned false step ∧
        ev = BootUp.preamble env ++ step) ∧
      generalPatchCalls ev = []) ∧
    (∀ ev, BootUp env boot = BootResult.out_of_range ev → generalPatchCalls ev = []) ∧
    ((∃ ev, BootUp env boot = BootResult.returned true ev) ↔
      ∃ step, BootTitle env boot.riivolution_patches boot.parameters
        = BootResult.returned true step) := by
  have hstep := (inStep_no_calls _
    (BootTitle_step env boot.riivolution_patches boot.parameters).1).1
  have hpre : generalPatchCalls (BootUp.preamble env) = [] := by
    unfold BootUp.preamble
    split <;> rfl
  unfold BootUp
  cases ht : BootTitle env boot.riivolution_patches boot.parameters with
  | out_of_range step =>
    rw [ht] at hstep
    simp only [BootResult.events] at hstep
    simp [generalPatchCalls_append, hpre, hstep]
  | returned value step =>
    rw [ht] at hstep
    simp only [BootResult.events] at hstep
    cases value with
    | false =>
      refine ⟨by simp, fun ev h => ?_, by simp, by simp⟩
      injection h with _ h
      subst h
      exact ⟨⟨step, rfl, rfl⟩, by simp [generalPatchCalls_append, hpre, hstep]⟩
    | true => simp [generalPatchCalls_append, hpre, hstep, generalPatchCalls]

/-! ## The video timing of the preamble -/

/-- C24, refuted as stated: on the GameCube family, in the PAL region with
the PAL60 override active, `BootUp` presets the video timing of the 50 Hz
family. -/
theorem C24_gamecube_pal60_counterexample :
    samplePalEnv.bWii = false ∧ samplePalEnv.m_region = Region.PAL ∧
    samplePalEnv.SYSCONF_PAL60 = true ∧
    presetCalls (BootUp samplePalEnv sampleExecutable).events = [false] := by
  decide

/-- C24, amended. `BootUp` presets the video timing exactly once, in its
preamble, which comes before the step of the variant for every variant: after
clearing a non-empty symbol table, it calls `VideoInterface::Preset` with the
60 Hz family exactly when the configured region is NTSC-like (as
`DiscIO::IsNTSC` says) or the platform is the Wii family and the PAL60
override is active, and with the 50 Hz family otherwise; on the GameCube
family the override plays no part. -/
theorem C24_video_preset (env : BootEnv) (boot : BootParameters) :
    (∃ after, (BootUp env boot).events =
      (if env.symbolDB_IsEmpty = true then []
        else [BootEvent.symbolDB_Clear, BootEvent.UpdateDebugger_MapLoaded]) ++
      [BootEvent.VideoInterface_Preset
        (env.IsNTSC env.m_region || (env.bWii && env.SYSCONF_PAL60))] ++
      (BootTitle env boot.riivolution_patches boot.parameters).events ++ after) ∧
    presetCalls (BootUp env boot).events
      = [env.IsNTSC env.m_region || (env.bWii && env.SYSCONF_PAL60)] ∧
    (((env.IsNTSC env.m_region || (env.bWii && env.SYSCONF_PAL60)) = true) ↔
      (env.IsNTSC env.m_region = true ∨ (env.bWii = true ∧ env.SYSCONF_PAL60 = true))) ∧
    (env.bWii = false →
      presetCalls (BootUp env boot).events = [env.IsNTSC env.m_region]) := by
  obtain ⟨_, he⟩ := BootUp_shape env boot
  have hstep := (inStep_no_calls _
    (BootTitle_step env boot.riivolution_patches boot.parameters).1).2
  have hpre : BootUp.preamble env =
      (if env.symbolDB_IsEmpty = true then []
        else [BootEvent.symbolDB_Clear, BootEvent.UpdateDebugger_MapLoaded]) ++
      [BootEvent.VideoInterface_Preset
        (env.IsNTSC env.m_region || (env.bWii && env.SYSCONF_PAL60))] := by
    unfold BootUp.preamble
    cases env.symbolDB_IsEmpty <;> rfl
  have hcalls : presetCalls (BootUp env boot).events
      = [env.IsNTSC env.m_region || (env.bWii && env.SYSCONF_PAL60)] := by
    have htail : presetCalls
        (if (BootTitle env boot.riivolution_patches boot.parameters).succeeded = true then
          [BootEvent.ApplyGeneralMemoryPatches boot.riivolution_patches] else []) = [] := by
      split <;> rfl
    rw [he, presetCalls_append, presetCalls_append, hstep, htail, hpre, presetCalls_append]
    cases env.symbolDB_IsEmpty <;> simp [presetCalls]
  refine ⟨⟨_, by rw [he, hpre]⟩, hcalls, by simp, fun hgc => ?_⟩
  rw [hcalls, hgc]
  simp

/-! ## The patch integrator -/

/-- C25. `AddRiivolutionPatches` is a no-op when the patch list is empty or
the descriptor is not a Disc: the descriptor (its variant, its volume and its
stored patch list) is unchanged and nothing is opened; in particular applying
an empty list to a descriptor any number of times leaves it the same. When
the list is non-empty and the descriptor is a Disc, the descriptor stays a
Disc with the same path and sibling list, its volume is the re-opened
directory view of the old one, and its stored patch list becomes exactly the
supplied list, in order. -/
theorem C25_AddRiivolutionPatches (env : Env) (boot_params : BootParameters)
    (patches : List Patch) :
    (patches = [] → AddRiivolutionPatches env boot_params patches = (boot_params, [])) ∧
    ((∀ disc, boot_params.parameters ≠ Parameters.Disc disc) →
      AddRiivolutionPatches env boot_params patches = (boot_params, [])) ∧
    (∀ n : Nat, (fun b => (AddRiivolutionPatches env b []).1)^[n] boot_params = boot_params) ∧
    (∀ disc, patches ≠ [] → boot_params.parameters = Parameters.Disc disc →
      AddRiivolutionPatches env boot_params patches =
        ({ parameters := Parameters.Disc
             { path := disc.path,
               volume := env.CreateDirectoryBlobDisc disc.volume patches,
               auto_disc_change_paths := disc.auto_disc_change_paths },
           riivolution_patches := patches,
           boot_session_data := boot_params.boot_session_data },
         [Event.CreateDirectoryBlobDisc patches])) := by
  refine ⟨?_, ?_, ?_, ?_⟩
  · intro h
    simp [AddRiivolutionPatches, h]
  · intro h
    unfold AddRiivolutionPatches
    split
    · rfl
    · split
      · rename_i disc heq
        exact absurd heq (h disc)
      · rfl
  · intro n
    exact Function.iterate_fixed (by simp [AddRiivolutionPatches]) n
  · intro disc hne hd
    have hemp : patches.isEmpty = false := by
      cases patches with
      | nil => exact absurd rfl hne
      | cons p ps => rfl
    unfold AddRiivolutionPatches
    simp only [hemp, Bool.false_eq_true, if_false, hd]

/-- C25, at a Disc descriptor with one patch and at an executable. -/
theorem C25_AddRiivolutionPatches_witness :
    (AddRiivolutionPatches sampleEnv sampleDiscBoot [{ id := 7 }]).1 =
      { parameters := Parameters.Disc
          { path := "/g/a.iso".toList, volume := some sampleVolume,
            auto_disc_change_paths := ["/g/a.iso".toList, "/g/b.iso".toList] },
        riivolution_patches := [{ id := 7 }], boot_session_data := plainSession } ∧
    AddRiivolutionPatches sampleEnv sampleExecutable [{ id := 7 }] = (sampleExecutable, []) :=
  ⟨(congrArg Prod.fst ((C25_AddRiivolutionPatches sampleEnv sampleDiscBoot [{ id := 7 }]).2.2.2
      _ (by decide) rfl)).trans (by decide),
   (C25_AddRiivolutionPatches sampleEnv sampleExecutable [{ id := 7 }]).2.1
     (fun _ h => Parameters.noConfusion h)⟩

/-! ## The default exception handlers -/

theorem stores_frame (value : Nat) :
    ∀ (addresses : List Nat) (memory : Nat → Nat) (x : Nat),
      (∀ a ∈ addresses, x < a ∨ a + 4 ≤ x) →
      memoryAfterStores (addresses.map (fun a => BootEvent.Write_U32 value a)) memory x
        = memory x := by
  intro addresses
  induction addresses with
  | nil => intro memory x _; rfl
  | cons b bs ih =>
    intro memory x h
    have hb := h b (List.mem_cons_self _ _)
    simp only [List.map_cons, memoryAfterStores]
    rw [ih _ x (fun a ha => h a (List.mem_cons_of_mem _ ha))]
    unfold Memory.Write_U32
    rw [if_neg (by omega), if_neg (by omega), if_neg (by omega), if_neg (by omega)]

theorem stores_read (value : Nat) (hv : value < 2 ^ 32) :
    ∀ (addresses : List Nat) (memory : Nat → Nat) (a : Nat),
      a ∈ addresses →
      addresses.Pairwise (fun b c => b + 4 ≤ c ∨ c + 4 ≤ b) →
      Memory.Read_U32
        (memoryAfterStores (addresses.map (fun a => BootEvent.Write_U32 value a)) memory) a
        = value := by
  intro addresses
  induction addresses with
  | nil => intro memory a ha; simp at ha
  | cons b bs ih =>
    intro memory a ha hp
    rw [List.pairwise_cons] at hp
    simp only [List.map_cons, memoryAfterStores]
    by_cases hmem : a ∈ bs
    · exact ih _ a hmem hp.2
    · have hab : a = b := by
        rcases List.mem_cons.mp ha with h | h
        · exact h
        · exact absurd h hmem
      subst hab
      have hout : ∀ i, i < 4 → ∀ c ∈ bs, a + i < c ∨ c + 4 ≤ a + i := by
        intro i hi c hc
        have := hp.1 c hc
        omega
      unfold Memory.Read_U32
      rw [stores_frame value bs _ a (by simpa using hout 0 (by omega)),
        stores_frame value bs _ (a + 1) (hout 1 (by omega)),
        stores_frame value bs _ (a + 2) (hout 2 (by omega)),
        stores_frame value bs _ (a + 3) (hout 3 (by omega))]
      unfold Memory.Write_U32
      rw [if_pos rfl, if_neg (by omega), if_pos rfl, if_neg (by omega), if_neg (by omega),
        if_pos rfl, if_neg (by omega), if_neg (by omega), if_neg (by omega), if_pos rfl]
      omega

/-- C26. `CopyDefaultExceptionHandlers` makes exactly fifteen 32-bit stores,
of the return-from-interrupt instruction 0x4C000064 at the addresses 0x100,
0x200, 0x300, 0x400, 0x500, 0x600, 0x700, 0x800, 0x900, 0xC00, 0xD00, 0xF00,
0x1300, 0x1400 and 0x1700, and nothing else. Whatever the emulated memory held
before, the word at each of these addresses is 0x4C000064 afterwards; the
fifteen words are pairwise disjoint; and every byte outside them holds what it
held before. -/
theorem C26_CopyDefaultExceptionHandlers :
    CopyDefaultExceptionHandlers =
      [BootEvent.Write_U32 0x4C000064 0x100, BootEvent.Write_U32 0x4C000064 0x200,
       BootEvent.Write_U32 0x4C000064 0x300, BootEvent.Write_U32 0x4C000064 0x400,
       BootEvent.Write_U32 0x4C000064 0x500, BootEvent.Write_U32 0x4C000064 0x600,
       BootEvent.Write_U32 0x4C000064 0x700, BootEvent.Write_U32 0x4C000064 0x800,
       BootEvent.Write_U32 0x4C000064 0x900, BootEvent.Write_U32 0x4C000064 0xC00,
       BootEvent.Write_U32 0x4C000064 0xD00, BootEvent.Write_U32 0x4C000064 0xF00,
       BootEvent.Write_U32 0x4C000064 0x1300, BootEvent.Write_U32 0x4C000064 0x1400,
       BootEvent.Write_U32 0x4C000064 0x1700] ∧
    memoryWritesOf CopyDefaultExceptionHandlers = CopyDefaultExceptionHandlers ∧
    EXCEPTION_HANDLER_ADDRESSES.length = 15 ∧
    (∀ (memory : Nat → Nat), ∀ a ∈ EXCEPTION_HANDLER_ADDRESSES,
      Memory.Read_U32 (memoryAfterStores CopyDefaultExceptionHandlers memory) a = 0x4C000064) ∧
    EXCEPTION_HANDLER_ADDRESSES.Pairwise (fun a b => a + 4 ≤ b ∨ b + 4 ≤ a) ∧
    (∀ (memory : Nat → Nat) (x : Nat),
      (∀ a ∈ EXCEPTION_HANDLER_ADDRESSES, x < a ∨ a + 4 ≤ x) →
      memoryAfterStores CopyDefaultExceptionHandlers memory x = memory x) := by
  have hp : EXCEPTION_HANDLER_ADDRESSES.Pairwise (fun a b => a + 4 ≤ b ∨ b + 4 ≤ a) := by
    decide
  refine ⟨by decide, by decide, rfl, ?_, hp, ?_⟩
  · intro memory a ha
    exact stores_read RFI_INSTRUCTION (by decide) EXCEPTION_HANDLER_ADDRESSES memory a ha hp
  · intro memory x hx
    exact stores_frame RFI_INSTRUCTION EXCEPTION_HANDLER_ADDRESSES memory x hx

/-! ## Facts about the accesses to the ROM dump -/

theorem dumpAccesses_append (xs ys : List BootEvent) :
    dumpAccesses (xs ++ ys) = dumpAccesses xs ++ dumpAccesses ys := by
  induction xs with
  | nil => rfl
  | cons e xs ih => cases e <;> simp [dumpAccesses, ih]

theorem dumpAccesses_alerts (as : List BootAlert) :
    dumpAccesses (as.map BootEvent.alert) = [] := by
  induction as with
  | nil => rfl
  | cons a as ih => simpa [dumpAccesses] using ih

theorem dumpAccesses_warnings (env : BootEnv) (ipl_hash : Nat) :
    dumpAccesses (Load_BS2.warnings env ipl_hash) = [] := by
  rw [warnings_are_alerts]
  exact dumpAccesses_alerts _


/-! ## The firmware ROM and its embedded disc -/

theorem Load_BS2_no_mounts (env : BootEnv) (path : Str) :
    setDiscCalls (Load_BS2 env path).events = [] := by
  have hw : ∀ h, setDiscCalls (Load_BS2.warnings env h) = [] := by
    intro h
    rw [warnings_are_alerts]
    exact (alerts_map _).2.2.2
  unfold Load_BS2
  cases env.ReadFileToString path with
  | none => rfl
  | some data =>
    simp only
    split
    · simp only [BootResult.events, setDiscCalls_append, hw]
      rfl
    · split
      · simp only [BootResult.events, setDiscCalls_append, hw]
        rfl
      · simp only [BootResult.events, setDiscCalls_append, hw]
        rfl

/-- C27. For a firmware-ROM descriptor whose ROM path does not exist,
`BootUp` returns false after the preamble, the test for the path and one
alert, which is "Cannot start the game, because the GC IPL could not be
found." when the descriptor has an embedded disc and "Cannot find the GC IPL."
when it has none: no ROM is read, no register is assigned, no emulated memory
is written and nothing is mounted. When the path exists, the only mount is
that of the embedded disc (opened from its path, with its auto-swap list), and
it is made only when `Load_BS2` returned true, after all that `Load_BS2` did
and before the new title is signalled; when `Load_BS2` returns false or does
not return, nothing is mounted. -/
theorem C27_firmware_rom (env : BootEnv) (boot : BootParameters) (path : Str)
    (region : Region) (disc : Option Disc)
    (hipl : boot.parameters = Parameters.IPL path region disc) :
    (env.Exists path = false →
      BootUp env boot = BootResult.returned false
        (BootUp.preamble env ++
          [BootEvent.Exists path,
           BootEvent.alert (if disc.isSome = true then BootAlert.game_needs_gc_ipl
                            else BootAlert.cannot_find_gc_ipl)]) ∧
      writesOf (BootUp env boot).events = [] ∧
      memoryWritesOf (BootUp env boot).events = [] ∧
      dumpAccesses (BootUp env boot).events = [] ∧
      setDiscCalls (BootUp env boot).events = []) ∧
    BootAlert.game_needs_gc_ipl ≠ BootAlert.cannot_find_gc_ipl ∧
    (env.Exists path = true →
      (∀ ev, Load_BS2 env path = BootResult.returned false ev →
        BootUp env boot
          = BootResult.returned false (BootUp.preamble env ++ [BootEvent.Exists path] ++ ev) ∧
        setDiscCalls (BootUp env boot).events = []) ∧
      (∀ ev, Load_BS2 env path = BootResult.out_of_range ev →
        BootUp env boot
          = BootResult.out_of_range (BootUp.preamble env ++ [BootEvent.Exists path] ++ ev) ∧
        setDiscCalls (BootUp env boot).events = []) ∧
      (∀ ev, Load_BS2 env path = BootResult.returned true ev →
        BootUp env boot = BootResult.returned true
          (BootUp.preamble env ++ [BootEvent.Exists path] ++ ev ++
            insertEmbeddedDisc env disc ++
            [BootEvent.OnNewTitleLoad,
             BootEvent.ApplyGeneralMemoryPatches boot.riivolution_patches]) ∧
        setDiscCalls (BootUp env boot).events =
          (disc.map (fun d => (env.CreateDisc d.path, d.auto_disc_change_paths))).toList)) := by
  obtain ⟨p1, p2, p3, _, _⟩ := preamble_facts env
  have p4 : dumpAccesses (BootUp.preamble env) = [] := by
    unfold BootUp.preamble
    split <;> rfl
  have hm := Load_BS2_no_mounts env path
  refine ⟨fun hx => ?_, by decide, fun hx => ⟨fun ev hl => ?_, fun ev hl => ?_, fun ev hl => ?_⟩⟩
  · have hb : BootUp env boot = BootResult.returned false
        (BootUp.preamble env ++
          [BootEvent.Exists path,
           BootEvent.alert (if disc.isSome = true then BootAlert.game_needs_gc_ipl
                            else BootAlert.cannot_find_gc_ipl)]) := by
      unfold BootUp
      rw [hipl]
      simp only [BootTitle, BootTitle.IPL, hx]
      cases disc <;> simp
    rw [hb]
    refine ⟨rfl, ?_, ?_, ?_, ?_⟩
    · simp only [BootResult.events, writesOf_append, p1]
      rfl
    · simp only [BootResult.events, memoryWritesOf_append, p2]
      rfl
    · simp only [BootResult.events, dumpAccesses_append, p4]
      rfl
    · simp only [BootResult.events, setDiscCalls_append, p3]
      rfl
  · rw [hl] at hm
    simp only [BootResult.events] at hm
    have hb : BootUp env boot
        = BootResult.returned false (BootUp.preamble env ++ [BootEvent.Exists path] ++ ev) := by
      unfold BootUp
      rw [hipl]
      simp [BootTitle, BootTitle.IPL, hx, hl]
    rw [hb]
    refine ⟨rfl, ?_⟩
    simp only [BootResult.events, setDiscCalls_append, p3, hm]
    rfl
  · rw [hl] at hm
    simp only [BootResult.events] at hm
    have hb : BootUp env boot
        = BootResult.out_of_range (BootUp.preamble env ++ [BootEvent.Exists path] ++ ev) := by
      unfold BootUp
      rw [hipl]
      simp [BootTitle, BootTitle.IPL, hx, hl]
    rw [hb]
    refine ⟨rfl, ?_⟩
    simp only [BootResult.events, setDiscCalls_append, p3, hm]
    rfl
  · rw [hl] at hm
    simp only [BootResult.events] at hm
    have hb : BootUp env boot = BootResult.returned true
          (BootUp.preamble env ++ [BootEvent.Exists path] ++ ev ++
            insertEmbeddedDisc env disc ++
            [BootEvent.OnNewTitleLoad,
             BootEvent.ApplyGeneralMemoryPatches boot.riivolution_patches]) := by
      unfold BootUp
      rw [hipl]
      cases disc <;> simp [BootTitle, BootTitle.IPL, SetDisc, insertEmbeddedDisc, hx, hl]
    rw [hb]
    refine ⟨rfl, ?_⟩
    cases disc <;>
      simp [BootResult.events, setDiscCalls_append, p3, hm, setDiscCalls, insertEmbeddedDisc]

/-- C27, at the sample firmware-ROM descriptor with its embedded disc: with
no file present, and with the sample ROM dump present. -/
theorem C27_firmware_rom_witness :
    BootUp { sampleBootEnv with Exists := fun _ => false } sampleIplBoot
      = BootResult.returned false
          [BootEvent.VideoInterface_Preset true, BootEvent.Exists "/ipl/ok.bin".toList,
           BootEvent.alert BootAlert.game_needs_gc_ipl] ∧
    setDiscCalls (BootUp sampleBootEnv sampleIplBoot).events
      = [(some sampleVolume, ["/g/a.iso".toList, "/g/b.iso".toList])] :=
  ⟨((C27_firmware_rom { sampleBootEnv with Exists := fun _ => false } sampleIplBoot
      _ _ _ rfl).1 rfl).1.trans (by decide),
   (((C27_firmware_rom sampleBootEnv sampleIplBoot _ _ _ rfl).2.2 rfl).2.2
      (Load_BS2 sampleBootEnv "/ipl/ok.bin".toList).events (by decide)).2.trans (by decide)⟩

/-! ## A mod descriptor whose base file is itself -/

/-- C28. For a mod descriptor `.json` file that exists, is not a device,
parses, and names itself as its base file, `GenerateFromFile` never returns:
whatever bound is put on the depth of the recursion through base files, the
bound is exhausted, because each level calls the function again on the same
path and nothing in the function guards against the repetition. -/
theorem C28_self_base_never_returns (env : Env) (json_path : Str)
    (descriptor : GameModDescriptor)
    (hd : env.IsCDROMDevice json_path = false) (hx : env.Exists json_path = true)
    (hext : extensionOf env json_path = ".json".toList)
    (hparse : env.ParseGameModDescriptorFile json_path = some descriptor)
    (hself : descriptor.base_file = json_path) :
    ∀ (fuel : Nat) (rest : List Str) (session : BootSessionData),
      GenerateFromFile env fuel (json_path :: rest) session = Completion.out_of_fuel := by
  intro fuel
  induction fuel with
  | zero => intro rest session; rfl
  | succ fuel ih =>
    intro rest session
    rw [GenerateFromFile_direct env fuel json_path rest session (Or.inr hx)
      (by rw [hext]; decide), hd,
      classify_other env _ json_path rest _ session _ (by rw [hext]; decide)
        (by rw [hext]; decide), hext]
    simp only [show (".json".toList = ".wad".toList) = False from by decide, if_false,
      if_true, hparse]
    simp only [GenerateFromFile.json, hself, ih [] session]

/-- C28, at the descriptor `/g/loop.json` of the sample file system, whose
base file is `/g/loop.json`, with depth bounds 1 and 1000. -/
theorem C28_self_base_never_returns_witness :
    GenerateFromFile sampleEnv 1 ["/g/loop.json".toList] plainSession
      = Completion.out_of_fuel ∧
    GenerateFromFile sampleEnv 1000 ["/g/loop.json".toList] plainSession
      = Completion.out_of_fuel :=
  ⟨C28_self_base_never_returns sampleEnv "/g/loop.json".toList
      { base_file := "/g/loop.json".toList, riivolution := none }
      (by decide) (by decide) (by decide) (by decide) rfl 1 [] plainSession,
   C28_self_base_never_returns sampleEnv "/g/loop.json".toList
      { base_file := "/g/loop.json".toList, riivolution := none }
      (by decide) (by decide) (by decide) (by decide) rfl 1000 [] plainSession⟩

/-! ## The accesses of `Load_BS2` to the ROM dump -/

/-- C29. For a readable ROM dump of at least 0x1B0620 bytes, `Load_BS2`
returns true and its three accesses to the dump (0x1AFE00 bytes from offset
0x100, 0x700 bytes from offset 0x100, 0x1AFE00 bytes from offset 0x820) all
lie within the dump. There is no check of the length: for every shorter
readable dump the same accesses are attempted as far as the run gets, and one
of them ends beyond the last byte of the dump. For a dump of exactly 0x1B061F
bytes that access is the second copy, which reads one character more than the
dump has, the terminator of the string, and `Load_BS2` still returns true; for
every dump shorter than that, the empty one included, `Load_BS2` does not
return but reaches an access that ends beyond the dump. -/
theorem C29_dump_accesses (env : BootEnv) (path : Str) (data : FileData)
    (hread : env.ReadFileToString path = some data) :
    (0x1B0620 ≤ data.size →
      (∃ events, Load_BS2 env path = BootResult.returned true events) ∧
      dumpAccesses (Load_BS2 env path).events
        = [(0x100, 0x1AFE00), (0x100, 0x700), (0x820, 0x1AFE00)] ∧
      ∀ a ∈ dumpAccesses (Load_BS2 env path).events, a.1 + a.2 ≤ data.size) ∧
    (data.size = 0x1B061F →
      (∃ events, Load_BS2 env path = BootResult.returned true events) ∧
      dumpAccesses (Load_BS2 env path).events
        = [(0x100, 0x1AFE00), (0x100, 0x700), (0x820, 0x1AFE00)] ∧
      0x820 + 0x1AFE00 = data.size + 1) ∧
    (data.size < 0x1B061F →
      (∃ events, Load_BS2 env path = BootResult.out_of_range events) ∧
      ∃ a ∈ dumpAccesses (Load_BS2 env path).events, data.size < a.1 + a.2) ∧
    (data.size < 0x1B0620 →
      ∃ a ∈ dumpAccesses (Load_BS2 env path).events, data.size < a.1 + a.2) := by
  have hw := dumpAccesses_warnings env (env.ComputeCRC32 data)
  have hacc : 0x1B061F ≤ data.size →
      dumpAccesses (Load_BS2 env path).events
        = [(0x100, 0x1AFE00), (0x100, 0x700), (0x820, 0x1AFE00)] := by
    intro hlen
    rw [Load_BS2_full env path data hread hlen]
    simp only [BootResult.events, dumpAccesses_append, hw]
    rfl
  have hshort : data.size < 0x1B061F →
      (∃ events, Load_BS2 env path = BootResult.out_of_range events) ∧
      ∃ a ∈ dumpAccesses (Load_BS2 env path).events, data.size < a.1 + a.2 := by
    intro hlt
    by_cases h1 : data.size < 0x100 + 0x1AFE00
    · simp only [Load_BS2, hread, if_pos h1]
      refine ⟨⟨_, rfl⟩, (0x100, 0x1AFE00), ?_, h1⟩
      simp [BootResult.events, dumpAccesses_append, hw, dumpAccesses]
    · have h2 : data.size + 1 < 0x820 + 0x1AFE00 := by omega
      simp only [Load_BS2, hread, if_neg h1, if_pos h2]
      refine ⟨⟨_, rfl⟩, (0x820, 0x1AFE00), ?_, by simp only; omega⟩
      simp [BootResult.events, dumpAccesses_append, hw, dumpAccesses]
  refine ⟨fun hlen => ?_, fun heq => ?_, hshort, fun hlt => ?_⟩
  · refine ⟨⟨_, Load_BS2_full env path data hread (by omega)⟩, hacc (by omega), ?_⟩
    rw [hacc (by omega)]
    intro a ha
    simp only [List.mem_cons, List.mem_singleton, List.not_mem_nil, or_false] at ha
    rcases ha with rfl | rfl | rfl <;> simp only <;> omega
  · exact ⟨⟨_, Load_BS2_full env path data hread (by omega)⟩, hacc (by omega), by omega⟩
  · by_cases h : data.size < 0x1B061F
    · exact (hshort h).2
    · rw [hacc (by omega)]
      exact ⟨(0x820, 0x1AFE00), by simp, by simp only; omega⟩

/-- C29, at the readable empty dump `/ipl/short.bin` of the sample file
system: the descrambling of 0x1AFE00 bytes from offset 0x100 is attempted. -/
theorem C29_dump_accesses_witness :
    (∃ events, Load_BS2 sampleBootEnv "/ipl/short.bin".toList
        = BootResult.out_of_range events) ∧
    ∃ a ∈ dumpAccesses (Load_BS2 sampleBootEnv "/ipl/short.bin".toList).events, 0 < a.1 + a.2 :=
  (C29_dump_accesses sampleBootEnv "/ipl/short.bin".toList
    { size := 0, byte := fun _ => 0 } (by rfl)).2.2.1 (by decide)

/-! ## The state file that cannot be opened -/

theorem UpdateStateFlags_not_opened (L : Layout) (f : StateFlags → StateFlags) (fs : StateFS)
    (hopen : fs.can_open = false) : UpdateStateFlags L f fs = (fs, []) := by
  unfold UpdateStateFlags StateFS.CreateAndOpenFile
  simp [hopen]

/-- C30. When the state file cannot be created or opened, `UpdateStateFlags`
returns with the file system as it was and an empty trace: the mutation
function is never invoked and nothing is written. When the file can be opened,
the trace ends with one invocation of the mutation followed by one write at
offset 0 of the mutated record with its checksum recomputed, these are the
only invocation and the only write, and the bytes written are one full record
(`sizeof(StateFlags)` bytes). -/
theorem C30_open_failure_and_single_write (L : Layout) (f : StateFlags → StateFlags)
    (fs : StateFS)
    (hlen : (f (storedOrZero L fs)).flags.length = 4 * L.num_words) :
    (fs.can_open = false →
      UpdateStateFlags L f fs = (fs, []) ∧
      mutationArguments (UpdateStateFlags L f fs).2 = [] ∧
      fileWrites (UpdateStateFlags L f fs).2 = []) ∧
    (fs.can_open = true →
      (∃ before, (UpdateStateFlags L f fs).2 = before ++
          [StateEvent.update_function (storedOrZero L fs),
           StateEvent.write 0 ((UpdateChecksum L (f (storedOrZero L fs))).toBytes L)] ∧
        mutationArguments before = [] ∧ fileWrites before = []) ∧
      mutationArguments (UpdateStateFlags L f fs).2 = [storedOrZero L fs] ∧
      fileWrites (UpdateStateFlags L f fs).2 =
        [(0, (UpdateChecksum L (f (storedOrZero L fs))).toBytes L)] ∧
      ((UpdateChecksum L (f (storedOrZero L fs))).toBytes L).length = sizeofStateFlags L) := by
  refine ⟨fun h => ?_, fun h => ?_⟩
  · rw [UpdateStateFlags_not_opened L f fs h]
    exact ⟨rfl, rfl, rfl⟩
  · rw [UpdateStateFlags_opened L f fs h]
    refine ⟨⟨_, rfl, ?_, ?_⟩, ?_, ?_, toBytes_length L _ hlen⟩
    · split <;> rfl
    · split <;> rfl
    · split <;> simp [mutationArguments]
    · split <;> simp [fileWrites]

/-- C30, at a state file that cannot be opened and at one that can, with the
header's layout and a mutation that sets every flag byte. -/
theorem C30_open_failure_and_single_write_witness :
    UpdateStateFlags headerLayout (fun s => { s with flags := s.flags.map (fun _ => 1) })
        { state_file := some (List.replicate 32 1), can_open := false }
      = ({ state_file := some (List.replicate 32 1), can_open := false }, []) ∧
    fileWrites (UpdateStateFlags headerLayout
        (fun s => { s with flags := s.flags.map (fun _ => 1) })
        { state_file := none, can_open := true }).2
      = [(0, [7, 7, 7, 7] ++ List.replicate 28 1)] :=
  ⟨((C30_open_failure_and_single_write headerLayout
      (fun s => { s with flags := s.flags.map (fun _ => 1) })
      { state_file := some (List.replicate 32 1), can_open := false } (by decide)).1 rfl).1,
   ((C30_open_failure_and_single_write headerLayout
      (fun s => { s with flags := s.flags.map (fun _ => 1) })
      { state_file := none, can_open := true } (by decide)).2 rfl).2.2.1.trans (by decide)⟩

end Dolphin
